import Mathlib

/-!
# Load-test orchestrator: embedding of the controller and handlers

Conventions of the embedding.

* Go `string` values that are only compared or copied (ids, names, phases)
  are `String`; log lines, which the extractor inspects byte by byte, are
  lists of characters (`Line`).  The only bytes the extractor looks for are
  ASCII, so character positions and byte positions select the same text.
* `int32` and `int64` values are integers; `int64` additions are reduced
  into the `int64` range by `wrapInt64`.
* `float64` values are rationals: arithmetic on them is exact.
* `time.Time` is a count of nanoseconds; `time.Duration` is an `int64`
  count of nanoseconds and `Sub` saturates as in the Go library.
* Calls to the orchestrator and to the store are explicit arguments and
  results: a `KubeClient` holds what the orchestrator answers, a `Store`
  is the list of rows of `load_tests`.
* Every statement sent to the store succeeds or fails on its own: each
  statement function takes, as a boolean, whether the store answers that
  statement, and a handler run takes those answers from its
  `StoreAnswers`.
* A handler run is a function from the store it begins on to its result;
  `interleave` runs the statements of several operations one by one, in any
  order, on the store as it then is.
-/

namespace Loadtest

/-! ## Orchestrator objects -/

/-- Instant in nanoseconds. -/
abbrev Time := Int

/-- One entry of `job.Status.Conditions`. -/
structure JobCondition where
  type : String
  status : String
  lastTransitionTime : Time
  deriving DecidableEq, Repr

/-- The fields of `batchv1.JobStatus` the program reads. -/
structure JobStatus where
  active : Int
  succeeded : Int
  failed : Int
  startTime : Option Time
  completionTime : Option Time
  conditions : List JobCondition
  deriving DecidableEq, Repr

/-- One environment variable of a container. -/
structure EnvVar where
  name : String
  value : String
  deriving DecidableEq, Repr

/-- A container of the pod template. -/
structure Container where
  name : String
  image : String
  env : List EnvVar
  deriving DecidableEq, Repr

/-- The fields of `batchv1.JobSpec` the program sets; the two counts are
`*int32`. -/
structure JobSpec where
  parallelism : Option Int
  completions : Option Int
  restartPolicy : String
  containers : List Container
  deriving DecidableEq, Repr

/-- A workload (`batchv1.Job`): object metadata, spec and status. -/
structure Job where
  name : String
  ns : String
  labels : List (String × String)
  spec : JobSpec
  status : JobStatus
  deriving DecidableEq, Repr

/-- Test configuration of package `models`; Go `int` fields are integers,
the headers map is the list of its entries. -/
structure LoadTestConfig where
  duration : Int
  requestsPerSec : Int
  maxConcurrency : Int
  workerCount : Int
  httpMethod : String
  headers : List (String × String)
  body : String
  deriving DecidableEq, Repr

/-- A load test, in memory and as a row of `load_tests`. -/
structure LoadTest where
  id : String
  name : String
  userID : String
  targetURL : String
  config : LoadTestConfig
  status : String
  createdAt : Time
  completedAt : Option Time
  deriving DecidableEq, Repr

/-- Transient status of package `models`. -/
structure LoadTestStatus where
  testID : String
  phase : String
  active : Int
  succeeded : Int
  failed : Int
  startTime : Option Time
  deriving DecidableEq, Repr

/-- A log line as the scanner hands it over (Go `string`, as characters). -/
abbrev Line := List Char

/-- A pod: its name and `pod.Status.Phase`. -/
structure Pod where
  name : String
  phase : String
  deriving DecidableEq, Repr

/-- Outcome of opening a pod log and scanning it to the end: the lines the
scanner produced and the value of `scanner.Err()`. -/
structure LogStream where
  lines : List Line
  scanErr : Option String

/-- What the orchestrator answers to the read calls of the controller:
`getJob ns name` is `Jobs(ns).Get(name)`, `listPods ns selector` is
`Pods(ns).List` with that label selector, `podLogs ns pod tail` is
`Pods(ns).GetLogs(pod, TailLines = tail).Stream`. -/
structure KubeClient where
  getJob : String → String → Except String Job
  listPods : String → String → Except String (List Pod)
  podLogs : String → String → Nat → Except String LogStream
  /-- `Jobs(ns).Create(job)`: the error, if any. -/
  createJob : String → Job → Option String
  /-- `Jobs(ns).Delete(name)` with `DeleteOptions.PropagationPolicy` set to
  the third argument: the error, if any. -/
  deleteJob : String → String → String → Option String
  /-- `Jobs(ns).List` with that label selector. -/
  listJobs : String → String → Except String (List Job)

/-- The controller: its client and its namespace.  `marshalHeaders` is
`json.Marshal` on the headers map. -/
structure LoadTestController where
  kubeClient : KubeClient
  ns : String
  marshalHeaders : List (String × String) → Except String String

/-- Name of the workload of a test: `fmt.Sprintf("loadtest-%s", testID)`. -/
def jobName (testID : String) : String := "loadtest-" ++ testID

/-- Embedding of `LoadTestController.GetLoadTestStatus`. -/
def LoadTestController.GetLoadTestStatus (c : LoadTestController) (testID : String) :
    Except String LoadTestStatus :=
  match c.kubeClient.getJob c.ns (jobName testID) with
  | .error err => .error ("failed to get job " ++ jobName testID ++ ": " ++ err)
  | .ok job =>
    let status : LoadTestStatus :=
      { testID := testID
        phase := ""
        active := job.status.active
        succeeded := job.status.succeeded
        failed := job.status.failed
        startTime := job.status.startTime }
    if job.status.active > 0 then .ok { status with phase := "Running" }
    else if job.status.succeeded > 0 then .ok { status with phase := "Completed" }
    else if job.status.failed > 0 then .ok { status with phase := "Failed" }
    else .ok { status with phase := "Pending" }

/-- Reduction of an integer into the `int32` range: the conversion
`int32(n)` of a Go `int`. -/
def wrapInt32 (x : Int) : Int := (x + 2147483648) % 4294967296 - 2147483648

/-- Embedding of `LoadTestController.StartLoadTest`: the workload it builds. -/
def LoadTestController.buildJob (c : LoadTestController) (test : LoadTest) : Job :=
  let env : List EnvVar :=
    [ { name := "TEST_ID", value := test.id },
      { name := "TARGET_URL", value := test.targetURL },
      { name := "DURATION_SECONDS", value := toString test.config.duration },
      { name := "REQUESTS_PER_SEC", value := toString test.config.requestsPerSec },
      { name := "HTTP_METHOD", value := test.config.httpMethod } ]
  let env :=
    if test.config.headers.length > 0 then
      match c.marshalHeaders test.config.headers with
      | .ok headersJSON => env ++ [{ name := "HTTP_HEADERS", value := headersJSON }]
      | .error _ => env
    else env
  let env :=
    if test.config.body ≠ "" then env ++ [{ name := "HTTP_BODY", value := test.config.body }]
    else env
  { name := "loadtest-" ++ test.id
    ns := c.ns
    labels := []
    spec :=
      { parallelism := some (wrapInt32 test.config.workerCount)
        completions := some (wrapInt32 test.config.workerCount)
        restartPolicy := "Never"
        containers :=
          [{ name := "loadtest-worker", image := "vinayak9769/loadtest-worker:latest",
             env := env }] }
    status :=
      { active := 0, succeeded := 0, failed := 0, startTime := none, completionTime := none,
        conditions := [] } }

/-- Embedding of `LoadTestController.StartLoadTest`: the error, if any. -/
def LoadTestController.StartLoadTest (c : LoadTestController) (test : LoadTest) :
    Option String :=
  c.kubeClient.createJob c.ns (c.buildJob test)

/-- Embedding of `LoadTestController.StopLoadTest`: the error, if any.
`"Background"` is `metav1.DeletePropagationBackground`. -/
def LoadTestController.StopLoadTest (c : LoadTestController) (tesID : String) :
    Option String :=
  c.kubeClient.deleteJob c.ns (jobName tesID) "Background"

/-! ## Machine arithmetic -/

/-- Reduction of an integer into the `int64` range (two's complement). -/
def wrapInt64 (x : Int) : Int :=
  (x + 9223372036854775808) % 18446744073709551616 - 9223372036854775808

/-- Go `+` on `int64`. -/
def addInt64 (a b : Int) : Int := wrapInt64 (a + b)

/-- The value lies in the `int64` range. -/
def fitsInt64 (x : Int) : Prop :=
  -9223372036854775808 ≤ x ∧ x < 9223372036854775808

instance (x : Int) : Decidable (fitsInt64 x) := by
  unfold fitsInt64; infer_instance

/-- `time.Time.Sub`: the difference in nanoseconds, saturated to the range
of `time.Duration`. -/
def Sub (t u : Time) : Int :=
  max (-9223372036854775808) (min 9223372036854775807 (t - u))

/-- `time.Duration.Seconds`. -/
def Seconds (d : Int) : ℚ := (d : ℚ) / 1000000000

/-! ## Metrics model (package `models`) -/

/-- Go `map[string]int64`, as the list of its entries. -/
abbrev CodeMap := List (String × Int)

/-- `m[k]`, zero when the key is absent. -/
def CodeMap.get : CodeMap → String → Int
  | [], _ => 0
  | (k, v) :: m, key => if k = key then v else CodeMap.get m key

/-- `m[k] += v`. -/
def CodeMap.add : CodeMap → String → Int → CodeMap
  | [], key, v => [(key, addInt64 0 v)]
  | (k, w) :: m, key, v =>
    if k = key then (k, addInt64 w v) :: m else (k, w) :: CodeMap.add m key v

/-- A metric frame emitted by a worker. -/
structure LoadTestMetrics where
  testID : String
  timestamp : Time
  elapsedSeconds : Int
  totalRequests : Int
  successfulRequests : Int
  failedRequests : Int
  avgResponseTime : ℚ
  minResponseTime : ℚ
  maxResponseTime : ℚ
  errorRate : ℚ
  requestsPerSecond : ℚ
  statusCodes : CodeMap
  deriving DecidableEq, Repr

structure WorkerMetrics where
  workerID : String
  podName : String
  totalRequests : Int
  successfulRequests : Int
  failedRequests : Int
  avgResponseTime : ℚ
  lastUpdate : Time
  deriving DecidableEq, Repr

structure AggregatedMetrics where
  totalRequests : Int
  successfulRequests : Int
  failedRequests : Int
  overallErrorRate : ℚ
  avgResponseTime : ℚ
  requestsPerSecond : ℚ
  statusCodeBreakdown : CodeMap
  activeWorkers : Nat
  deriving DecidableEq, Repr

structure MetricsSnapshot where
  testID : String
  timestamp : Time
  workers : List WorkerMetrics
  summary : AggregatedMetrics
  deriving DecidableEq, Repr

/-! ## Metrics extractor (`extractMetricsFromPod`) -/

/-- `strings.Contains(s, sub)`. -/
def Contains : List Char → List Char → Bool
  | [], sub => sub.isEmpty
  | c :: cs, sub => sub.isPrefixOf (c :: cs) || Contains cs sub

/-- `strings.Index(s, "x")` for a one-character `x`; `none` stands for `-1`. -/
def Index : List Char → Char → Option Nat
  | [], _ => none
  | c :: cs, x => if c = x then some 0 else (Index cs x).map (· + 1)

/-- `strings.Count(s, "x")` for a one-character `x`. -/
def Count : List Char → Char → Int
  | [], _ => 0
  | c :: cs, x => (if c = x then 1 else 0) + Count cs x

/-- The sentinel `"METRICS:"`. -/
def sentinel : List Char := ['M', 'E', 'T', 'R', 'I', 'C', 'S', ':']

/-- The opening brace. -/
def lbrace : Char := Char.ofNat 123

/-- The closing brace. -/
def rbrace : Char := Char.ofNat 125

/-- The local variables of the scanning loop. -/
structure ScanState where
  lastMetrics : Option LoadTestMetrics
  capturing : Bool
  braceCount : Int
  buffer : List Char
  deriving DecidableEq, Repr

/-- The state before the first line. -/
def ScanState.init : ScanState :=
  { lastMetrics := none, capturing := false, braceCount := 0, buffer := [] }

/-- One iteration of `for scanner.Scan()`; `decode` is `json.Unmarshal` into
a fresh `LoadTestMetrics`, `none` when it returns an error. -/
def scanLine (decode : List Char → Option LoadTestMetrics) (st : ScanState)
    (line : Line) : ScanState :=
  if Contains line sentinel then
    match Index line lbrace with
    | some idx =>
      { st with capturing := true, braceCount := 1, buffer := line.drop idx ++ ['\n'] }
    | none => st
  else if st.capturing then
    let buffer := st.buffer ++ line ++ ['\n']
    let braceCount := st.braceCount + Count line lbrace - Count line rbrace
    if braceCount = 0 then
      match decode buffer with
      | none => { st with buffer := buffer, braceCount := braceCount, capturing := false }
      | some metrics =>
        { lastMetrics := some metrics, capturing := false, braceCount := braceCount,
          buffer := buffer }
    else { st with buffer := buffer, braceCount := braceCount }
  else st

/-- The whole scanning loop. -/
def scanLines (decode : List Char → Option LoadTestMetrics) (st : ScanState)
    (lines : List Line) : ScanState :=
  lines.foldl (scanLine decode) st

/-- Embedding of `LoadTestController.extractMetricsFromPod`. -/
def LoadTestController.extractMetricsFromPod (c : LoadTestController)
    (decode : List Char → Option LoadTestMetrics) (podName : String) :
    Except String (Option LoadTestMetrics) :=
  match c.kubeClient.podLogs c.ns podName 100 with
  | .error err => .error ("failed to get pod logs: " ++ err)
  | .ok podLogs =>
    let st := scanLines decode ScanState.init podLogs.lines
    match podLogs.scanErr with
    | some err => .error ("error reading logs from pod " ++ podName ++ ": " ++ err)
    | none => .ok st.lastMetrics

/-! ## Metrics aggregator (`GetLoadTestMetrics`) -/

/-- The accumulators of the loop over pods. -/
structure AggState where
  workerMetrics : List WorkerMetrics
  totalRequests : Int
  successfulRequests : Int
  failedRequests : Int
  totalResponseTime : ℚ
  requestCount : Int
  statusCodes : CodeMap
  activeWorkers : Nat
  deriving DecidableEq, Repr

/-- The accumulators before the first pod. -/
def AggState.init : AggState :=
  { workerMetrics := [], totalRequests := 0, successfulRequests := 0, failedRequests := 0,
    totalResponseTime := 0, requestCount := 0, statusCodes := [], activeWorkers := 0 }

/-- The statements under `if metrics != nil`: one frame is added to the
accumulators. -/
def aggFrame (st : AggState) (pod : Pod) (metrics : LoadTestMetrics) : AggState :=
  { workerMetrics := st.workerMetrics ++
      [{ workerID := pod.name
         podName := pod.name
         totalRequests := metrics.totalRequests
         successfulRequests := metrics.successfulRequests
         failedRequests := metrics.failedRequests
         avgResponseTime := metrics.avgResponseTime
         lastUpdate := metrics.timestamp }]
    totalRequests := addInt64 st.totalRequests metrics.totalRequests
    successfulRequests := addInt64 st.successfulRequests metrics.successfulRequests
    failedRequests := addInt64 st.failedRequests metrics.failedRequests
    totalResponseTime := st.totalResponseTime +
      metrics.avgResponseTime * (metrics.totalRequests : ℚ)
    requestCount := addInt64 st.requestCount metrics.totalRequests
    statusCodes := metrics.statusCodes.foldl (fun m kv => CodeMap.add m kv.1 kv.2)
      st.statusCodes
    activeWorkers := st.activeWorkers + 1 }

/-- The body of `for _, pod := range pods.Items`; `extract` is the call
`c.extractMetricsFromPod(ctx, pod.Name)`. -/
def aggPod (extract : String → Except String (Option LoadTestMetrics)) (st : AggState)
    (pod : Pod) : AggState :=
  if pod.phase = "Running" ∨ pod.phase = "Succeeded" then
    match extract pod.name with
    | .error _ => st
    | .ok none => st
    | .ok (some metrics) => aggFrame st pod metrics
  else st

/-- The loop over `job.Status.Conditions` with its `break`: the elapsed
seconds at the first condition of type `Complete` or `Failed` whose status
is `True`, `none` when the loop ends with `isCompleted` still false. -/
def conditionElapsed (startTime : Time) : List JobCondition → Option ℚ
  | [] => none
  | condition :: rest =>
    if (condition.type = "Complete" ∨ condition.type = "Failed") ∧
        condition.status = "True" then
      some (Seconds (Sub condition.lastTransitionTime startTime))
    else conditionElapsed startTime rest

/-- The value of `actualElapsed` after the workload has been read; `now` is
the clock read by `time.Since`. -/
def actualElapsed (now : Time) (job : Except String Job) : ℚ :=
  match job with
  | .error _ => 0
  | .ok job =>
    match job.status.startTime with
    | none => 0
    | some startTime =>
      match conditionElapsed startTime job.status.conditions with
      | some elapsed => elapsed
      | none => Seconds (Sub now startTime)

/-- Embedding of `LoadTestController.GetLoadTestMetrics`.  `extract` is the
per-pod extractor, `now` the clock read by `time.Since` and `stamp` the one
read for the snapshot timestamp. -/
def LoadTestController.GetLoadTestMetrics (c : LoadTestController)
    (extract : String → Except String (Option LoadTestMetrics)) (now stamp : Time)
    (testID : String) : Except String MetricsSnapshot :=
  match c.kubeClient.listPods c.ns ("job-name=loadtest-" ++ testID) with
  | .error err => .error ("failed to list pods: " ++ err)
  | .ok pods =>
    let st := pods.foldl (aggPod extract) AggState.init
    let avgResponseTime : ℚ :=
      if st.requestCount > 0 then st.totalResponseTime / (st.requestCount : ℚ) else 0
    let errorRate : ℚ :=
      if st.totalRequests > 0 then
        ((st.failedRequests : ℚ) / (st.totalRequests : ℚ)) * 100
      else 0
    let elapsed := actualElapsed now (c.kubeClient.getJob c.ns (jobName testID))
    let rps : ℚ := if elapsed > 0 then (st.totalRequests : ℚ) / elapsed else 0
    .ok { testID := testID
          timestamp := stamp
          workers := st.workerMetrics
          summary :=
            { totalRequests := st.totalRequests
              successfulRequests := st.successfulRequests
              failedRequests := st.failedRequests
              overallErrorRate := errorRate
              avgResponseTime := avgResponseTime
              requestsPerSecond := rps
              statusCodeBreakdown := st.statusCodes
              activeWorkers := st.activeWorkers } }

/-- The aggregator as the program wires it: the extractor is
`extractMetricsFromPod` on the same client. -/
def LoadTestController.GetLoadTestMetricsLive (c : LoadTestController)
    (decode : List Char → Option LoadTestMetrics) (now stamp : Time) (testID : String) :
    Except String MetricsSnapshot :=
  c.GetLoadTestMetrics (c.extractMetricsFromPod decode) now stamp testID

/-! ## Handlers (package `handlers`) -/

/-- The table `load_tests`: its rows.  The `config` column holds the JSON
text of the configuration; the embedding keeps the configuration itself. -/
structure Store where
  rows : List LoadTest
  deriving DecidableEq, Repr

/-- A statement that changes `load_tests`. -/
inductive StoreWrite where
  | insertRow (test : LoadTest)
  | setStatus (testID : String) (status : String)
  | setCompleted (testID : String)
  deriving DecidableEq, Repr

/-- How the store answers the statements of one run of a handler or of the
reconciler, each statement on its own: `query` tells whether the `SELECT`
of the run is answered, `exec w` whether the changing statement `w` is
executed.  A statement that is not answered returns an error and changes
nothing.  (No run sends a second `SELECT`, and with ids unique no run
sends the same changing statement twice.) -/
structure StoreAnswers where
  query : Bool
  exec : StoreWrite → Bool

/-- A store that answers every statement. -/
def StoreAnswers.always : StoreAnswers :=
  { query := true, exec := fun _ => true }

/-- The handler: the table behind its store handle, its controller, and how
the store answers during the run at hand. -/
structure LoadTestHandler where
  db : Store
  controller : LoadTestController
  answers : StoreAnswers

/-- Decoded body of a create request. -/
structure CreateLoadTestRequest where
  name : String
  targetURL : String
  config : LoadTestConfig
  deriving DecidableEq, Repr

/-- What a handler writes as response body. -/
inductive Body where
  | text (msg : String)
  | test (t : LoadTest)
  | status (s : LoadTestStatus)
  | message (msg : String)
  deriving DecidableEq, Repr

/-- A call of the handler into the controller (the Workload Driver). -/
inductive DriverCall where
  | start (test : LoadTest)
  | stop (testID : String)
  | status (testID : String)
  deriving DecidableEq, Repr

/-- Outcome of one handler run: the response, the store afterwards, the
controller calls made and the changing statements sent to the store, both
in order. -/
structure HandlerResult where
  code : Nat
  body : Body
  db : Store
  calls : List DriverCall
  writes : List StoreWrite
  deriving DecidableEq, Repr

/-- Embedding of `LoadTestHandler.validateCreateRequest`: the error, if any. -/
def validateCreateRequest (req : CreateLoadTestRequest) : Option String :=
  if req.name = "" then some "name is required"
  else if req.targetURL = "" then some "target_url is required"
  else if req.config.workerCount ≤ 0 then some "worker_count must be greater than 0"
  else if req.config.requestsPerSec ≤ 0 then some "requests_per_sec must be greater than 0"
  else none

/-- Embedding of `generateTestID`; `now` is the clock in nanoseconds. -/
def generateTestID (now : Time) : String := "test-" ++ toString now

/-- Embedding of `saveLoadTestToDB`: the `INSERT`, refused when the store
does not answer it (`answered` false) or the primary key `id` is taken;
`completed_at` is left null.  The error is returned to the caller. -/
def saveLoadTestToDB (db : Store) (answered : Bool) (test : LoadTest) : Except String Store :=
  if answered then
    if db.rows.any (fun r => r.id = test.id) then .error "duplicate key"
    else .ok { rows := db.rows ++ [{ test with completedAt := none }] }
  else .error "store unavailable"

/-- Embedding of `getLoadTestFromDB`; `answered` tells whether the store
answers this `SELECT`. -/
def getLoadTestFromDB (db : Store) (answered : Bool) (testID userID : String) :
    Except String LoadTest :=
  if answered then
    match db.rows.find? (fun r => r.id = testID ∧ r.userID = userID) with
    | some row => .ok row
    | none => .error "sql: no rows in result set"
  else .error "store unavailable"

/-- Embedding of `updateLoadTestStatus`: the `UPDATE` of `status` by id.
When the store does not execute it (`answered` false) nothing changes, and
the error of `Exec` is dropped: the function returns nothing. -/
def updateLoadTestStatus (db : Store) (answered : Bool) (testID status : String) : Store :=
  if answered then
    { rows := db.rows.map (fun r => if r.id = testID then { r with status := status } else r) }
  else db

/-- Embedding of `setCompletionTime`: the `UPDATE` of `completed_at` by id;
`now` is the store's `CURRENT_TIMESTAMP`.  When the store does not execute
it (`answered` false) nothing changes; the error is printed and the caller
goes on. -/
def setCompletionTime (db : Store) (answered : Bool) (now : Time) (testID : String) : Store :=
  if answered then
    { rows := db.rows.map
        (fun r => if r.id = testID then { r with completedAt := some now } else r) }
  else db

/-- Embedding of `userOwnsTest`: true when the `SELECT` is answered with a
row (`err == nil`). -/
def userOwnsTest (db : Store) (answered : Bool) (testID userID : String) : Bool :=
  answered && db.rows.any (fun r => r.id = testID ∧ r.userID = userID)

/-- Embedding of `getRunningTests`; `answered` tells whether the store
answers this `SELECT`. -/
def getRunningTests (db : Store) (answered : Bool) : Except String (List String) :=
  if answered then .ok ((db.rows.filter (fun r => r.status = "running")).map (·.id))
  else .error "store unavailable"

/-- Embedding of `LoadTestHandler.CreateLoadTest`.  `req` is the decoded
body (`none` when decoding fails), `userID` the `ID` claim of the request,
`idNow` and `createdNow` the two clock readings. -/
def LoadTestHandler.CreateLoadTest (h : LoadTestHandler) (req : Option CreateLoadTestRequest)
    (userID : String) (idNow createdNow : Time) : HandlerResult :=
  match req with
  | none => { code := 400, body := .text "Invalid request body", db := h.db, calls := [],
              writes := [] }
  | some req =>
    match validateCreateRequest req with
    | some err => { code := 400, body := .text err, db := h.db, calls := [], writes := [] }
    | none =>
      let test : LoadTest :=
        { id := generateTestID idNow
          name := req.name
          userID := userID
          targetURL := req.targetURL
          config := req.config
          status := "pending"
          createdAt := createdNow
          completedAt := none }
      match saveLoadTestToDB h.db (h.answers.exec (.insertRow test)) test with
      | .error _ =>
        { code := 500, body := .text "Failed to save load test", db := h.db, calls := [],
          writes := [.insertRow test] }
      | .ok db =>
        match h.controller.StartLoadTest test with
        | some _ =>
          { code := 500, body := .text "Failed to start load test"
            db := updateLoadTestStatus db (h.answers.exec (.setStatus test.id "failed")) test.id
              "failed"
            calls := [.start test]
            writes := [.insertRow test, .setStatus test.id "failed"] }
        | none =>
          { code := 201, body := .test test
            db := updateLoadTestStatus db (h.answers.exec (.setStatus test.id "running")) test.id
              "running"
            calls := [.start test]
            writes := [.insertRow test, .setStatus test.id "running"] }

/-- Embedding of `LoadTestHandler.GetLoadTest`. -/
def LoadTestHandler.GetLoadTest (h : LoadTestHandler) (testID userID : String) :
    HandlerResult :=
  match getLoadTestFromDB h.db h.answers.query testID userID with
  | .error _ => { code := 404, body := .text "Load test not found", db := h.db, calls := [],
                  writes := [] }
  | .ok test => { code := 200, body := .test test, db := h.db, calls := [], writes := [] }

/-- Embedding of `LoadTestHandler.GetLoadTestStatus`. -/
def LoadTestHandler.GetLoadTestStatus (h : LoadTestHandler) (testID userID : String) :
    HandlerResult :=
  if ¬ userOwnsTest h.db h.answers.query testID userID then
    { code := 404, body := .text "Load test not found", db := h.db, calls := [], writes := [] }
  else
    match h.controller.GetLoadTestStatus testID with
    | .error _ =>
      { code := 500, body := .text "Failed to get load test status", db := h.db,
        calls := [.status testID], writes := [] }
    | .ok status =>
      { code := 200, body := .status status, db := h.db, calls := [.status testID],
        writes := [] }

/-- Embedding of `LoadTestHandler.StopLoadTest`. -/
def LoadTestHandler.StopLoadTest (h : LoadTestHandler) (testID userID : String) :
    HandlerResult :=
  if ¬ userOwnsTest h.db h.answers.query testID userID then
    { code := 404, body := .text "Load test not found", db := h.db, calls := [], writes := [] }
  else
    match h.controller.StopLoadTest testID with
    | some _ =>
      { code := 500, body := .text "Failed to stop load test", db := h.db,
        calls := [.stop testID], writes := [] }
    | none =>
      { code := 200, body := .message "Load test stopped successfully"
        db := updateLoadTestStatus h.db (h.answers.exec (.setStatus testID "stopped")) testID
          "stopped"
        calls := [.stop testID]
        writes := [.setStatus testID "stopped"] }

/-! ## Reconciler (`updateRunningJobStatuses`) -/

/-- State carried through the loop of a reconciler tick. -/
structure TickState where
  db : Store
  calls : List DriverCall
  writes : List StoreWrite
  deriving DecidableEq, Repr

/-- The body of `for _, testID := range runningTests`; `exec` tells which
statements the store executes, `clock testID` is the store's
`CURRENT_TIMESTAMP` when it stamps that test. -/
def tickOne (c : LoadTestController) (exec : StoreWrite → Bool) (clock : String → Time)
    (st : TickState) (testID : String) : TickState :=
  let calls := st.calls ++ [.status testID]
  match c.GetLoadTestStatus testID with
  | .error _ =>
    { db := setCompletionTime
        (updateLoadTestStatus st.db (exec (.setStatus testID "completed")) testID "completed")
        (exec (.setCompleted testID)) (clock testID) testID
      calls := calls
      writes := st.writes ++ [.setStatus testID "completed", .setCompleted testID] }
  | .ok status =>
    if status.phase = "Completed" then
      { db := setCompletionTime
          (updateLoadTestStatus st.db (exec (.setStatus testID "completed")) testID "completed")
          (exec (.setCompleted testID)) (clock testID) testID
        calls := calls
        writes := st.writes ++ [.setStatus testID "completed", .setCompleted testID] }
    else if status.phase = "Failed" then
      { db := setCompletionTime
          (updateLoadTestStatus st.db (exec (.setStatus testID "failed")) testID "failed")
          (exec (.setCompleted testID)) (clock testID) testID
        calls := calls
        writes := st.writes ++ [.setStatus testID "failed", .setCompleted testID] }
    else if status.phase = "Running" then { st with calls := calls }
    else { st with calls := calls }

/-- Embedding of `LoadTestHandler.updateRunningJobStatuses`. -/
def LoadTestHandler.updateRunningJobStatuses (h : LoadTestHandler) (clock : String → Time) :
    TickState :=
  match getRunningTests h.db h.answers.query with
  | .error _ => { db := h.db, calls := [], writes := [] }
  | .ok runningTests =>
    runningTests.foldl (tickOne h.controller h.answers.exec clock)
      { db := h.db, calls := [], writes := [] }

/-! ## Specification-side definitions -/

/-- The contributing frames as the specification words them: the non-null
frames extracted without error from the pods in phase `Running` or
`Succeeded`, each with its pod, in pod-list order. -/
def contributingFrames (extract : String → Except String (Option LoadTestMetrics))
    (pods : List Pod) : List (Pod × LoadTestMetrics) :=
  pods.filterMap fun pod =>
    if pod.phase = "Running" ∨ pod.phase = "Succeeded" then
      match extract pod.name with
      | .ok (some metrics) => some (pod, metrics)
      | _ => none
    else none

/-- The count a frame's `status_codes` gives to a code: the sum of the
entries under that key (a Go map has at most one). -/
def codeCount (m : CodeMap) (code : String) : Int :=
  ((m.filter (fun kv => kv.1 = code)).map (·.2)).sum

/-- The worker entry the snapshot lists for a contributing pod. -/
def workerEntry (pm : Pod × LoadTestMetrics) : WorkerMetrics :=
  { workerID := pm.1.name
    podName := pm.1.name
    totalRequests := pm.2.totalRequests
    successfulRequests := pm.2.successfulRequests
    failedRequests := pm.2.failedRequests
    avgResponseTime := pm.2.avgResponseTime
    lastUpdate := pm.2.timestamp }

/-! ## Sample inputs and further specification-side definitions -/

/-- A workload status with the given counters, started at `10`. -/
def sampleJob (active succeeded failed : Int) : Job :=
  { name := "loadtest-t1", ns := "loadtest", labels := []
    spec := { parallelism := some 3, completions := some 3, restartPolicy := "Never",
              containers := [] }
    status := { active := active, succeeded := succeeded, failed := failed,
                startTime := some 10, completionTime := none, conditions := [] } }

/-- An orchestrator holding one workload, `loadtest-t1`, and nothing else. -/
def sampleKube (job : Job) : KubeClient :=
  { getJob := fun _ name => if name = "loadtest-t1" then .ok job else .error "not found"
    listPods := fun _ _ => .ok []
    podLogs := fun _ _ _ => .error "not found"
    createJob := fun _ _ => none
    deleteJob := fun _ name _ => if name = "loadtest-t1" then none else some "not found"
    listJobs := fun _ _ => .ok [] }

/-- A controller on `sampleKube`. -/
def sampleController (job : Job) : LoadTestController :=
  { kubeClient := sampleKube job, ns := "loadtest", marshalHeaders := fun _ => .ok "" }

/-- First worker frame of scenario S5. -/
def frameA : LoadTestMetrics :=
  { testID := "t1", timestamp := 5, elapsedSeconds := 10, totalRequests := 100,
    successfulRequests := 90, failedRequests := 10, avgResponseTime := 1 / 5,
    minResponseTime := 1 / 10, maxResponseTime := 1 / 2, errorRate := 10,
    requestsPerSecond := 10, statusCodes := [("200", 90), ("500", 10)] }

/-- Second worker frame of scenario S5. -/
def frameB : LoadTestMetrics :=
  { testID := "t1", timestamp := 6, elapsedSeconds := 10, totalRequests := 200,
    successfulRequests := 200, failedRequests := 0, avgResponseTime := 1 / 10,
    minResponseTime := 1 / 20, maxResponseTime := 1 / 4, errorRate := 0,
    requestsPerSecond := 20, statusCodes := [("200", 200)] }

/-- The pods of scenario S5, with three more that contribute nothing: one
still pending, one whose extractor fails, one without any frame. -/
def s5Pods : List Pod :=
  [ { name := "w-1", phase := "Running" },
    { name := "w-2", phase := "Succeeded" },
    { name := "w-3", phase := "Pending" },
    { name := "w-4", phase := "Running" },
    { name := "w-5", phase := "Running" } ]

/-- The extractor outcomes of scenario S5. -/
def s5Extract (podName : String) : Except String (Option LoadTestMetrics) :=
  if podName = "w-1" then .ok (some frameA)
  else if podName = "w-2" then .ok (some frameB)
  else if podName = "w-3" then .ok (some frameA)
  else if podName = "w-4" then .error "failed to get pod logs"
  else .ok none

/-- The orchestrator of scenario S5: workload `loadtest-t1`, started at
`startTime` and carrying `conditions`, with the pods `s5Pods`. -/
def s5Kube (startTime : Time) (conditions : List JobCondition) : KubeClient :=
  { getJob := fun _ name =>
      if name = "loadtest-t1" then
        .ok { name := "loadtest-t1", ns := "loadtest", labels := []
              spec := { parallelism := some 2, completions := some 2,
                        restartPolicy := "Never", containers := [] }
              status := { active := 2, succeeded := 0, failed := 0,
                          startTime := some startTime, completionTime := none,
                          conditions := conditions } }
      else .error "not found"
    listPods := fun _ selector =>
      if selector = "job-name=loadtest-t1" then .ok s5Pods else .ok []
    podLogs := fun _ _ _ => .error "not found"
    createJob := fun _ _ => none
    deleteJob := fun _ _ _ => none
    listJobs := fun _ _ => .ok [] }

/-- The controller of scenario S5. -/
def s5Controller (startTime : Time) (conditions : List JobCondition) : LoadTestController :=
  { kubeClient := s5Kube startTime conditions, ns := "loadtest",
    marshalHeaders := fun _ => .ok "" }

/-- The first condition of type `Complete` or `Failed` with status `True`,
as the specification words the terminal condition. -/
def firstTerminal (conditions : List JobCondition) : Option JobCondition :=
  conditions.find? fun condition =>
    (condition.type = "Complete" ∨ condition.type = "Failed") ∧ condition.status = "True"

/-- The instant `T1` of the specification: the last-transition time of the
first terminal condition, the current time when there is none. -/
def endInstant (now : Time) (conditions : List JobCondition) : Time :=
  match firstTerminal conditions with
  | some condition => condition.lastTransitionTime
  | none => now

/-- A frame with the three worker-reported fields `requests_per_second`,
`elapsed_seconds` and `error_rate` blanked. -/
def eraseReported (m : LoadTestMetrics) : LoadTestMetrics :=
  { m with requestsPerSecond := 0, elapsedSeconds := 0, errorRate := 0 }

/-- The difference of two instants fits in a `time.Duration`. -/
def fitsDuration (d : Int) : Prop :=
  -9223372036854775808 ≤ d ∧ d ≤ 9223372036854775807

/-- The extractor outcomes of scenario S5 with other worker-reported
`requests_per_second`, `elapsed_seconds` and `error_rate`. -/
def s5ExtractInflated (podName : String) : Except String (Option LoadTestMetrics) :=
  (s5Extract podName).map
    (Option.map fun m => { m with requestsPerSecond := 1000, elapsedSeconds := 1,
                                  errorRate := 50 })

/-- A `Complete` condition, true since five seconds after instant `0`. -/
def completeAtFive : JobCondition :=
  { type := "Complete", status := "True", lastTransitionTime := 5000000000 }

/-- The captures of a log as the specification words them (§4.4, steps 1 to
3): a line containing `METRICS:` begins a capture at its first opening
brace with depth 1, the following lines are appended and move the depth by
`count(lbrace) - count(rbrace)`, and the capture is complete when the depth
reaches 0.  `cur` is the capture in progress, if any: its depth and its
text.  The result lists the texts of the completed captures in order. -/
def capturesFrom (cur : Option (Int × List Char)) : List Line → List (List Char)
  | [] => []
  | line :: rest =>
    if Contains line sentinel then
      match Index line lbrace with
      | some idx => capturesFrom (some (1, line.drop idx ++ ['\n'])) rest
      | none => capturesFrom cur rest
    else
      match cur with
      | none => capturesFrom none rest
      | some (depth, text) =>
        if depth + Count line lbrace - Count line rbrace = 0 then
          (text ++ line ++ ['\n']) :: capturesFrom none rest
        else
          capturesFrom
            (some (depth + Count line lbrace - Count line rbrace, text ++ line ++ ['\n'])) rest

/-- The completed captures of a whole log. -/
def completedCaptures (lines : List Line) : List (List Char) :=
  capturesFrom none lines

/-- The last frame among the captures that decode. -/
def lastDecoded (decode : List Char → Option LoadTestMetrics) (captures : List (List Char)) :
    Option LoadTestMetrics :=
  (captures.filterMap decode).getLast?

/-- What the scanning loop leaves in `lastMetrics` on a whole log. -/
def latestFrame (decode : List Char → Option LoadTestMetrics) (lines : List Line) :
    Option LoadTestMetrics :=
  (scanLines decode ScanState.init lines).lastMetrics

/-- The net brace count of a list of lines: `count(lbrace) - count(rbrace)`
summed over the lines. -/
def netBraces (lines : List Line) : Int :=
  (lines.map fun line => Count line lbrace - Count line rbrace).sum

/-- The text the loop buffers for a capture begun on `first` and continued
over `body`: `first` from its first opening brace, then every line of
`body`, each followed by a newline. -/
def frameText (first : Line) (body : List Line) : List Char :=
  match Index first lbrace with
  | some idx => first.drop idx ++ ['\n'] ++ (body.map (· ++ ['\n'])).flatten
  | none => []

/-- An orchestrator that serves `lines` as the log tail of every pod. -/
def logKube (lines : List Line) : KubeClient :=
  { getJob := fun _ _ => .error "not found"
    listPods := fun _ _ => .ok []
    podLogs := fun _ _ _ => .ok { lines := lines, scanErr := none }
    createJob := fun _ _ => none
    deleteJob := fun _ _ _ => none
    listJobs := fun _ _ => .ok [] }

/-- A controller on `logKube`. -/
def logController (lines : List Line) : LoadTestController :=
  { kubeClient := logKube lines, ns := "loadtest", marshalHeaders := fun _ => .ok "" }

/-- The capture in progress in a loop state: its depth and its text. -/
def ScanState.current (st : ScanState) : Option (Int × List Char) :=
  if st.capturing then some (st.braceCount, st.buffer) else none

/-- The frame with every field at its zero value. -/
def zeroMetrics : LoadTestMetrics :=
  { testID := "", timestamp := 0, elapsedSeconds := 0, totalRequests := 0,
    successfulRequests := 0, failedRequests := 0, avgResponseTime := 0,
    minResponseTime := 0, maxResponseTime := 0, errorRate := 0, requestsPerSecond := 0,
    statusCodes := [] }

/-- The frame the JSON object with the single key `total_requests`
decodes to. -/
def frameOf (total : Int) : LoadTestMetrics := { zeroMetrics with totalRequests := total }

/-- A log tail with two pretty-printed frames, the second one later. -/
def twoFrameLog : List Line :=
  [ "worker w-1 started".toList,
    "METRICS: \x7b".toList,
    "  \"total_requests\": 100".toList,
    "\x7d".toList,
    "tick".toList,
    "METRICS: \x7b".toList,
    "  \"total_requests\": 250".toList,
    "\x7d".toList ]

/-- A log tail whose second capture completes with text that is not JSON,
and whose third capture never closes. -/
def brokenFrameLog : List Line :=
  [ "METRICS: \x7b".toList,
    "  \"total_requests\": 100".toList,
    "\x7d".toList,
    "METRICS: \x7b".toList,
    "  total_requests = 250".toList,
    "\x7d".toList,
    "METRICS: \x7b".toList,
    "  \"total_requests\": 400".toList ]

/-- A single-line frame: sentinel and complete JSON object on one line. -/
def singleLineFrame : Line := "METRICS: \x7b\"total_requests\": 100\x7d".toList

/-- First line of a frame split over three lines whose sentinel line
already opens the nested `status_codes` object. -/
def nestedFirst : Line :=
  "METRICS: \x7b\"total_requests\": 100, \"status_codes\": \x7b".toList

/-- The two further lines of that frame. -/
def nestedBody : List Line :=
  [ "\"200\": 100\x7d,".toList,
    "\"failed_requests\": 0\x7d".toList ]

/-- The frame that three-line JSON object decodes to. -/
def nestedFrame : LoadTestMetrics :=
  { zeroMetrics with totalRequests := 100, failedRequests := 0,
                     statusCodes := [("200", 100)] }

/-- A stand-in for `json.Unmarshal` on the sample logs: each listed text is
a JSON object and decodes to the frame given; any other text is taken as
not decodable, which is what `json.Unmarshal` answers on the truncated and
malformed texts the samples produce. -/
def sampleDecode (text : List Char) : Option LoadTestMetrics :=
  if text = "\x7b\n  \"total_requests\": 100\n\x7d\n".toList then some (frameOf 100)
  else if text = "\x7b\n  \"total_requests\": 250\n\x7d\n".toList then some (frameOf 250)
  else if text = "\x7b\"total_requests\": 100\x7d".toList then some (frameOf 100)
  else if text = "\x7b\"total_requests\": 100\x7d\n".toList then some (frameOf 100)
  else if text = frameText nestedFirst nestedBody then some nestedFrame
  else none

/-- Sentinel line of a pretty-printed frame: the opening brace ends it. -/
def plainFirst : Line := "METRICS: \x7b".toList

/-- The further lines of a pretty-printed frame with one field. -/
def plainBody : List Line :=
  [ "  \"total_requests\": 100".toList,
    "\x7d".toList ]

/-- A valid configuration: three workers, five requests per second. -/
def sampleConfig : LoadTestConfig :=
  { duration := 10, requestsPerSec := 5, maxConcurrency := 0, workerCount := 3,
    httpMethod := "GET", headers := [], body := "" }

/-- The create request of scenario S1. -/
def sampleRequest : CreateLoadTestRequest :=
  { name := "t1", targetURL := "http://svc/", config := sampleConfig }

/-- The create request of scenario S2: as S1, with `worker_count = 0`. -/
def zeroWorkerRequest : CreateLoadTestRequest :=
  { name := "t1", targetURL := "http://svc/",
    config := { sampleConfig with workerCount := 0 } }

/-- A stored test `t1` of user `alice` with the given status. -/
def sampleRow (status : String) : LoadTest :=
  { id := "t1", name := "t1", userID := "alice", targetURL := "http://svc/",
    config := sampleConfig, status := status, createdAt := 1, completedAt := none }

/-- A handler whose store holds `rows` and answers every statement, and
whose orchestrator holds the workload `loadtest-t1` with the given
counters. -/
def sampleHandler (rows : List LoadTest) (active succeeded failed : Int) : LoadTestHandler :=
  { db := { rows := rows }
    controller := sampleController (sampleJob active succeeded failed)
    answers := StoreAnswers.always }

/-- A store that answers the `SELECT`s and executes the `INSERT`s, and
executes no `UPDATE`: each `Exec` of an `UPDATE` returns an error. -/
def StoreAnswers.noUpdate : StoreAnswers :=
  { query := true
    exec := fun w =>
      match w with
      | .insertRow _ => true
      | _ => false }

/-- A store that answers every statement but the `UPDATE`s of `status`. -/
def StoreAnswers.noStatus : StoreAnswers :=
  { query := true
    exec := fun w =>
      match w with
      | .setStatus _ _ => false
      | _ => true }

/-- A store that answers every statement but the `UPDATE`s of
`completed_at`. -/
def StoreAnswers.noStamp : StoreAnswers :=
  { query := true
    exec := fun w =>
      match w with
      | .setCompleted _ => false
      | _ => true }

/-- The test a store statement is about. -/
def StoreWrite.testID : StoreWrite → String
  | .insertRow test => test.id
  | .setStatus testID _ => testID
  | .setCompleted testID => testID

/-- What the two statements a tick sends for a listed id do to a row with
that id: `status` is written when the store executes the first,
`completed_at` when it executes the second; a statement that is not
executed leaves its column as it was. -/
def writeTerminal (exec : StoreWrite → Bool) (clock : String → Time) (status : String)
    (r : LoadTest) : LoadTest :=
  { r with
    status := if exec (.setStatus r.id status) then status else r.status
    completedAt := if exec (.setCompleted r.id) then some (clock r.id) else r.completedAt }

/-- The outcome of a tick for one listed row, as the specification (§4.6)
maps the Driver's answers: workload not readable or phase `Completed` sends
`set_status(id, "completed")` and `set_completed(id)`, phase `Failed` sends
`set_status(id, "failed")` and `set_completed(id)`, each taking effect when
the store executes it; any other phase leaves the row as it is. -/
def reconcileRow (c : LoadTestController) (exec : StoreWrite → Bool) (clock : String → Time)
    (r : LoadTest) : LoadTest :=
  match c.GetLoadTestStatus r.id with
  | .error _ => writeTerminal exec clock "completed" r
  | .ok status =>
    if status.phase = "Completed" then writeTerminal exec clock "completed" r
    else if status.phase = "Failed" then writeTerminal exec clock "failed" r
    else r

/-- The Driver's answer is terminal for the reconciler: an error, or phase
`Completed` or `Failed`. -/
def terminalAnswer (c : LoadTestController) (testID : String) : Bool :=
  match c.GetLoadTestStatus testID with
  | .error _ => true
  | .ok status => status.phase = "Completed" ∨ status.phase = "Failed"

/-- The status a tick writes for a listed id: `failed` when the Driver
reports phase `Failed`, `completed` otherwise (error, or phase
`Completed`). -/
def terminalStatus (c : LoadTestController) (testID : String) : String :=
  match c.GetLoadTestStatus testID with
  | .error _ => "completed"
  | .ok status =>
    if status.phase = "Completed" then "completed"
    else if status.phase = "Failed" then "failed"
    else "completed"

/-- A stored running test `t9` of user `bob` whose workload the sample
orchestrator does not hold. -/
def goneRow : LoadTest :=
  { id := "t9", name := "gone", userID := "bob", targetURL := "http://svc/",
    config := sampleConfig, status := "running", createdAt := 2, completedAt := none }

/-- The in-memory test `CreateLoadTest` builds from a request before it is
saved: fresh id, status `pending`, no completion time. -/
def pendingTest (req : CreateLoadTestRequest) (userID : String) (idNow createdNow : Time) :
    LoadTest :=
  { id := generateTestID idNow
    name := req.name
    userID := userID
    targetURL := req.targetURL
    config := req.config
    status := "pending"
    createdAt := createdNow
    completedAt := none }

/-- An orchestrator that refuses every create and every delete with a
transport error and cannot be read. -/
def unreachableController : LoadTestController :=
  { kubeClient :=
      { getJob := fun _ _ => .error "connection refused"
        listPods := fun _ _ => .error "connection refused"
        podLogs := fun _ _ _ => .error "connection refused"
        createJob := fun _ _ => some "connection refused"
        deleteJob := fun _ _ _ => some "connection refused"
        listJobs := fun _ _ => .error "connection refused" }
    ns := "loadtest"
    marshalHeaders := fun _ => .ok "" }

/-- A handler on a store that holds `rows` and answers every statement,
with the unreachable orchestrator. -/
def unreachableHandler (rows : List LoadTest) : LoadTestHandler :=
  { db := { rows := rows }
    controller := unreachableController
    answers := StoreAnswers.always }

/-- The create request of scenario S1 with `worker_count = 2^31`, a value a
64-bit Go `int` holds and `int32` does not. -/
def hugeWorkerRequest : CreateLoadTestRequest :=
  { name := "t1", targetURL := "http://svc/",
    config := { sampleConfig with workerCount := 2147483648 } }

/-- Modelled from the spec: the declaration of table `load_tests` is not in
the sources (schema migrations are an external collaborator); spec §4.1
declares `id` as its primary key, so no two rows share an id. -/
def primaryKey (db : Store) : Prop := (db.rows.map (·.id)).Nodup

/-- A stored test `t5` of user `alice` that was stopped and never stamped. -/
def stoppedRow : LoadTest :=
  { id := "t5", name := "old", userID := "alice", targetURL := "http://svc/",
    config := sampleConfig, status := "stopped", createdAt := 0, completedAt := none }

/-- One of the engine's paths that write to the store, each with the
orchestrator it runs against and the answers of the store to its
statements: a create request, a stop request, a reconciler tick. -/
inductive EngineOp where
  | create (c : LoadTestController) (a : StoreAnswers) (req : Option CreateLoadTestRequest)
      (userID : String) (idNow createdNow : Time)
  | stop (c : LoadTestController) (a : StoreAnswers) (testID userID : String)
  | tick (c : LoadTestController) (a : StoreAnswers) (clock : String → Time)

/-- The store after one engine operation that runs from its first
statement to its last with no statement of another operation in between. -/
def engineStep (db : Store) : EngineOp → Store
  | .create c a req userID idNow createdNow =>
    (({ db := db, controller := c, answers := a } : LoadTestHandler).CreateLoadTest req userID
      idNow createdNow).db
  | .stop c a testID userID =>
    (({ db := db, controller := c, answers := a } : LoadTestHandler).StopLoadTest testID
      userID).db
  | .tick c a clock =>
    (({ db := db, controller := c, answers := a } : LoadTestHandler).updateRunningJobStatuses
      clock).db

/-- The store after a sequence of engine operations run one after another. -/
def engineRun (db : Store) (ops : List EngineOp) : Store :=
  ops.foldl engineStep db

/-- The terminal statuses of the specification. -/
def isTerminal (status : String) : Prop :=
  status = "completed" ∨ status = "failed" ∨ status = "stopped"

instance (status : String) : Decidable (isTerminal status) := by
  unfold isTerminal; infer_instance

/-- The operation is a stop request for the given test id. -/
def isStopOf (testID : String) : EngineOp → Prop
  | .stop _ _ target _ => target = testID
  | _ => False

/-- A sequence of engine operations without any stop request for `t1`: a
tick, a create request by `bob`, a stop request by `bob` for `t9`. -/
def sampleOps : List EngineOp :=
  [ .tick (sampleController (sampleJob 1 0 0)) StoreAnswers.always (fun _ => 99),
    .create (sampleController (sampleJob 1 0 0)) StoreAnswers.always (some sampleRequest) "bob"
      7 8,
    .stop (sampleController (sampleJob 1 0 0)) StoreAnswers.always "t9" "bob" ]

/-! ## Interleaved statements

The reconciler is a goroutine beside the request handlers
(`go handler.startJobMonitor()`), and every handler sends its statements one
by one: between two statements of one operation the store may execute
statements of another.  After its first statement no operation reads the
store again, so what it sends next is fixed by that first answer and by its
orchestrator calls. -/

/-- One changing statement sent to the store as it is.  `exec` tells whether
the store executes it; the error of a statement that is not executed changes
nothing. -/
def applyWrite (exec : StoreWrite → Bool) (clock : String → Time) (db : Store) :
    StoreWrite → Store
  | .insertRow test =>
    match saveLoadTestToDB db (exec (.insertRow test)) test with
    | .ok db1 => db1
    | .error _ => db
  | .setStatus testID status =>
    updateLoadTestStatus db (exec (.setStatus testID status)) testID status
  | .setCompleted testID => setCompletionTime db (exec (.setCompleted testID)) (clock testID) testID

/-- The changing statements the handler of an operation sends when it
begins on the store `db`, in order. -/
def EngineOp.writes (db : Store) : EngineOp → List StoreWrite
  | .create c a req userID idNow createdNow =>
    (({ db := db, controller := c, answers := a } : LoadTestHandler).CreateLoadTest req userID
      idNow createdNow).writes
  | .stop c a testID userID =>
    (({ db := db, controller := c, answers := a } : LoadTestHandler).StopLoadTest testID
      userID).writes
  | .tick c a clock =>
    (({ db := db, controller := c, answers := a } : LoadTestHandler).updateRunningJobStatuses
      clock).writes

/-- The answers of the store to the changing statements of an operation. -/
def EngineOp.exec : EngineOp → StoreWrite → Bool
  | .create _ a _ _ _ _ => a.exec
  | .stop _ a _ _ => a.exec
  | .tick _ a _ => a.exec

/-- The clock of the stamps of an operation (only a tick stamps). -/
def EngineOp.clock : EngineOp → String → Time
  | .tick _ _ clock => clock
  | _ => fun _ => 0

/-- How many changing statements an operation sends as its first statement:
a create request begins with its `INSERT`, a stop request and a tick begin
with a `SELECT`. -/
def EngineOp.first : EngineOp → Nat
  | .create _ _ _ _ _ _ => 1
  | _ => 0

/-- An operation under way: the changing statements it has still to send,
in order, with the answers of the store to them and the clock of its
stamps. -/
structure OpenRun where
  exec : StoreWrite → Bool
  clock : String → Time
  todo : List StoreWrite

/-- One step of a run of the engine: an operation begins (it sends its first
statement on the store as it is), or the `k`-th operation under way sends
its next statement. -/
inductive RunStep where
  | start (op : EngineOp)
  | next (k : Nat)

/-- The store and the operations under way. -/
structure EngineState where
  db : Store
  runs : List OpenRun

/-- The store once an operation has sent its first statement. -/
def EngineOp.startDB (db : Store) (op : EngineOp) : Store :=
  ((op.writes db).take op.first).foldl (applyWrite op.exec op.clock) db

/-- The statements an operation that began on `db` has still to send. -/
def EngineOp.startRun (db : Store) (op : EngineOp) : OpenRun :=
  { exec := op.exec, clock := op.clock, todo := (op.writes db).drop op.first }

/-- One step of a run. -/
def EngineState.step (s : EngineState) : RunStep → EngineState
  | .start op => { db := op.startDB s.db, runs := s.runs ++ [op.startRun s.db] }
  | .next k =>
    match s.runs[k]? with
    | none => s
    | some run =>
      match run.todo with
      | [] => s
      | w :: rest =>
        { db := applyWrite run.exec run.clock s.db w
          runs := s.runs.set k { run with todo := rest } }

/-- A run of the engine from a store with no operation under way. -/
def interleave (db : Store) (steps : List RunStep) : EngineState :=
  steps.foldl EngineState.step { db := db, runs := [] }

/-- Row `r2` is row `r1` up to `status` and `completed_at`, and its status
is not `pending` unless that of `r1` is. -/
def keepsRow (r1 r2 : LoadTest) : Prop :=
  r2.id = r1.id ∧ r2.name = r1.name ∧ r2.userID = r1.userID ∧ r2.targetURL = r1.targetURL ∧
    r2.config = r1.config ∧ r2.createdAt = r1.createdAt ∧
    (r1.status ≠ "pending" → r2.status ≠ "pending")

/-- The statement does not write the status `pending` into a stored row: it
is an `INSERT`, an `UPDATE` of `completed_at`, or an `UPDATE` of `status` to
another value. -/
def StoreWrite.noPending : StoreWrite → Prop
  | .setStatus _ status => status ≠ "pending"
  | _ => True

instance (r1 r2 : LoadTest) : Decidable (keepsRow r1 r2) := by
  unfold keepsRow; infer_instance

instance (w : StoreWrite) : Decidable w.noPending := by
  cases w <;> (unfold StoreWrite.noPending; infer_instance)

/-! ## Cleanup (`CleanupCompletedJobs`) -/

/-- Outcome of `CleanupCompletedJobs`: the error returned, if any, and the
names passed to `Jobs(ns).Delete`, in order. -/
structure CleanupResult where
  err : Option String
  deleted : List String
  deriving DecidableEq, Repr

/-- The body of `for _, job := range jobs.Items`: a workload whose
`CompletionTime` is set and older than `olderThan` (a `time.Duration`) is
deleted; the error of the delete is printed and dropped. -/
def cleanupJob (now : Time) (olderThan : Int) (deleted : List String) (job : Job) :
    List String :=
  match job.status.completionTime with
  | some completionTime =>
    if Sub now completionTime > olderThan then deleted ++ [job.name] else deleted
  | none => deleted

/-- Embedding of `LoadTestController.CleanupCompletedJobs`; `now` is the
clock read by `time.Now`. -/
def LoadTestController.CleanupCompletedJobs (c : LoadTestController) (now : Time)
    (olderThan : Int) : CleanupResult :=
  match c.kubeClient.listJobs c.ns "app=loadtest-worker" with
  | .error err => { err := some err, deleted := [] }
  | .ok jobs => { err := none, deleted := jobs.foldl (cleanupJob now olderThan) [] }

/-- The orchestrator's equality selector `key=value`: a workload is selected
when one of its labels has that key and that value. -/
def labelSelected (selector : String) (labels : List (String × String)) : Bool :=
  labels.any fun kv => kv.1 ++ "=" ++ kv.2 = selector

/-- An orchestrator whose namespace holds the workloads `cluster`: a list
call returns those the selector selects. -/
def clusterKube (cluster : List Job) : KubeClient :=
  { getJob := fun _ name =>
      match cluster.find? (fun j => j.name = name) with
      | some job => .ok job
      | none => .error "not found"
    listPods := fun _ _ => .ok []
    podLogs := fun _ _ _ => .error "not found"
    createJob := fun _ _ => none
    deleteJob := fun _ _ _ => none
    listJobs := fun _ selector => .ok (cluster.filter fun j => labelSelected selector j.labels) }

/-- A controller on `clusterKube`. -/
def clusterController (cluster : List Job) : LoadTestController :=
  { kubeClient := clusterKube cluster, ns := "loadtest", marshalHeaders := fun _ => .ok "" }

/-- The workload of the test of scenario S1 as `StartLoadTest` builds it,
here completed at instant `0`. -/
def createdJob : Job :=
  { (clusterController []).buildJob (pendingTest sampleRequest "alice" 7 8) with
    status := { active := 0, succeeded := 3, failed := 0, startTime := some 0,
                completionTime := some 0, conditions := [] } }

/-- A workload that does carry the label `app=loadtest-worker`, completed
at instant `0`. -/
def labelledJob : Job :=
  { name := "other", ns := "loadtest", labels := [("app", "loadtest-worker")]
    spec := { parallelism := some 1, completions := some 1, restartPolicy := "Never",
              containers := [] }
    status := { active := 0, succeeded := 1, failed := 0, startTime := some 0,
                completionTime := some 0, conditions := [] } }

/-! ## Log streamer (`StreamPodLogs`)

The goroutine of `StreamPodLogs` is embedded as the tree of its channel and
context operations (`Proc`); the orchestrator's answers are taken from a
`StreamEnv`.  `Proc.step` gives the Go meaning of each operation and
`runSteps` runs the goroutine against a consumer and a cancellation. -/

/-- What the orchestrator answers during one stream: `pod n` to the `n`-th
`Pods(ns).Get` (from 0), `followLogs n` to the follow stream opened in the
`n`-th iteration of the loop, `finalLogs` to the tail of the final logs. -/
structure StreamEnv where
  pod : Nat → Except String Pod
  followLogs : Nat → Except String LogStream
  finalLogs : Except String LogStream

/-- The operations of the goroutine, each with what runs after it.
`done` is `return` (the deferred `close(logsChan)` runs); `outOfFuel` marks
where the embedding stops unrolling the `for` loop. -/
inductive Proc where
  | done
  | outOfFuel
  /-- `select { case <-ctx.Done(): onDone; default: otherwise }`. -/
  | poll (onDone otherwise : Proc)
  /-- `Pods(ns).Get(ctx, podID)`. -/
  | getPod (next : Proc)
  /-- `GetLogs(podID, Follow, TailLines).Stream(ctx)`. -/
  | openLogs (follow : Bool) (tailLines : Nat) (next : Proc)
  /-- Plain send: `logsChan <- line`. -/
  | send (line : String) (next : Proc)
  /-- `select { case <-ctx.Done(): onDone; case logsChan <- line: next }`. -/
  | sendOrDone (line : String) (onDone next : Proc)
  /-- `select { case <-time.After(seconds): next; case <-ctx.Done(): onDone }`. -/
  | sleepOrDone (seconds : Nat) (onDone next : Proc)
  deriving DecidableEq, Repr

/-- The loop `for scanner.Scan()` with its `select`: every line is sent
unless the context is done, in which case `onDone` runs; `atEnd` runs when
the scanner has no more line. -/
def forwardLines (onDone : Proc) : List Line → Proc → Proc
  | [], atEnd => atEnd
  | line :: rest, atEnd =>
    .sendOrDone (String.mk line) onDone (forwardLines onDone rest atEnd)

/-- Embedding of `streamLogsOnce` in iteration `i`; `k` receives the error
it returns (`none` for `nil`). -/
def streamLogsOnce (env : StreamEnv) (i : Nat) (k : Option String → Proc) : Proc :=
  .openLogs true 0
    (match env.followLogs i with
     | .error err => k (some err)
     | .ok podLogs => forwardLines (k none) podLogs.lines (k podLogs.scanErr))

/-- Embedding of `streamFinalLogs`; `k` is what the caller does next. -/
def streamFinalLogs (env : StreamEnv) (k : Proc) : Proc :=
  .openLogs false 50
    (match env.finalLogs with
     | .error err => .send ("Failed to get final logs: " ++ err) k
     | .ok podLogs => forwardLines k podLogs.lines k)

/-- The `for` loop of the goroutine, unrolled `fuel` times; `i` counts the
iterations already made. -/
def streamLoop (env : StreamEnv) (podID : String) : Nat → Nat → Proc
  | 0, _ => .outOfFuel
  | fuel + 1, i =>
    .poll .done
      (.getPod
        (match env.pod i with
         | .error err => .send ("Error getting pod " ++ podID ++ ": " ++ err) .done
         | .ok pod =>
           if pod.phase = "Succeeded" ∨ pod.phase = "Failed" then
             .send ("Pod " ++ podID ++ " is " ++ pod.phase ++ ", streaming final logs...")
               (streamFinalLogs env
                 (.send ("Pod " ++ podID ++ " completed, closing stream") .done))
           else if pod.phase = "Running" then
             streamLogsOnce env i fun err =>
               match err with
               | some err =>
                 .send ("Stream disconnected: " ++ err ++ ", reconnecting in 3s...")
                   (.sleepOrDone 3 .done (streamLoop env podID fuel (i + 1)))
               | none => streamLoop env podID fuel (i + 1)
           else
             .send ("Pod " ++ podID ++ " is in " ++ pod.phase ++ " state, waiting...")
               (.sleepOrDone 5 .done (streamLoop env podID fuel (i + 1)))))

/-- Embedding of the goroutine started by `StreamPodLogs`. -/
def StreamPodLogs (env : StreamEnv) (podID : String) (fuel : Nat) : Proc :=
  streamLoop env podID fuel 0

/-- What an operation of the goroutine shows outside. -/
inductive StreamEvent where
  | podRead
  | logsOpened (follow : Bool) (tailLines : Nat)
  | line (text : String)
  | slept (seconds : Nat)
  deriving DecidableEq, Repr

/-- One step of the goroutine.  `cancelled`: `ctx.Done()` is closed;
`room`: the channel takes a value at once (its buffer is not full, or the
consumer is receiving).  The result is `none` when the goroutine cannot
move: it has returned, or it is blocked in a send.  In a `select` whose two
cases are both ready the `ctx.Done()` case is taken. -/
def Proc.step (cancelled room : Bool) : Proc → Option (Option StreamEvent × Proc)
  | .done => none
  | .outOfFuel => none
  | .poll onDone otherwise => some (none, if cancelled then onDone else otherwise)
  | .getPod next => some (some .podRead, next)
  | .openLogs follow tailLines next => some (some (.logsOpened follow tailLines), next)
  | .send line next => if room then some (some (.line line), next) else none
  | .sendOrDone line onDone next =>
    if cancelled then some (none, onDone)
    else if room then some (some (.line line), next)
    else none
  | .sleepOrDone seconds onDone next =>
    if cancelled then some (none, onDone) else some (some (.slept seconds), next)

/-- Where a run of the goroutine stands: the operation it is at and the
events so far. -/
structure StreamRun where
  proc : Proc
  events : List StreamEvent
  deriving DecidableEq, Repr

/-- The lines put on the channel so far. -/
def StreamRun.sent (run : StreamRun) : List String :=
  run.events.filterMap fun e =>
    match e with
    | .line text => some text
    | _ => none

/-- At most `steps` steps of the goroutine from step number `k`.  The
consumer either receives every value at once (`consumerReads`) or never
receives, so that the channel has room while fewer than 50 lines were sent;
`ctx.Done()` is closed from step number `cancelAt` on (`none`: never).  A
goroutine blocked before the cancellation waits for it. -/
def runSteps (consumerReads : Bool) (cancelAt : Option Nat) : Nat → Nat → StreamRun → StreamRun
  | 0, _, run => run
  | steps + 1, k, run =>
    match run.proc.step (cancelAt.any (· ≤ k))
        (consumerReads || decide (run.sent.length < 50)) with
    | some (event, next) =>
      runSteps consumerReads cancelAt steps (k + 1)
        { proc := next, events := run.events ++ event.toList }
    | none =>
      if cancelAt.any (· ≤ k) then run
      else
        match cancelAt with
        | some t => runSteps consumerReads cancelAt steps t run
        | none => run

/-- The events of forwarding log lines to the channel. -/
def lineEvents (lines : List Line) : List StreamEvent :=
  lines.map fun line => .line (String.mk line)

/-- A stream in which the first read finds pod `p` in phase `Succeeded` and
the final logs are answered by `finalLogs`. -/
def terminalEnv (finalLogs : Except String LogStream) : StreamEnv :=
  { pod := fun _ => .ok { name := "p", phase := "Succeeded" }
    followLogs := fun _ => .error "not running"
    finalLogs := finalLogs }

/-- A log tail of three lines. -/
def threeLines : LogStream :=
  { lines := ["one".toList, "two".toList, "three".toList], scanErr := none }

/-- A stream in which pod `p` is `Running` and its follow stream delivers
fifty lines and then breaks. -/
def disconnectEnv : StreamEnv :=
  { pod := fun _ => .ok { name := "p", phase := "Running" }
    followLogs := fun _ =>
      .ok { lines := List.replicate 50 "tick".toList, scanErr := some "unexpected EOF" }
    finalLogs := .error "not finished" }

/-! ## Theorems -/

/-- C1: when the workload is read, `GetLoadTestStatus` returns a status whose
phase is `Running` if `active > 0`, else `Completed` if `succeeded > 0`, else
`Failed` if `failed > 0`, else `Pending`, and whose test id, three counters
and start time are those of the request and of the workload. -/
theorem GetLoadTestStatus_phase_table (c : LoadTestController) (testID : String) (job : Job)
    (hget : c.kubeClient.getJob c.ns (jobName testID) = .ok job) :
    ∃ status, c.GetLoadTestStatus testID = .ok status ∧
      status.testID = testID ∧
      status.active = job.status.active ∧
      status.succeeded = job.status.succeeded ∧
      status.failed = job.status.failed ∧
      status.startTime = job.status.startTime ∧
      (0 < job.status.active → status.phase = "Running") ∧
      (¬ 0 < job.status.active → 0 < job.status.succeeded → status.phase = "Completed") ∧
      (¬ 0 < job.status.active → ¬ 0 < job.status.succeeded → 0 < job.status.failed →
        status.phase = "Failed") ∧
      (¬ 0 < job.status.active → ¬ 0 < job.status.succeeded → ¬ 0 < job.status.failed →
        status.phase = "Pending") := by
  unfold LoadTestController.GetLoadTestStatus
  rw [hget]
  by_cases ha : job.status.active > 0
  · simp [ha]
  · by_cases hs : job.status.succeeded > 0
    · simp [ha, hs]
    · by_cases hf : job.status.failed > 0
      · simp [ha, hs, hf]
      · simp [ha, hs, hf]

/-- Witness of C1: a workload with no active worker, two succeeded and one
failed is reported `Completed`. -/
theorem GetLoadTestStatus_phase_table_witness :
    (sampleController (sampleJob 0 2 1)).kubeClient.getJob (sampleController (sampleJob 0 2 1)).ns
        (jobName "t1") = .ok (sampleJob 0 2 1) ∧
    (sampleController (sampleJob 0 2 1)).GetLoadTestStatus "t1" =
      .ok { testID := "t1", phase := "Completed", active := 0, succeeded := 2, failed := 1,
            startTime := some 10 } := by
  have h : (sampleController (sampleJob 0 2 1)).kubeClient.getJob
      (sampleController (sampleJob 0 2 1)).ns (jobName "t1") = .ok (sampleJob 0 2 1) := by
    rfl
  obtain ⟨status, hs, h1, h2, h3, h4, h5, _, h7, _, _⟩ :=
    GetLoadTestStatus_phase_table (sampleController (sampleJob 0 2 1)) "t1" (sampleJob 0 2 1) h
  refine ⟨h, ?_⟩
  rw [hs]
  have hp := h7 (by decide) (by decide)
  cases status
  simp_all [sampleJob]

/-! ### Machine arithmetic lemmas -/

theorem wrapInt64_fits (x : Int) : fitsInt64 (wrapInt64 x) := by
  unfold fitsInt64 wrapInt64
  omega

theorem wrapInt64_of_fits (x : Int) (h : fitsInt64 x) : wrapInt64 x = x := by
  unfold fitsInt64 at h
  unfold wrapInt64
  omega

theorem wrapInt64_add_left (a b : Int) : wrapInt64 (wrapInt64 a + b) = wrapInt64 (a + b) := by
  unfold wrapInt64
  omega

theorem wrapInt64_add_right (a b : Int) : wrapInt64 (a + wrapInt64 b) = wrapInt64 (a + b) := by
  unfold wrapInt64
  omega

/-! ### The loop over pods -/

theorem foldl_aggPod (extract : String → Except String (Option LoadTestMetrics))
    (pods : List Pod) (st : AggState) :
    pods.foldl (aggPod extract) st =
      (contributingFrames extract pods).foldl (fun s pm => aggFrame s pm.1 pm.2) st := by
  induction pods generalizing st with
  | nil => rfl
  | cons pod rest ih =>
    simp only [List.foldl_cons, contributingFrames, List.filterMap_cons]
    rw [ih]
    unfold aggPod
    by_cases hp : pod.phase = "Running" ∨ pod.phase = "Succeeded"
    · simp only [hp, if_true]
      cases hx : extract pod.name with
      | error e => simp [contributingFrames]
      | ok r =>
        cases r with
        | none => simp [contributingFrames]
        | some m => simp [contributingFrames]
    · simp only [hp, if_false]
      simp [contributingFrames]

/-- The loop over the contributing frames alone. -/
theorem aggFrames_fields (fs : List (Pod × LoadTestMetrics)) (st : AggState)
    (ht : fitsInt64 st.totalRequests) (hs : fitsInt64 st.successfulRequests)
    (hf : fitsInt64 st.failedRequests) (hr : fitsInt64 st.requestCount) :
    let out := fs.foldl (fun s pm => aggFrame s pm.1 pm.2) st
    out.totalRequests = wrapInt64 (st.totalRequests + (fs.map (·.2.totalRequests)).sum) ∧
    out.successfulRequests =
      wrapInt64 (st.successfulRequests + (fs.map (·.2.successfulRequests)).sum) ∧
    out.failedRequests = wrapInt64 (st.failedRequests + (fs.map (·.2.failedRequests)).sum) ∧
    out.requestCount = wrapInt64 (st.requestCount + (fs.map (·.2.totalRequests)).sum) ∧
    out.totalResponseTime = st.totalResponseTime +
      (fs.map (fun pm => pm.2.avgResponseTime * (pm.2.totalRequests : ℚ))).sum ∧
    out.workerMetrics = st.workerMetrics ++ fs.map workerEntry ∧
    out.activeWorkers = st.activeWorkers + fs.length := by
  induction fs generalizing st with
  | nil =>
    simp [wrapInt64_of_fits, ht, hs, hf, hr]
  | cons pm rest ih =>
    have h := ih (aggFrame st pm.1 pm.2) (wrapInt64_fits _) (wrapInt64_fits _)
      (wrapInt64_fits _) (wrapInt64_fits _)
    simp only [List.foldl_cons, List.map_cons, List.sum_cons, List.length_cons] at h ⊢
    obtain ⟨h1, h2, h3, h4, h5, h6, h7⟩ := h
    refine ⟨?_, ?_, ?_, ?_, ?_, ?_, ?_⟩
    · rw [h1]; simp only [aggFrame, addInt64]; rw [wrapInt64_add_left, add_assoc]
    · rw [h2]; simp only [aggFrame, addInt64]; rw [wrapInt64_add_left, add_assoc]
    · rw [h3]; simp only [aggFrame, addInt64]; rw [wrapInt64_add_left, add_assoc]
    · rw [h4]; simp only [aggFrame, addInt64]; rw [wrapInt64_add_left, add_assoc]
    · rw [h5]; simp only [aggFrame]; ring
    · rw [h6]; simp [aggFrame, workerEntry]
    · rw [h7]; simp only [aggFrame]; omega

/-! ### The status-code map -/

theorem CodeMap.get_add (m : CodeMap) (key : String) (v : Int) (code : String) :
    CodeMap.get (CodeMap.add m key v) code =
      if key = code then wrapInt64 (CodeMap.get m code + v) else CodeMap.get m code := by
  induction m with
  | nil =>
    by_cases h : key = code
    · simp [CodeMap.add, CodeMap.get, h, addInt64]
    · simp [CodeMap.add, CodeMap.get, h]
  | cons kw rest ih =>
    obtain ⟨k, w⟩ := kw
    by_cases hk : k = key
    · subst hk
      by_cases h : k = code
      · simp [CodeMap.add, CodeMap.get, h, addInt64]
      · simp [CodeMap.add, CodeMap.get, h]
    · by_cases h : key = code
      · subst h
        simp [CodeMap.add, CodeMap.get, hk, ih]
      · by_cases hc : k = code
        · subst hc
          simp [CodeMap.add, CodeMap.get, hk, h]
        · simp [CodeMap.add, CodeMap.get, hk, h, hc, ih]

theorem CodeMap.keys_add (m : CodeMap) (key : String) (v : Int) (code : String) :
    code ∈ (CodeMap.add m key v).map Prod.fst ↔ code = key ∨ code ∈ m.map Prod.fst := by
  induction m with
  | nil => simp [CodeMap.add]
  | cons kw rest ih =>
    obtain ⟨k, w⟩ := kw
    by_cases hk : k = key
    · subst hk
      simp [CodeMap.add]
    · simp only [CodeMap.add, hk, if_false, List.map_cons, List.mem_cons, ih]
      tauto

theorem CodeMap.nodup_add (m : CodeMap) (key : String) (v : Int)
    (h : (m.map Prod.fst).Nodup) : ((CodeMap.add m key v).map Prod.fst).Nodup := by
  induction m with
  | nil => simp [CodeMap.add]
  | cons kw rest ih =>
    obtain ⟨k, w⟩ := kw
    simp only [List.map_cons, List.nodup_cons] at h
    by_cases hk : k = key
    · subst hk
      simpa [CodeMap.add] using h
    · simp only [CodeMap.add, hk, if_false, List.map_cons, List.nodup_cons]
      refine ⟨?_, ih h.2⟩
      intro hmem
      rcases (CodeMap.keys_add rest key v k).1 hmem with h1 | h1
      · exact hk h1
      · exact h.1 h1

/-- The inner loop `for code, count := range metrics.StatusCodes`. -/
theorem foldl_add_get (entries : CodeMap) (m : CodeMap) (code : String)
    (hm : fitsInt64 (CodeMap.get m code)) :
    CodeMap.get (entries.foldl (fun acc kv => CodeMap.add acc kv.1 kv.2) m) code =
      wrapInt64 (CodeMap.get m code + codeCount entries code) := by
  induction entries generalizing m with
  | nil => simp [codeCount, wrapInt64_of_fits, hm]
  | cons kv rest ih =>
    simp only [List.foldl_cons]
    have hfit : fitsInt64 (CodeMap.get (CodeMap.add m kv.1 kv.2) code) := by
      rw [CodeMap.get_add]
      split
      · exact wrapInt64_fits _
      · exact hm
    rw [ih _ hfit, CodeMap.get_add]
    by_cases h : kv.1 = code
    · simp only [h, if_true, codeCount, List.filter_cons, decide_True, List.map_cons,
        List.sum_cons]
      rw [wrapInt64_add_left, add_assoc]
    · simp [h, codeCount, List.filter_cons]

theorem foldl_add_keys (entries : CodeMap) (m : CodeMap) (code : String) :
    code ∈ (entries.foldl (fun acc kv => CodeMap.add acc kv.1 kv.2) m).map Prod.fst ↔
      code ∈ m.map Prod.fst ∨ code ∈ entries.map Prod.fst := by
  induction entries generalizing m with
  | nil => simp
  | cons kv rest ih =>
    simp only [List.foldl_cons, ih, CodeMap.keys_add, List.map_cons, List.mem_cons]
    tauto

theorem foldl_add_nodup (entries : CodeMap) (m : CodeMap) (h : (m.map Prod.fst).Nodup) :
    ((entries.foldl (fun acc kv => CodeMap.add acc kv.1 kv.2) m).map Prod.fst).Nodup := by
  induction entries generalizing m with
  | nil => simpa using h
  | cons kv rest ih =>
    simp only [List.foldl_cons]
    exact ih _ (CodeMap.nodup_add m kv.1 kv.2 h)

/-- The status-code map after the loop over the contributing frames. -/
theorem aggFrames_codes (fs : List (Pod × LoadTestMetrics)) (st : AggState) (code : String)
    (hfit : fitsInt64 (CodeMap.get st.statusCodes code)) :
    let out := fs.foldl (fun s pm => aggFrame s pm.1 pm.2) st
    CodeMap.get out.statusCodes code =
        wrapInt64 (CodeMap.get st.statusCodes code +
          (fs.map (fun pm => codeCount pm.2.statusCodes code)).sum) ∧
    (code ∈ out.statusCodes.map Prod.fst ↔
      code ∈ st.statusCodes.map Prod.fst ∨ ∃ pm ∈ fs, code ∈ pm.2.statusCodes.map Prod.fst) := by
  induction fs generalizing st with
  | nil => simp [wrapInt64_of_fits, hfit]
  | cons pm rest ih =>
    have hfit2 : fitsInt64 (CodeMap.get (aggFrame st pm.1 pm.2).statusCodes code) := by
      simp only [aggFrame]
      rw [foldl_add_get _ _ _ hfit]
      exact wrapInt64_fits _
    have h := ih (aggFrame st pm.1 pm.2) hfit2
    simp only [List.foldl_cons, List.map_cons, List.sum_cons] at h ⊢
    obtain ⟨h1, h2⟩ := h
    constructor
    · rw [h1]
      simp only [aggFrame]
      rw [foldl_add_get _ _ _ hfit, wrapInt64_add_left, add_assoc]
    · rw [h2]
      simp only [aggFrame, foldl_add_keys, List.mem_cons, exists_eq_or_imp]
      tauto

theorem aggFrames_codes_nodup (fs : List (Pod × LoadTestMetrics)) (st : AggState)
    (h : (st.statusCodes.map Prod.fst).Nodup) :
    ((fs.foldl (fun s pm => aggFrame s pm.1 pm.2) st).statusCodes.map Prod.fst).Nodup := by
  induction fs generalizing st with
  | nil => simpa using h
  | cons pm rest ih =>
    simp only [List.foldl_cons]
    apply ih
    simp only [aggFrame]
    exact foldl_add_nodup _ _ h

theorem fitsInt64_zero : fitsInt64 0 := by
  unfold fitsInt64
  omega

/-- C2: when the pods are listed, `GetLoadTestMetrics` returns a snapshot
built from exactly the contributing frames (the non-null frames extracted
without error from the pods in phase `Running` or `Succeeded`):
`total_requests`, `successful_requests` and `failed_requests` are the
`int64` sums of the fields over those frames (the exact sums whenever these
fit in `int64`), `status_code_breakdown` has each code once, holds exactly
the codes of those frames and maps each to the `int64` sum of its counts,
`active_workers` is the number of those frames, and `workers` has one entry
per contributing pod, in pod-list order. -/
theorem GetLoadTestMetrics_sums (c : LoadTestController)
    (extract : String → Except String (Option LoadTestMetrics)) (now stamp : Time)
    (testID : String) (pods : List Pod)
    (hlist : c.kubeClient.listPods c.ns ("job-name=loadtest-" ++ testID) = .ok pods) :
    ∃ snap, c.GetLoadTestMetrics extract now stamp testID = .ok snap ∧
      snap.summary.totalRequests =
        wrapInt64 ((contributingFrames extract pods).map (·.2.totalRequests)).sum ∧
      snap.summary.successfulRequests =
        wrapInt64 ((contributingFrames extract pods).map (·.2.successfulRequests)).sum ∧
      snap.summary.failedRequests =
        wrapInt64 ((contributingFrames extract pods).map (·.2.failedRequests)).sum ∧
      (fitsInt64 ((contributingFrames extract pods).map (·.2.totalRequests)).sum →
        snap.summary.totalRequests =
          ((contributingFrames extract pods).map (·.2.totalRequests)).sum) ∧
      (fitsInt64 ((contributingFrames extract pods).map (·.2.successfulRequests)).sum →
        snap.summary.successfulRequests =
          ((contributingFrames extract pods).map (·.2.successfulRequests)).sum) ∧
      (fitsInt64 ((contributingFrames extract pods).map (·.2.failedRequests)).sum →
        snap.summary.failedRequests =
          ((contributingFrames extract pods).map (·.2.failedRequests)).sum) ∧
      (∀ code, CodeMap.get snap.summary.statusCodeBreakdown code =
        wrapInt64 ((contributingFrames extract pods).map
          (fun pm => codeCount pm.2.statusCodes code)).sum) ∧
      (∀ code, code ∈ snap.summary.statusCodeBreakdown.map Prod.fst ↔
        ∃ pm ∈ contributingFrames extract pods, code ∈ pm.2.statusCodes.map Prod.fst) ∧
      (snap.summary.statusCodeBreakdown.map Prod.fst).Nodup ∧
      snap.summary.activeWorkers = (contributingFrames extract pods).length ∧
      snap.workers.length = (contributingFrames extract pods).length ∧
      snap.workers = (contributingFrames extract pods).map workerEntry := by
  unfold LoadTestController.GetLoadTestMetrics
  rw [hlist]
  refine ⟨_, rfl, ?_⟩
  simp only [foldl_aggPod]
  obtain ⟨h1, h2, h3, _, _, h6, h7⟩ := aggFrames_fields (contributingFrames extract pods)
    AggState.init fitsInt64_zero fitsInt64_zero fitsInt64_zero fitsInt64_zero
  simp only [AggState.init, zero_add, List.nil_append] at h1 h2 h3 h6 h7
  have hc := fun code => aggFrames_codes (contributingFrames extract pods) AggState.init code
    fitsInt64_zero
  have hn := aggFrames_codes_nodup (contributingFrames extract pods) AggState.init
    List.nodup_nil
  simp only [AggState.init, CodeMap.get, zero_add, List.map_nil, List.not_mem_nil,
    false_or] at hc
  refine ⟨h1, h2, h3, ?_, ?_, ?_, fun code => (hc code).1, fun code => (hc code).2, hn, h7,
    ?_, h6⟩
  · intro hfit; exact h1.trans (wrapInt64_of_fits _ hfit)
  · intro hfit; exact h2.trans (wrapInt64_of_fits _ hfit)
  · intro hfit; exact h3.trans (wrapInt64_of_fits _ hfit)
  · exact (congrArg List.length h6).trans (List.length_map _ _)

theorem s5_contributingFrames :
    contributingFrames s5Extract s5Pods =
      [({ name := "w-1", phase := "Running" }, frameA),
       ({ name := "w-2", phase := "Succeeded" }, frameB)] := by
  rfl

/-- Witness of C2: in scenario S5 two of the five pods contribute, and the
summary has `total = 300`, `successful = 290`, `failed = 10`, the code
`200` at `290` and two active workers. -/
theorem GetLoadTestMetrics_sums_witness :
    (s5Controller 0 []).kubeClient.listPods (s5Controller 0 []).ns
        ("job-name=loadtest-" ++ "t1") = .ok s5Pods ∧
    ∃ snap, (s5Controller 0 []).GetLoadTestMetrics s5Extract 10000000000 10000000001 "t1" =
        .ok snap ∧
      snap.summary.totalRequests = 300 ∧ snap.summary.successfulRequests = 290 ∧
      snap.summary.failedRequests = 10 ∧
      CodeMap.get snap.summary.statusCodeBreakdown "200" = 290 ∧
      snap.summary.activeWorkers = 2 ∧
      snap.workers.map (·.podName) = ["w-1", "w-2"] := by
  have h : (s5Controller 0 []).kubeClient.listPods (s5Controller 0 []).ns
      ("job-name=loadtest-" ++ "t1") = .ok s5Pods := by rfl
  obtain ⟨snap, hs, h1, h2, h3, _, _, _, h7, _, _, h10, _, h12⟩ :=
    GetLoadTestMetrics_sums (s5Controller 0 []) s5Extract 10000000000 10000000001 "t1" s5Pods h
  refine ⟨h, snap, hs, ?_, ?_, ?_, ?_, ?_, ?_⟩
  · rw [h1, s5_contributingFrames]; decide
  · rw [h2, s5_contributingFrames]; decide
  · rw [h3, s5_contributingFrames]; decide
  · rw [h7, s5_contributingFrames]; decide
  · rw [h10, s5_contributingFrames]; rfl
  · rw [h12, s5_contributingFrames]; rfl

/-- C3: with `float64` arithmetic taken as exact rational arithmetic, the
summary's `avg_response_time` is `Σ(avg_i * total_i) / Σ total_i` when
`Σ total_i > 0` and `0` otherwise, and `overall_error_rate` is
`failed / total * 100` when `total > 0` and `0` otherwise, where `total`
and `failed` are the summary's `int64` sums over the contributing frames
(the exact sums whenever these fit in `int64`); on the two frames of
scenario S5 the values are `2/15` and `10/3`. -/
theorem GetLoadTestMetrics_avg_and_error_rate :
    (∀ (c : LoadTestController) (extract : String → Except String (Option LoadTestMetrics))
        (now stamp : Time) (testID : String) (pods : List Pod),
      c.kubeClient.listPods c.ns ("job-name=loadtest-" ++ testID) = .ok pods →
      ∃ snap, c.GetLoadTestMetrics extract now stamp testID = .ok snap ∧
        snap.summary.avgResponseTime =
          (if 0 < snap.summary.totalRequests then
            ((contributingFrames extract pods).map
              (fun pm => pm.2.avgResponseTime * (pm.2.totalRequests : ℚ))).sum /
              (snap.summary.totalRequests : ℚ)
          else 0) ∧
        snap.summary.overallErrorRate =
          (if 0 < snap.summary.totalRequests then
            (snap.summary.failedRequests : ℚ) / (snap.summary.totalRequests : ℚ) * 100
          else 0) ∧
        snap.summary.totalRequests =
          wrapInt64 ((contributingFrames extract pods).map (·.2.totalRequests)).sum ∧
        snap.summary.failedRequests =
          wrapInt64 ((contributingFrames extract pods).map (·.2.failedRequests)).sum ∧
        (fitsInt64 ((contributingFrames extract pods).map (·.2.totalRequests)).sum →
          fitsInt64 ((contributingFrames extract pods).map (·.2.failedRequests)).sum →
          snap.summary.avgResponseTime =
            (if 0 < ((contributingFrames extract pods).map (·.2.totalRequests)).sum then
              ((contributingFrames extract pods).map
                (fun pm => pm.2.avgResponseTime * (pm.2.totalRequests : ℚ))).sum /
                ((((contributingFrames extract pods).map (·.2.totalRequests)).sum : Int) : ℚ)
            else 0) ∧
          snap.summary.overallErrorRate =
            (if 0 < ((contributingFrames extract pods).map (·.2.totalRequests)).sum then
              ((((contributingFrames extract pods).map (·.2.failedRequests)).sum : Int) : ℚ) /
                ((((contributingFrames extract pods).map (·.2.totalRequests)).sum : Int) : ℚ) *
                100
            else 0))) ∧
    (∃ snap, (s5Controller 0 []).GetLoadTestMetrics s5Extract 10000000000 10000000001 "t1" =
        .ok snap ∧
      snap.workers.map (fun w => (w.totalRequests, w.failedRequests, w.avgResponseTime)) =
        [(100, 10, 1 / 5), (200, 0, 1 / 10)] ∧
      snap.summary.avgResponseTime = 2 / 15 ∧ snap.summary.overallErrorRate = 10 / 3) := by
  have general : ∀ (c : LoadTestController)
      (extract : String → Except String (Option LoadTestMetrics))
      (now stamp : Time) (testID : String) (pods : List Pod),
      c.kubeClient.listPods c.ns ("job-name=loadtest-" ++ testID) = .ok pods →
      ∃ snap, c.GetLoadTestMetrics extract now stamp testID = .ok snap ∧
        snap.workers = (contributingFrames extract pods).map workerEntry ∧
        snap.summary.avgResponseTime =
          (if 0 < snap.summary.totalRequests then
            ((contributingFrames extract pods).map
              (fun pm => pm.2.avgResponseTime * (pm.2.totalRequests : ℚ))).sum /
              (snap.summary.totalRequests : ℚ)
          else 0) ∧
        snap.summary.overallErrorRate =
          (if 0 < snap.summary.totalRequests then
            (snap.summary.failedRequests : ℚ) / (snap.summary.totalRequests : ℚ) * 100
          else 0) ∧
        snap.summary.totalRequests =
          wrapInt64 ((contributingFrames extract pods).map (·.2.totalRequests)).sum ∧
        snap.summary.failedRequests =
          wrapInt64 ((contributingFrames extract pods).map (·.2.failedRequests)).sum := by
    intro c extract now stamp testID pods hlist
    unfold LoadTestController.GetLoadTestMetrics
    rw [hlist]
    refine ⟨_, rfl, ?_⟩
    simp only [foldl_aggPod]
    obtain ⟨h1, _, h3, h4, h5, h6, _⟩ := aggFrames_fields (contributingFrames extract pods)
      AggState.init fitsInt64_zero fitsInt64_zero fitsInt64_zero fitsInt64_zero
    rw [h4, h5, h1, h3, h6]
    simp [AggState.init]
  constructor
  · intro c extract now stamp testID pods hlist
    obtain ⟨snap, hs, _, ha, he, ht, hf⟩ := general c extract now stamp testID pods hlist
    refine ⟨snap, hs, ha, he, ht, hf, ?_⟩
    intro hfit1 hfit2
    rw [ha, he, hf, ht, wrapInt64_of_fits _ hfit1, wrapInt64_of_fits _ hfit2]
    exact ⟨rfl, rfl⟩
  · obtain ⟨snap, hs, hw, ha, he, ht, hf⟩ :=
      general (s5Controller 0 []) s5Extract 10000000000 10000000001 "t1" s5Pods rfl
    refine ⟨snap, hs, ?_, ?_, ?_⟩
    · rw [hw, s5_contributingFrames]
      simp [workerEntry, frameA, frameB]
    · rw [ha, ht, s5_contributingFrames]
      norm_num [frameA, frameB, wrapInt64]
    · rw [he, ht, hf, s5_contributingFrames]
      norm_num [frameA, frameB, wrapInt64]

/-- Witness of C3: scenario S5 through the general formula. -/
theorem GetLoadTestMetrics_avg_and_error_rate_witness :
    (s5Controller 0 []).kubeClient.listPods (s5Controller 0 []).ns
        ("job-name=loadtest-" ++ "t1") = .ok s5Pods ∧
    ∃ snap, (s5Controller 0 []).GetLoadTestMetrics s5Extract 10000000000 10000000001 "t1" =
        .ok snap ∧
      snap.summary.totalRequests = 300 ∧
      snap.summary.avgResponseTime = (1 / 5 * 100 + 1 / 10 * 200) / 300 := by
  have h : (s5Controller 0 []).kubeClient.listPods (s5Controller 0 []).ns
      ("job-name=loadtest-" ++ "t1") = .ok s5Pods := by rfl
  obtain ⟨snap, hs, ha, _, ht, _, _⟩ :=
    GetLoadTestMetrics_avg_and_error_rate.1 (s5Controller 0 []) s5Extract 10000000000
      10000000001 "t1" s5Pods h
  have ht2 : snap.summary.totalRequests = 300 := by
    rw [ht, s5_contributingFrames]; decide
  refine ⟨h, snap, hs, ht2, ?_⟩
  rw [ha, ht2, s5_contributingFrames]
  norm_num [frameA, frameB]

/-! ### Elapsed time -/

theorem Sub_pos (t u : Int) : 0 < Sub t u ↔ u < t := by
  unfold Sub
  omega

theorem Sub_of_fits (t u : Int) (h : fitsDuration (t - u)) : Sub t u = t - u := by
  unfold fitsDuration at h
  unfold Sub
  obtain ⟨h1, h2⟩ := h
  rw [min_eq_right h2, max_eq_right h1]

theorem Seconds_Sub_pos (t u : Int) : 0 < Seconds (Sub t u) ↔ u < t := by
  unfold Seconds
  rw [← Sub_pos t u]
  constructor
  · intro h
    by_contra hn
    have h2 : ((Sub t u : Int) : ℚ) ≤ 0 := by exact_mod_cast not_lt.mp hn
    have h3 : ((Sub t u : Int) : ℚ) / 1000000000 ≤ 0 :=
      div_nonpos_of_nonpos_of_nonneg h2 (by norm_num)
    linarith
  · intro h
    have h2 : (0 : ℚ) < ((Sub t u : Int) : ℚ) := by exact_mod_cast h
    positivity

theorem conditionElapsed_eq (startTime : Time) (conditions : List JobCondition) :
    conditionElapsed startTime conditions =
      (firstTerminal conditions).map
        (fun condition => Seconds (Sub condition.lastTransitionTime startTime)) := by
  induction conditions with
  | nil => rfl
  | cons condition rest ih =>
    unfold conditionElapsed firstTerminal
    by_cases h : (condition.type = "Complete" ∨ condition.type = "Failed") ∧
        condition.status = "True"
    · simp [h, List.find?_cons]
    · simp only [h, if_false, List.find?_cons, decide_False]
      rw [ih]
      rfl

theorem actualElapsed_eq (now : Time) (job : Job) (t0 : Time)
    (hstart : job.status.startTime = some t0) :
    actualElapsed now (.ok job) = Seconds (Sub (endInstant now job.status.conditions) t0) := by
  unfold actualElapsed endInstant
  simp only [hstart, conditionElapsed_eq]
  cases firstTerminal job.status.conditions <;> rfl

theorem aggFrame_eraseReported (st : AggState) (pod : Pod) (m : LoadTestMetrics) :
    aggFrame st pod (eraseReported m) = aggFrame st pod m := rfl

theorem aggPod_congr (extract extract2 : String → Except String (Option LoadTestMetrics))
    (hagree : ∀ podName, (extract podName).map (Option.map eraseReported) =
      (extract2 podName).map (Option.map eraseReported))
    (st : AggState) (pod : Pod) : aggPod extract st pod = aggPod extract2 st pod := by
  unfold aggPod
  split
  · have h := hagree pod.name
    cases h1 : extract pod.name with
    | error e =>
      cases h2 : extract2 pod.name with
      | error e2 => rfl
      | ok r2 => rw [h1, h2] at h; cases h
    | ok r1 =>
      cases h2 : extract2 pod.name with
      | error e2 => rw [h1, h2] at h; cases h
      | ok r2 =>
        rw [h1, h2] at h
        cases r1 with
        | none =>
          cases r2 with
          | none => rfl
          | some m2 => simp [Except.map] at h
        | some m1 =>
          cases r2 with
          | none => simp [Except.map] at h
          | some m2 =>
            have h3 : eraseReported m1 = eraseReported m2 := by
              simpa [Except.map] using h
            show aggFrame st pod m1 = aggFrame st pod m2
            rw [← aggFrame_eraseReported st pod m1, ← aggFrame_eraseReported st pod m2, h3]
  · rfl

/-- C4: for a readable workload started at `T0`, with `N` the summary's
total over the worker frames and `T1` the last-transition time of the first
condition of type `Complete` or `Failed` with status `True`, or the current
time when there is no such condition, `requests_per_second` is `N` divided
by the seconds from `T0` to `T1` when `T1 > T0` and `0` otherwise (the
seconds are `(T1 - T0) / 10^9` whenever the difference fits in a
`time.Duration`); and two runs whose frames differ only in the
worker-reported `requests_per_second`, `elapsed_seconds` or `error_rate`
return the same snapshot, hence the same `requests_per_second`. -/
theorem GetLoadTestMetrics_rps_wall_clock :
    (∀ (c : LoadTestController) (extract : String → Except String (Option LoadTestMetrics))
        (now stamp : Time) (testID : String) (pods : List Pod) (job : Job) (t0 : Time),
      c.kubeClient.listPods c.ns ("job-name=loadtest-" ++ testID) = .ok pods →
      c.kubeClient.getJob c.ns (jobName testID) = .ok job →
      job.status.startTime = some t0 →
      ∃ snap, c.GetLoadTestMetrics extract now stamp testID = .ok snap ∧
        snap.summary.totalRequests =
          wrapInt64 ((contributingFrames extract pods).map (·.2.totalRequests)).sum ∧
        snap.summary.requestsPerSecond =
          (if t0 < endInstant now job.status.conditions then
            (snap.summary.totalRequests : ℚ) /
              Seconds (Sub (endInstant now job.status.conditions) t0)
          else 0) ∧
        (fitsDuration (endInstant now job.status.conditions - t0) →
          snap.summary.requestsPerSecond =
            (if t0 < endInstant now job.status.conditions then
              (snap.summary.totalRequests : ℚ) /
                (((endInstant now job.status.conditions - t0 : Int) : ℚ) / 1000000000)
            else 0))) ∧
    (∀ (c : LoadTestController)
        (extract extract2 : String → Except String (Option LoadTestMetrics))
        (now stamp : Time) (testID : String),
      (∀ podName, (extract podName).map (Option.map eraseReported) =
        (extract2 podName).map (Option.map eraseReported)) →
      c.GetLoadTestMetrics extract now stamp testID =
        c.GetLoadTestMetrics extract2 now stamp testID ∧
      (c.GetLoadTestMetrics extract now stamp testID).map (·.summary.requestsPerSecond) =
        (c.GetLoadTestMetrics extract2 now stamp testID).map
          (·.summary.requestsPerSecond)) := by
  constructor
  · intro c extract now stamp testID pods job t0 hlist hjob hstart
    have hrps : ∃ snap, c.GetLoadTestMetrics extract now stamp testID = .ok snap ∧
        snap.summary.totalRequests =
          wrapInt64 ((contributingFrames extract pods).map (·.2.totalRequests)).sum ∧
        snap.summary.requestsPerSecond =
          (if t0 < endInstant now job.status.conditions then
            (snap.summary.totalRequests : ℚ) /
              Seconds (Sub (endInstant now job.status.conditions) t0)
          else 0) := by
      unfold LoadTestController.GetLoadTestMetrics
      rw [hlist, hjob]
      refine ⟨_, rfl, ?_, ?_⟩
      · simp only [foldl_aggPod]
        have h := (aggFrames_fields (contributingFrames extract pods) AggState.init
          fitsInt64_zero fitsInt64_zero fitsInt64_zero fitsInt64_zero).1
        simpa [AggState.init] using h
      · simp only [actualElapsed_eq now job t0 hstart, gt_iff_lt, Seconds_Sub_pos]
    obtain ⟨snap, hs, ht, hr⟩ := hrps
    refine ⟨snap, hs, ht, hr, ?_⟩
    intro hfit
    rw [hr, Sub_of_fits _ _ hfit]
    rfl
  · intro c extract extract2 now stamp testID hagree
    have hfun : aggPod extract = aggPod extract2 := by
      funext st pod
      exact aggPod_congr extract extract2 hagree st pod
    have heq : c.GetLoadTestMetrics extract now stamp testID =
        c.GetLoadTestMetrics extract2 now stamp testID := by
      unfold LoadTestController.GetLoadTestMetrics
      rw [hfun]
    exact ⟨heq, by rw [heq]⟩

/-- Witness of C4: in scenario S5 the workload started ten seconds before
the clock reading and has no terminal condition, so 300 requests give 30
per second; with a `Complete` condition five seconds after the start they
give 60; inflated worker-reported rates change nothing. -/
theorem GetLoadTestMetrics_rps_wall_clock_witness :
    (∃ snap, (s5Controller 0 []).GetLoadTestMetrics s5Extract 10000000000 10000000001 "t1" =
        .ok snap ∧ snap.summary.requestsPerSecond = 30) ∧
    (∃ snap, (s5Controller 0 [completeAtFive]).GetLoadTestMetrics s5Extract 10000000000
          10000000001 "t1" = .ok snap ∧ snap.summary.requestsPerSecond = 60) ∧
    (s5Controller 0 []).GetLoadTestMetrics s5Extract 10000000000 10000000001 "t1" =
      (s5Controller 0 []).GetLoadTestMetrics s5ExtractInflated 10000000000 10000000001
        "t1" := by
  refine ⟨?_, ?_, ?_⟩
  · obtain ⟨snap, hs, ht, hr, _⟩ :=
      GetLoadTestMetrics_rps_wall_clock.1 (s5Controller 0 []) s5Extract 10000000000
        10000000001 "t1" s5Pods _ 0 rfl rfl rfl
    refine ⟨snap, hs, ?_⟩
    have ht2 : snap.summary.totalRequests = 300 := by
      rw [ht, s5_contributingFrames]; decide
    rw [hr, ht2]
    norm_num [endInstant, firstTerminal, Seconds, Sub]
  · obtain ⟨snap, hs, ht, hr, _⟩ :=
      GetLoadTestMetrics_rps_wall_clock.1
        (s5Controller 0 [completeAtFive]) s5Extract 10000000000
        10000000001 "t1" s5Pods _ 0 rfl rfl rfl
    refine ⟨snap, hs, ?_⟩
    have ht2 : snap.summary.totalRequests = 300 := by
      rw [ht, s5_contributingFrames]; decide
    rw [hr, ht2]
    norm_num [endInstant, firstTerminal, Seconds, Sub, completeAtFive]
  · refine (GetLoadTestMetrics_rps_wall_clock.2 (s5Controller 0 []) s5Extract
      s5ExtractInflated 10000000000 10000000001 "t1" ?_).1
    intro podName
    unfold s5ExtractInflated
    cases s5Extract podName with
    | error e => rfl
    | ok r => cases r <;> rfl

/-! ### The metrics extractor -/

theorem lastDecoded_cons (decode : List Char → Option LoadTestMetrics) (text : List Char)
    (rest : List (List Char)) :
    lastDecoded decode (text :: rest) = (lastDecoded decode rest).or (decode text) := by
  unfold lastDecoded
  cases h : decode text with
  | none => simp [List.filterMap_cons, h]
  | some m =>
    rw [List.filterMap_cons_some h]
    have : m :: List.filterMap decode rest = [m] ++ List.filterMap decode rest := rfl
    rw [this, List.getLast?_append]
    rfl

theorem scanLines_cons (decode : List Char → Option LoadTestMetrics) (st : ScanState)
    (line : Line) (rest : List Line) :
    scanLines decode st (line :: rest) = scanLines decode (scanLine decode st line) rest := rfl

theorem scanLines_append (decode : List Char → Option LoadTestMetrics) (st : ScanState)
    (pre post : List Line) :
    scanLines decode st (pre ++ post) = scanLines decode (scanLines decode st pre) post := by
  unfold scanLines
  rw [List.foldl_append]

theorem scanLine_sentinel_brace (decode : List Char → Option LoadTestMetrics) (st : ScanState)
    (line : Line) (idx : Nat) (hs : Contains line sentinel = true)
    (hi : Index line lbrace = some idx) :
    scanLine decode st line =
      { st with capturing := true, braceCount := 1, buffer := line.drop idx ++ ['\n'] } := by
  simp [scanLine, hs, hi]

theorem scanLine_sentinel_plain (decode : List Char → Option LoadTestMetrics) (st : ScanState)
    (line : Line) (hs : Contains line sentinel = true) (hi : Index line lbrace = none) :
    scanLine decode st line = st := by
  simp [scanLine, hs, hi]

theorem scanLine_idle (decode : List Char → Option LoadTestMetrics) (st : ScanState)
    (line : Line) (hs : Contains line sentinel = false) (hc : st.capturing = false) :
    scanLine decode st line = st := by
  simp [scanLine, hs, hc]

theorem scanLine_open (decode : List Char → Option LoadTestMetrics) (st : ScanState)
    (line : Line) (hs : Contains line sentinel = false) (hc : st.capturing = true)
    (hz : st.braceCount + Count line lbrace - Count line rbrace ≠ 0) :
    scanLine decode st line =
      { st with buffer := st.buffer ++ line ++ ['\n'],
                braceCount := st.braceCount + Count line lbrace - Count line rbrace } := by
  simp [scanLine, hs, hc, hz]

theorem scanLine_close (decode : List Char → Option LoadTestMetrics) (st : ScanState)
    (line : Line) (hs : Contains line sentinel = false) (hc : st.capturing = true)
    (hz : st.braceCount + Count line lbrace - Count line rbrace = 0) :
    scanLine decode st line =
      { lastMetrics := (decode (st.buffer ++ line ++ ['\n'])).or st.lastMetrics,
        capturing := false, braceCount := 0, buffer := st.buffer ++ line ++ ['\n'] } := by
  simp only [scanLine, hs, hc, hz, if_true, Bool.false_eq_true, if_false]
  cases decode (st.buffer ++ line ++ ['\n']) <;> rfl

theorem capturesFrom_sentinel_brace (cur : Option (Int × List Char)) (line : Line)
    (rest : List Line) (idx : Nat) (hs : Contains line sentinel = true)
    (hi : Index line lbrace = some idx) :
    capturesFrom cur (line :: rest) =
      capturesFrom (some (1, line.drop idx ++ ['\n'])) rest := by
  simp [capturesFrom, hs, hi]

theorem capturesFrom_sentinel_plain (cur : Option (Int × List Char)) (line : Line)
    (rest : List Line) (hs : Contains line sentinel = true) (hi : Index line lbrace = none) :
    capturesFrom cur (line :: rest) = capturesFrom cur rest := by
  simp [capturesFrom, hs, hi]

theorem capturesFrom_idle (line : Line) (rest : List Line)
    (hs : Contains line sentinel = false) :
    capturesFrom none (line :: rest) = capturesFrom none rest := by
  simp [capturesFrom, hs]

theorem capturesFrom_open (depth : Int) (text : List Char) (line : Line) (rest : List Line)
    (hs : Contains line sentinel = false)
    (hz : depth + Count line lbrace - Count line rbrace ≠ 0) :
    capturesFrom (some (depth, text)) (line :: rest) =
      capturesFrom
        (some (depth + Count line lbrace - Count line rbrace, text ++ line ++ ['\n'])) rest := by
  simp [capturesFrom, hs, hz]

theorem capturesFrom_close (depth : Int) (text : List Char) (line : Line) (rest : List Line)
    (hs : Contains line sentinel = false)
    (hz : depth + Count line lbrace - Count line rbrace = 0) :
    capturesFrom (some (depth, text)) (line :: rest) =
      (text ++ line ++ ['\n']) :: capturesFrom none rest := by
  simp [capturesFrom, hs, hz]

/-- The loop keeps in `lastMetrics` the last decoded completed capture, or
what it held before when no capture completes and decodes. -/
theorem scanLines_lastMetrics (decode : List Char → Option LoadTestMetrics)
    (lines : List Line) (st : ScanState) :
    (scanLines decode st lines).lastMetrics =
      (lastDecoded decode (capturesFrom st.current lines)).or st.lastMetrics := by
  induction lines generalizing st with
  | nil => simp [scanLines, capturesFrom, lastDecoded]
  | cons line rest ih =>
    rw [scanLines_cons, ih]
    cases hs : Contains line sentinel with
    | true =>
      cases hi : Index line lbrace with
      | none =>
        rw [scanLine_sentinel_plain decode st line hs hi,
          capturesFrom_sentinel_plain _ line rest hs hi]
      | some idx =>
        rw [scanLine_sentinel_brace decode st line idx hs hi,
          capturesFrom_sentinel_brace _ line rest idx hs hi]
        rfl
    | false =>
      cases hc : st.capturing with
      | false =>
        rw [scanLine_idle decode st line hs hc]
        simp only [ScanState.current, hc, Bool.false_eq_true, if_false]
        rw [capturesFrom_idle line rest hs]
      | true =>
        by_cases hz : st.braceCount + Count line lbrace - Count line rbrace = 0
        · rw [scanLine_close decode st line hs hc hz]
          simp only [ScanState.current, hc, if_true, Bool.false_eq_true, if_false]
          rw [capturesFrom_close _ _ line rest hs hz, lastDecoded_cons]
          cases lastDecoded decode (capturesFrom none rest) <;>
            cases decode (st.buffer ++ line ++ ['\n']) <;> rfl
        · rw [scanLine_open decode st line hs hc hz]
          simp only [ScanState.current, hc, if_true]
          rw [capturesFrom_open _ _ line rest hs hz]

theorem netBraces_cons (line : Line) (rest : List Line) :
    netBraces (line :: rest) = Count line lbrace - Count line rbrace + netBraces rest := by
  simp [netBraces]

theorem netBraces_append (pre post : List Line) :
    netBraces (pre ++ post) = netBraces pre + netBraces post := by
  simp [netBraces]

/-- A capture in progress over lines that hold no sentinel and never bring
the depth to 0: the lines are buffered, the depth follows, nothing else
changes. -/
theorem scanLines_open_run (decode : List Char → Option LoadTestMetrics) (body : List Line)
    (last : Option LoadTestMetrics) (depth : Int) (text : List Char)
    (hns : ∀ line ∈ body, Contains line sentinel = false)
    (hd : ∀ k, 0 < k → k ≤ body.length → depth + netBraces (body.take k) ≠ 0) :
    scanLines decode
        { lastMetrics := last, capturing := true, braceCount := depth, buffer := text } body =
      { lastMetrics := last, capturing := true, braceCount := depth + netBraces body,
        buffer := text ++ (body.map (· ++ ['\n'])).flatten } := by
  induction body generalizing depth text with
  | nil => simp [scanLines, netBraces]
  | cons line rest ih =>
    have h1 := hd 1 (by omega) (by simp)
    simp only [List.take_succ_cons, List.take_zero, netBraces_cons] at h1
    have h1b : netBraces ([] : List Line) = 0 := rfl
    rw [h1b] at h1
    have hz : depth + Count line lbrace - Count line rbrace ≠ 0 := by omega
    rw [scanLines_cons, scanLine_open decode _ line (hns line (by simp)) rfl hz]
    rw [ih (depth + Count line lbrace - Count line rbrace) (text ++ line ++ ['\n'])
      (fun l hl => hns l (by simp [hl]))]
    · simp only [netBraces_cons, List.map_cons, List.flatten_cons, List.append_assoc,
        ScanState.mk.injEq, true_and, and_true]
      omega
    · intro k hk hkl
      have h2 := hd (k + 1) (by omega) (by simp; omega)
      simp only [List.take_succ_cons, netBraces_cons] at h2
      omega

/-- A capture that completes on the last of its lines: the buffered text is
decoded and, when that succeeds, replaces `lastMetrics`. -/
theorem scanLines_closing_run (decode : List Char → Option LoadTestMetrics)
    (body : List Line) (final : Line) (last : Option LoadTestMetrics) (depth : Int)
    (text : List Char)
    (hns : ∀ line ∈ body ++ [final], Contains line sentinel = false)
    (hd : ∀ k, 0 < k → k ≤ body.length → depth + netBraces (body.take k) ≠ 0)
    (hz : depth + netBraces (body ++ [final]) = 0) :
    scanLines decode
        { lastMetrics := last, capturing := true, braceCount := depth, buffer := text }
        (body ++ [final]) =
      { lastMetrics := (decode (text ++ ((body ++ [final]).map (· ++ ['\n'])).flatten)).or last,
        capturing := false, braceCount := 0,
        buffer := text ++ ((body ++ [final]).map (· ++ ['\n'])).flatten } := by
  rw [scanLines_append, scanLines_open_run decode body last depth text
    (fun l hl => hns l (by simp [hl])) hd]
  have hz2 : depth + netBraces body + Count final lbrace - Count final rbrace = 0 := by
    rw [netBraces_append, netBraces_cons] at hz
    have : netBraces ([] : List Line) = 0 := rfl
    omega
  have hstep : ∀ st : ScanState, scanLines decode st [final] = scanLine decode st final :=
    fun _ => rfl
  rw [hstep, scanLine_close decode _ final (hns final (by simp)) rfl hz2]
  simp [List.append_assoc]

theorem lastDecoded_of_all_fail (decode : List Char → Option LoadTestMetrics)
    (captures : List (List Char)) (h : ∀ text ∈ captures, decode text = none) :
    lastDecoded decode captures = none := by
  unfold lastDecoded
  have : List.filterMap decode captures = [] := by
    induction captures with
    | nil => rfl
    | cons text rest ih =>
      rw [List.filterMap_cons_none (h text (by simp))]
      exact ih (fun t ht => h t (by simp [ht]))
  rw [this]
  rfl

theorem lastDecoded_last_valid (decode : List Char → Option LoadTestMetrics)
    (earlier : List (List Char)) (text : List Char) (later : List (List Char))
    (m : LoadTestMetrics) (hm : decode text = some m)
    (hlater : ∀ t ∈ later, decode t = none) :
    lastDecoded decode (earlier ++ text :: later) = some m := by
  induction earlier with
  | nil =>
    rw [List.nil_append, lastDecoded_cons, lastDecoded_of_all_fail decode later hlater, hm]
    rfl
  | cons e rest ih =>
    rw [List.cons_append, lastDecoded_cons, ih]
    rfl

theorem latestFrame_eq (decode : List Char → Option LoadTestMetrics) (lines : List Line) :
    latestFrame decode lines = lastDecoded decode (completedCaptures lines) := by
  unfold latestFrame completedCaptures
  rw [scanLines_lastMetrics]
  simp [ScanState.current, ScanState.init]

theorem extractMetricsFromPod_eq (c : LoadTestController)
    (decode : List Char → Option LoadTestMetrics) (podName : String) (lines : List Line)
    (hlog : c.kubeClient.podLogs c.ns podName 100 = .ok { lines := lines, scanErr := none }) :
    c.extractMetricsFromPod decode podName = .ok (latestFrame decode lines) := by
  unfold LoadTestController.extractMetricsFromPod
  rw [hlog]
  rfl

/-- A capture that is still open at the end of the log leaves the result
what it was before the capture began. -/
theorem latestFrame_open_tail (decode : List Char → Option LoadTestMetrics)
    (pre : List Line) (first : Line) (body : List Line) (idx : Nat)
    (hs : Contains first sentinel = true) (hi : Index first lbrace = some idx)
    (hns : ∀ line ∈ body, Contains line sentinel = false)
    (hd : ∀ k, 0 < k → k ≤ body.length → 1 + netBraces (body.take k) ≠ 0) :
    latestFrame decode (pre ++ first :: body) = latestFrame decode pre := by
  unfold latestFrame
  rw [scanLines_append, scanLines_cons, scanLine_sentinel_brace decode _ first idx hs hi,
    scanLines_open_run decode body _ 1 _ hns hd]

/-- C5: on a pod log read without error, `extractMetricsFromPod` returns,
with no error, the last frame among the completed captures (those whose
brace depth returned to 0) whose buffered text decodes: a capture that
decodes and is followed only by captures that do not decode is the one
returned, whatever decoded before it; when no completed capture decodes the
result is null; and a capture still open at the end of the log, its depth
never back to 0, leaves the result what the log before it gives. -/
theorem extractMetricsFromPod_last_frame (c : LoadTestController)
    (decode : List Char → Option LoadTestMetrics) (podName : String) (lines : List Line)
    (hlog : c.kubeClient.podLogs c.ns podName 100 = .ok { lines := lines, scanErr := none }) :
    c.extractMetricsFromPod decode podName =
        .ok (lastDecoded decode (completedCaptures lines)) ∧
    (∀ earlier text later m, completedCaptures lines = earlier ++ text :: later →
      decode text = some m → (∀ t ∈ later, decode t = none) →
      c.extractMetricsFromPod decode podName = .ok (some m)) ∧
    ((∀ text ∈ completedCaptures lines, decode text = none) →
      c.extractMetricsFromPod decode podName = .ok none) ∧
    (∀ pre first body idx, lines = pre ++ first :: body →
      Contains first sentinel = true → Index first lbrace = some idx →
      (∀ line ∈ body, Contains line sentinel = false) →
      (∀ k, 0 < k → k ≤ body.length → 1 + netBraces (body.take k) ≠ 0) →
      c.extractMetricsFromPod decode podName =
        .ok (lastDecoded decode (completedCaptures pre))) := by
  have h0 := extractMetricsFromPod_eq c decode podName lines hlog
  refine ⟨?_, ?_, ?_, ?_⟩
  · rw [h0, latestFrame_eq]
  · intro earlier text later m hcap hm hlater
    rw [h0, latestFrame_eq, hcap, lastDecoded_last_valid decode earlier text later m hm hlater]
  · intro hfail
    rw [h0, latestFrame_eq, lastDecoded_of_all_fail decode _ hfail]
  · intro pre first body idx hl hs hi hns hd
    rw [h0, hl, latestFrame_open_tail decode pre first body idx hs hi hns hd, latestFrame_eq]

theorem twoFrameLog_captures :
    completedCaptures twoFrameLog =
      ["\x7b\n  \"total_requests\": 100\n\x7d\n".toList,
       "\x7b\n  \"total_requests\": 250\n\x7d\n".toList] := by
  decide

theorem brokenFrameLog_captures :
    completedCaptures brokenFrameLog =
      ["\x7b\n  \"total_requests\": 100\n\x7d\n".toList,
       "\x7b\n  total_requests = 250\n\x7d\n".toList] := by
  decide

/-- Witness of C5: of the two frames of `twoFrameLog` the later one is
returned; in `brokenFrameLog` the second capture completes but does not
decode and the third never closes, so the first frame is returned. -/
theorem extractMetricsFromPod_last_frame_witness :
    (logController twoFrameLog).kubeClient.podLogs (logController twoFrameLog).ns "w-1" 100 =
      .ok { lines := twoFrameLog, scanErr := none } ∧
    (logController twoFrameLog).extractMetricsFromPod sampleDecode "w-1" =
      .ok (some (frameOf 250)) ∧
    (logController brokenFrameLog).extractMetricsFromPod sampleDecode "w-1" =
      .ok (some (frameOf 100)) := by
  refine ⟨rfl, ?_, ?_⟩
  · rw [(extractMetricsFromPod_last_frame (logController twoFrameLog) sampleDecode "w-1"
      twoFrameLog rfl).1, twoFrameLog_captures]
    rfl
  · rw [(extractMetricsFromPod_last_frame (logController brokenFrameLog) sampleDecode "w-1"
      brokenFrameLog rfl).1, brokenFrameLog_captures]
    rfl

theorem Count_append (a b : List Char) (x : Char) : Count (a ++ b) x = Count a x + Count b x := by
  induction a with
  | nil => simp [Count]
  | cons c cs ih =>
    show Count (c :: (cs ++ b)) x = Count (c :: cs) x + Count b x
    simp only [Count]
    rw [ih]
    omega

theorem netBraces_text (body : List Line) :
    Count (body.map (· ++ ['\n'])).flatten lbrace -
      Count (body.map (· ++ ['\n'])).flatten rbrace = netBraces body := by
  induction body with
  | nil => rfl
  | cons line rest ih =>
    have h1 : Count ['\n'] lbrace = 0 := by decide
    have h2 : Count ['\n'] rbrace = 0 := by decide
    simp only [List.map_cons, List.flatten_cons, Count_append, netBraces_cons, h1, h2]
    omega

/-- The whole-log form of a frame that spans several lines: a sentinel line
with a brace, then lines without sentinel over which the depth, started at
1, reaches 0 on the last line and not before. -/
theorem latestFrame_block (decode : List Char → Option LoadTestMetrics) (first : Line)
    (body : List Line) (idx : Nat) (hs : Contains first sentinel = true)
    (hi : Index first lbrace = some idx) (hne : body ≠ [])
    (hns : ∀ line ∈ body, Contains line sentinel = false)
    (hd : ∀ k, 0 < k → k < body.length → 1 + netBraces (body.take k) ≠ 0)
    (hz : 1 + netBraces body = 0) :
    latestFrame decode (first :: body) = decode (frameText first body) := by
  obtain ⟨init, final, hbody⟩ : ∃ init final, body = init ++ [final] :=
    ⟨body.dropLast, body.getLast hne, (List.dropLast_concat_getLast hne).symm⟩
  subst hbody
  have hd2 : ∀ k, 0 < k → k ≤ init.length → 1 + netBraces (init.take k) ≠ 0 := by
    intro k hk hkl
    have h := hd k hk (by simp; omega)
    rwa [List.take_append_of_le_length hkl] at h
  unfold latestFrame
  rw [scanLines_cons, scanLine_sentinel_brace decode _ first idx hs hi]
  simp only [ScanState.init]
  rw [scanLines_closing_run decode init final none 1 _ hns hd2 hz]
  simp only [frameText, hi]
  cases decode (List.drop idx first ++ ['\n'] ++
    (List.map (fun x => x ++ ['\n']) (init ++ [final])).flatten) <;> rfl

/-- C6, as amended: a log made of a sentinel line with an opening brace and
two or more further lines, whose text from that brace to the end is
brace-balanced and decodes to `m`, gives `m` provided that the sentinel
line, from its first opening brace, holds exactly one more opening than
closing brace, that no further line contains the sentinel, and that the
depth (1 after the sentinel line, moved by each further line's braces) does
not reach 0 before the last line. -/
theorem extractMetricsFromPod_multiline (c : LoadTestController)
    (decode : List Char → Option LoadTestMetrics) (podName : String) (first : Line)
    (body : List Line) (idx : Nat) (m : LoadTestMetrics)
    (hlog : c.kubeClient.podLogs c.ns podName 100 =
      .ok { lines := first :: body, scanErr := none })
    (hs : Contains first sentinel = true) (hi : Index first lbrace = some idx)
    (hlen : 2 ≤ body.length)
    (hbal : Count (frameText first body) lbrace = Count (frameText first body) rbrace)
    (hm : decode (frameText first body) = some m)
    (hone : Count (first.drop idx) lbrace - Count (first.drop idx) rbrace = 1)
    (hns : ∀ line ∈ body, Contains line sentinel = false)
    (hd : ∀ k, 0 < k → k < body.length → 1 + netBraces (body.take k) ≠ 0) :
    c.extractMetricsFromPod decode podName = .ok (some m) := by
  have hne : body ≠ [] := by
    intro h
    rw [h] at hlen
    simp at hlen
  have hz : 1 + netBraces body = 0 := by
    have h1 : Count ['\n'] lbrace = 0 := by decide
    have h2 : Count ['\n'] rbrace = 0 := by decide
    have h3 := netBraces_text body
    simp only [frameText, hi, Count_append, h1, h2] at hbal
    omega
  rw [extractMetricsFromPod_eq c decode podName (first :: body) hlog,
    latestFrame_block decode first body idx hs hi hne hns hd hz, hm]

/-- C6, counterexample: the three-line frame `nestedFirst :: nestedBody`
meets every condition of the claim (sentinel line with a brace, two further
lines, balanced text that decodes to `nestedFrame`), yet the extractor
returns null: the sentinel line opens two objects, the depth is set to 1,
the second line brings it to 0 and the truncated text does not decode. -/
theorem extractMetricsFromPod_multiline_counterexample :
    Contains nestedFirst sentinel = true ∧
    Index nestedFirst lbrace = some 9 ∧
    2 ≤ nestedBody.length ∧
    Count (frameText nestedFirst nestedBody) lbrace =
      Count (frameText nestedFirst nestedBody) rbrace ∧
    sampleDecode (frameText nestedFirst nestedBody) = some nestedFrame ∧
    (logController (nestedFirst :: nestedBody)).extractMetricsFromPod sampleDecode "w-1" =
      .ok none := by
  refine ⟨by decide, by decide, by decide, by decide, ?_, ?_⟩
  · rfl
  · rfl

/-- Witness of C6 as amended: the pretty-printed frame
`plainFirst :: plainBody`, three log lines, is returned. -/
theorem extractMetricsFromPod_multiline_witness :
    (logController (plainFirst :: plainBody)).kubeClient.podLogs
        (logController (plainFirst :: plainBody)).ns "w-1" 100 =
      .ok { lines := plainFirst :: plainBody, scanErr := none } ∧
    Contains plainFirst sentinel = true ∧
    Index plainFirst lbrace = some 9 ∧
    sampleDecode (frameText plainFirst plainBody) = some (frameOf 100) ∧
    (logController (plainFirst :: plainBody)).extractMetricsFromPod sampleDecode "w-1" =
      .ok (some (frameOf 100)) := by
  refine ⟨rfl, by decide, by decide, rfl, ?_⟩
  refine extractMetricsFromPod_multiline (logController (plainFirst :: plainBody)) sampleDecode
    "w-1" plainFirst plainBody 9 (frameOf 100) rfl (by decide) (by decide) (by decide)
    (by decide) rfl (by decide) (by decide) ?_
  intro k hk hk2
  have hk1 : k = 1 := by
    have : plainBody.length = 2 := rfl
    omega
  subst hk1
  decide

/-- C7, as amended: a sentinel line with an opening brace in last position
of the log is never decoded, whatever JSON follows the brace on that line:
the extractor returns what the lines before it give, the last decoded
completed capture among them, and null when nothing precedes the line. -/
theorem extractMetricsFromPod_single_line (c : LoadTestController)
    (decode : List Char → Option LoadTestMetrics) (podName : String) (pre : List Line)
    (line : Line) (idx : Nat)
    (hlog : c.kubeClient.podLogs c.ns podName 100 =
      .ok { lines := pre ++ [line], scanErr := none })
    (hs : Contains line sentinel = true) (hi : Index line lbrace = some idx) :
    c.extractMetricsFromPod decode podName =
        .ok (lastDecoded decode (completedCaptures pre)) ∧
    (pre = [] → c.extractMetricsFromPod decode podName = .ok none) := by
  have h : c.extractMetricsFromPod decode podName =
      .ok (lastDecoded decode (completedCaptures pre)) := by
    rw [extractMetricsFromPod_eq c decode podName (pre ++ [line]) hlog,
      latestFrame_open_tail decode pre line [] idx hs hi (by simp)
        (fun k hk hk0 => by simp at hk0; omega), latestFrame_eq]
  refine ⟨h, ?_⟩
  intro hpre
  rw [h, hpre]
  rfl

/-- C7, counterexample: the log whose only line is `singleLineFrame`, the
sentinel followed by a complete JSON object that decodes to a frame, gives
null. -/
theorem extractMetricsFromPod_single_line_counterexample :
    Contains singleLineFrame sentinel = true ∧
    Index singleLineFrame lbrace = some 9 ∧
    sampleDecode (singleLineFrame.drop 9) = some (frameOf 100) ∧
    (logController [singleLineFrame]).extractMetricsFromPod sampleDecode "w-1" = .ok none := by
  refine ⟨by decide, by decide, rfl, rfl⟩

/-- Witness of C7 as amended: after the two frames of `twoFrameLog`, a
single-line frame in last position changes nothing: the result is still the
second multi-line frame. -/
theorem extractMetricsFromPod_single_line_witness :
    (logController (twoFrameLog ++ [singleLineFrame])).kubeClient.podLogs
        (logController (twoFrameLog ++ [singleLineFrame])).ns "w-1" 100 =
      .ok { lines := twoFrameLog ++ [singleLineFrame], scanErr := none } ∧
    Contains singleLineFrame sentinel = true ∧
    Index singleLineFrame lbrace = some 9 ∧
    (logController (twoFrameLog ++ [singleLineFrame])).extractMetricsFromPod sampleDecode
      "w-1" = .ok (some (frameOf 250)) := by
  refine ⟨rfl, by decide, by decide, ?_⟩
  rw [(extractMetricsFromPod_single_line (logController (twoFrameLog ++ [singleLineFrame]))
    sampleDecode "w-1" twoFrameLog singleLineFrame 9 rfl (by decide) (by decide)).1,
    twoFrameLog_captures]
  rfl

/-! ### Create validation -/

/-- C8: `validateCreateRequest` accepts exactly the requests with non-empty
`name`, non-empty `target_url`, `worker_count > 0` and
`requests_per_sec > 0`; a rejection names the first failing check in that
order; and on a rejection `CreateLoadTest` answers 400 with that message,
leaves the store as it was, sends it no statement and calls no controller
operation. -/
theorem validateCreateRequest_accepts_iff (req : CreateLoadTestRequest) :
    (validateCreateRequest req = none ↔
      req.name ≠ "" ∧ req.targetURL ≠ "" ∧ 0 < req.config.workerCount ∧
        0 < req.config.requestsPerSec) ∧
    (req.name = "" → validateCreateRequest req = some "name is required") ∧
    (req.name ≠ "" → req.targetURL = "" →
      validateCreateRequest req = some "target_url is required") ∧
    (req.name ≠ "" → req.targetURL ≠ "" → ¬ 0 < req.config.workerCount →
      validateCreateRequest req = some "worker_count must be greater than 0") ∧
    (req.name ≠ "" → req.targetURL ≠ "" → 0 < req.config.workerCount →
      ¬ 0 < req.config.requestsPerSec →
      validateCreateRequest req = some "requests_per_sec must be greater than 0") ∧
    (∀ (h : LoadTestHandler) (userID : String) (idNow createdNow : Time) (err : String),
      validateCreateRequest req = some err →
      (h.CreateLoadTest (some req) userID idNow createdNow).code = 400 ∧
      (h.CreateLoadTest (some req) userID idNow createdNow).body = .text err ∧
      (h.CreateLoadTest (some req) userID idNow createdNow).db = h.db ∧
      (h.CreateLoadTest (some req) userID idNow createdNow).writes = [] ∧
      (h.CreateLoadTest (some req) userID idNow createdNow).calls = []) := by
  refine ⟨?_, ?_, ?_, ?_, ?_, ?_⟩
  · unfold validateCreateRequest
    by_cases h1 : req.name = ""
    · simp [h1]
    · by_cases h2 : req.targetURL = ""
      · simp [h1, h2]
      · by_cases h3 : req.config.workerCount ≤ 0
        · simp [h1, h2, h3]
        · by_cases h4 : req.config.requestsPerSec ≤ 0
          · simp [h1, h2, h3, h4]
          · simp only [h1, h2, h3, h4, if_false, true_iff]
            exact ⟨h1, h2, by omega, by omega⟩
  · intro h1
    simp [validateCreateRequest, h1]
  · intro h1 h2
    simp [validateCreateRequest, h1, h2]
  · intro h1 h2 h3
    have h3b : req.config.workerCount ≤ 0 := by omega
    simp [validateCreateRequest, h1, h2, h3b]
  · intro h1 h2 h3 h4
    have h3b : ¬ req.config.workerCount ≤ 0 := by omega
    have h4b : req.config.requestsPerSec ≤ 0 := by omega
    simp [validateCreateRequest, h1, h2, h3b, h4b]
  · intro h userID idNow createdNow err herr
    simp [LoadTestHandler.CreateLoadTest, herr]

/-- Witness of C8: scenario S2, a request with name and target set and
`worker_count = 0`. -/
theorem validateCreateRequest_accepts_iff_witness :
    validateCreateRequest zeroWorkerRequest = some "worker_count must be greater than 0" ∧
    (sampleHandler [] 0 0 0).CreateLoadTest (some zeroWorkerRequest) "alice" 7 8 =
      { code := 400, body := .text "worker_count must be greater than 0",
        db := { rows := [] }, calls := [], writes := [] } ∧
    validateCreateRequest sampleRequest = none := by
  have h := validateCreateRequest_accepts_iff zeroWorkerRequest
  have h3 := h.2.2.2.1 (by decide) (by decide) (by decide)
  obtain ⟨a, b, c, d, e⟩ := h.2.2.2.2.2 (sampleHandler [] 0 0 0) "alice" 7 8 _ h3
  refine ⟨h3, ?_, ?_⟩
  · rfl
  · exact (validateCreateRequest_accepts_iff sampleRequest).1.2
      ⟨by decide, by decide, by decide, by decide⟩

/-! ### Store statements and the create handler -/

theorem saveLoadTestToDB_ok (db db1 : Store) (answered : Bool) (test : LoadTest)
    (hsave : saveLoadTestToDB db answered test = .ok db1) :
    answered = true ∧ (∀ r ∈ db.rows, r.id ≠ test.id) ∧
      db1 = { rows := db.rows ++ [{ test with completedAt := none }] } := by
  unfold saveLoadTestToDB at hsave
  by_cases hup : answered = true
  · by_cases hdup : db.rows.any (fun r => decide (r.id = test.id)) = true
    · simp [hup, hdup] at hsave
    · simp only [hup, if_true, hdup, Bool.false_eq_true, if_false, Except.ok.injEq] at hsave
      refine ⟨hup, ?_, ?_⟩
      · simpa using hdup
      · rw [← hsave]
  · simp [hup] at hsave

/-- After the insert of a fresh id, the `UPDATE` of the status of that id
changes the new row, when the store executes it, and nothing else. -/
theorem updateLoadTestStatus_after_insert (db : Store) (answered : Bool) (test : LoadTest)
    (status : String) (hfresh : ∀ r ∈ db.rows, r.id ≠ test.id) :
    updateLoadTestStatus { rows := db.rows ++ [test] } answered test.id status =
      { rows := db.rows ++
          [{ test with status := if answered then status else test.status }] } := by
  cases answered with
  | false => simp [updateLoadTestStatus]
  | true =>
    simp only [updateLoadTestStatus, if_true, List.map_append, List.map_cons, List.map_nil,
      Store.mk.injEq]
    congr 1
    conv_rhs => rw [← List.map_id db.rows]
    apply List.map_congr_left
    intro r hr
    rw [if_neg (hfresh r hr)]
    rfl

/-- The create handler on a valid request, as a function of the insert and
of Start. -/
theorem CreateLoadTest_valid (h : LoadTestHandler) (req : CreateLoadTestRequest)
    (userID : String) (idNow createdNow : Time) (hvalid : validateCreateRequest req = none) :
    h.CreateLoadTest (some req) userID idNow createdNow =
      match saveLoadTestToDB h.db
        (h.answers.exec (.insertRow (pendingTest req userID idNow createdNow)))
        (pendingTest req userID idNow createdNow) with
      | .error _ =>
        { code := 500, body := .text "Failed to save load test", db := h.db, calls := [],
          writes := [.insertRow (pendingTest req userID idNow createdNow)] }
      | .ok db =>
        match h.controller.StartLoadTest (pendingTest req userID idNow createdNow) with
        | some _ =>
          { code := 500, body := .text "Failed to start load test"
            db := updateLoadTestStatus db
              (h.answers.exec (.setStatus (pendingTest req userID idNow createdNow).id "failed"))
              (pendingTest req userID idNow createdNow).id "failed"
            calls := [.start (pendingTest req userID idNow createdNow)]
            writes := [.insertRow (pendingTest req userID idNow createdNow),
              .setStatus (pendingTest req userID idNow createdNow).id "failed"] }
        | none =>
          { code := 201, body := .test (pendingTest req userID idNow createdNow)
            db := updateLoadTestStatus db
              (h.answers.exec (.setStatus (pendingTest req userID idNow createdNow).id "running"))
              (pendingTest req userID idNow createdNow).id "running"
            calls := [.start (pendingTest req userID idNow createdNow)]
            writes := [.insertRow (pendingTest req userID idNow createdNow),
              .setStatus (pendingTest req userID idNow createdNow).id "running"] } := by
  unfold LoadTestHandler.CreateLoadTest
  simp only [hvalid]
  rfl

/-- What a create request can do to the store: nothing, or append one row
under a fresh id, with the fields of the request and of the caller. -/
theorem CreateLoadTest_db (h : LoadTestHandler) (req : Option CreateLoadTestRequest)
    (userID : String) (idNow createdNow : Time) :
    (h.CreateLoadTest req userID idNow createdNow).db = h.db ∨
    ∃ t : LoadTest, (∀ r ∈ h.db.rows, r.id ≠ t.id) ∧ t.id = generateTestID idNow ∧
      t.userID = userID ∧
      (h.CreateLoadTest req userID idNow createdNow).db = { rows := h.db.rows ++ [t] } := by
  cases req with
  | none => exact Or.inl rfl
  | some req =>
    cases hv : validateCreateRequest req with
    | some err =>
      left
      simp [LoadTestHandler.CreateLoadTest, hv]
    | none =>
      rw [CreateLoadTest_valid h req userID idNow createdNow hv]
      cases hsave : saveLoadTestToDB h.db
          (h.answers.exec (.insertRow (pendingTest req userID idNow createdNow)))
          (pendingTest req userID idNow createdNow) with
      | error e => exact Or.inl rfl
      | ok db1 =>
        right
        obtain ⟨_, hfresh, hdb1⟩ := saveLoadTestToDB_ok h.db db1 _ _ hsave
        have hdb1b : db1 = { rows := h.db.rows ++ [pendingTest req userID idNow createdNow] } :=
          hdb1
        cases hstart : h.controller.StartLoadTest (pendingTest req userID idNow createdNow) with
        | none =>
          refine ⟨{ pendingTest req userID idNow createdNow with
            status := if h.answers.exec
              (.setStatus (pendingTest req userID idNow createdNow).id "running") then "running"
              else (pendingTest req userID idNow createdNow).status }, hfresh, rfl, rfl, ?_⟩
          simp only
          rw [hdb1b]
          exact updateLoadTestStatus_after_insert h.db _ _ "running" hfresh
        | some e =>
          refine ⟨{ pendingTest req userID idNow createdNow with
            status := if h.answers.exec
              (.setStatus (pendingTest req userID idNow createdNow).id "failed") then "failed"
              else (pendingTest req userID idNow createdNow).status }, hfresh, rfl, rfl, ?_⟩
          simp only
          rw [hdb1b]
          exact updateLoadTestStatus_after_insert h.db _ _ "failed" hfresh

/-- A create answered 201 came from a valid request whose insert and whose
Start both succeeded. -/
theorem CreateLoadTest_201 (h : LoadTestHandler) (req : Option CreateLoadTestRequest)
    (userID : String) (idNow createdNow : Time)
    (hok : (h.CreateLoadTest req userID idNow createdNow).code = 201) :
    ∃ r db1, req = some r ∧ validateCreateRequest r = none ∧
      saveLoadTestToDB h.db (h.answers.exec (.insertRow (pendingTest r userID idNow createdNow)))
        (pendingTest r userID idNow createdNow) = .ok db1 ∧
      h.controller.StartLoadTest (pendingTest r userID idNow createdNow) = none := by
  cases req with
  | none => simp [LoadTestHandler.CreateLoadTest] at hok
  | some r =>
    cases hv : validateCreateRequest r with
    | some err => simp [LoadTestHandler.CreateLoadTest, hv] at hok
    | none =>
      rw [CreateLoadTest_valid h r userID idNow createdNow hv] at hok
      cases hsave : saveLoadTestToDB h.db
          (h.answers.exec (.insertRow (pendingTest r userID idNow createdNow)))
          (pendingTest r userID idNow createdNow) with
      | error e => simp [hsave] at hok
      | ok db1 =>
        cases hstart : h.controller.StartLoadTest (pendingTest r userID idNow createdNow) with
        | some e => simp [hsave, hstart] at hok
        | none => exact ⟨r, db1, rfl, hv, hsave, hstart⟩

/-! ### Ownership -/

theorem userOwnsTest_false (db : Store) (answered : Bool) (testID userID : String)
    (hno : ∀ r ∈ db.rows, ¬ (r.id = testID ∧ r.userID = userID)) :
    userOwnsTest db answered testID userID = false := by
  unfold userOwnsTest
  have : db.rows.any (fun r => decide (r.id = testID ∧ r.userID = userID)) = false := by
    rw [List.any_eq_false]
    intro r hr
    simpa using hno r hr
  rw [this]
  simp

theorem getLoadTestFromDB_error (db : Store) (answered : Bool) (testID userID : String)
    (hno : ∀ r ∈ db.rows, ¬ (r.id = testID ∧ r.userID = userID)) :
    ∃ err, getLoadTestFromDB db answered testID userID = .error err := by
  unfold getLoadTestFromDB
  by_cases hup : answered = true
  · have : db.rows.find? (fun r => decide (r.id = testID ∧ r.userID = userID)) = none := by
      rw [List.find?_eq_none]
      intro r hr
      simpa using hno r hr
    simp only [hup, if_true, this]
    exact ⟨_, rfl⟩
  · simp only [hup]
    exact ⟨_, rfl⟩

/-- After a create answered 201, the store holds no row with the new id and
another user. -/
theorem CreateLoadTest_rows_of_other_user (h : LoadTestHandler) (req : CreateLoadTestRequest)
    (userA userB : String) (idNow createdNow : Time) (hne : userA ≠ userB)
    (hok : (h.CreateLoadTest (some req) userA idNow createdNow).code = 201) :
    ∀ r ∈ (h.CreateLoadTest (some req) userA idNow createdNow).db.rows,
      ¬ (r.id = generateTestID idNow ∧ r.userID = userB) := by
  rcases CreateLoadTest_db h (some req) userA idNow createdNow with hdb | ⟨t, hfresh, hid, hu, hdb⟩
  · obtain ⟨r, db1, hreq, hv, hsave, hstart⟩ := CreateLoadTest_201 h _ userA idNow createdNow hok
    obtain ⟨_, hfresh, _⟩ := saveLoadTestToDB_ok h.db db1 _ _ hsave
    rw [hdb]
    intro x hx hc
    exact hfresh x hx hc.1
  · rw [hdb]
    intro x hx hc
    rcases List.mem_append.1 hx with hx | hx
    · exact hfresh x hx (hc.1.trans hid.symm)
    · rw [List.mem_singleton] at hx
      subst hx
      exact hne (hu.symm.trans hc.2)

/-- C9: when the store holds no row with that id and that user, the
handlers `GetLoadTest`, `GetLoadTestStatus` and `StopLoadTest` answer 404,
call no controller operation, send the store no statement and leave it as it
was, whether or not the store answers their `SELECT`; in particular, after
user A's create is answered 201, the three handlers answer 404 to any other
user B asking for the new test, whatever the store then answers. -/
theorem handlers_not_owned_404 :
    (∀ (h : LoadTestHandler) (testID userID : String),
      (∀ r ∈ h.db.rows, ¬ (r.id = testID ∧ r.userID = userID)) →
      ((h.GetLoadTest testID userID).code = 404 ∧ (h.GetLoadTest testID userID).calls = [] ∧
        (h.GetLoadTest testID userID).writes = [] ∧ (h.GetLoadTest testID userID).db = h.db) ∧
      ((h.GetLoadTestStatus testID userID).code = 404 ∧
        (h.GetLoadTestStatus testID userID).calls = [] ∧
        (h.GetLoadTestStatus testID userID).writes = [] ∧
        (h.GetLoadTestStatus testID userID).db = h.db) ∧
      ((h.StopLoadTest testID userID).code = 404 ∧ (h.StopLoadTest testID userID).calls = [] ∧
        (h.StopLoadTest testID userID).writes = [] ∧
        (h.StopLoadTest testID userID).db = h.db)) ∧
    (∀ (h : LoadTestHandler) (req : CreateLoadTestRequest) (userA userB : String)
        (idNow createdNow : Time) (a2 : StoreAnswers), userA ≠ userB →
      (h.CreateLoadTest (some req) userA idNow createdNow).code = 201 →
      (({ h with db := (h.CreateLoadTest (some req) userA idNow createdNow).db, answers := a2 } :
          LoadTestHandler).GetLoadTest (generateTestID idNow) userB).code = 404 ∧
      (({ h with db := (h.CreateLoadTest (some req) userA idNow createdNow).db, answers := a2 } :
          LoadTestHandler).GetLoadTestStatus (generateTestID idNow) userB).code = 404 ∧
      (({ h with db := (h.CreateLoadTest (some req) userA idNow createdNow).db, answers := a2 } :
          LoadTestHandler).StopLoadTest (generateTestID idNow) userB).code = 404) := by
  have main : ∀ (h : LoadTestHandler) (testID userID : String),
      (∀ r ∈ h.db.rows, ¬ (r.id = testID ∧ r.userID = userID)) →
      ((h.GetLoadTest testID userID).code = 404 ∧ (h.GetLoadTest testID userID).calls = [] ∧
        (h.GetLoadTest testID userID).writes = [] ∧ (h.GetLoadTest testID userID).db = h.db) ∧
      ((h.GetLoadTestStatus testID userID).code = 404 ∧
        (h.GetLoadTestStatus testID userID).calls = [] ∧
        (h.GetLoadTestStatus testID userID).writes = [] ∧
        (h.GetLoadTestStatus testID userID).db = h.db) ∧
      ((h.StopLoadTest testID userID).code = 404 ∧ (h.StopLoadTest testID userID).calls = [] ∧
        (h.StopLoadTest testID userID).writes = [] ∧
        (h.StopLoadTest testID userID).db = h.db) := by
    intro h testID userID hno
    obtain ⟨err, herr⟩ := getLoadTestFromDB_error h.db h.answers.query testID userID hno
    have hown := userOwnsTest_false h.db h.answers.query testID userID hno
    refine ⟨?_, ?_, ?_⟩
    · simp [LoadTestHandler.GetLoadTest, herr]
    · simp [LoadTestHandler.GetLoadTestStatus, hown]
    · simp [LoadTestHandler.StopLoadTest, hown]
  refine ⟨main, ?_⟩
  intro h req userA userB idNow createdNow a2 hne hok
  have hno := CreateLoadTest_rows_of_other_user h req userA userB idNow createdNow hne hok
  obtain ⟨h1, h2, h3⟩ := main
    { h with db := (h.CreateLoadTest (some req) userA idNow createdNow).db, answers := a2 }
    (generateTestID idNow) userB hno
  exact ⟨h1.1, h2.1, h3.1⟩

/-- Witness of C9: scenario S3.  The store holds test `t1` of `alice`; `bob`
gets 404 from the three handlers, and the same after `alice` creates a
test. -/
theorem handlers_not_owned_404_witness :
    (∀ r ∈ (sampleHandler [sampleRow "running"] 1 0 0).db.rows,
      ¬ (r.id = "t1" ∧ r.userID = "bob")) ∧
    ((sampleHandler [sampleRow "running"] 1 0 0).GetLoadTest "t1" "bob").code = 404 ∧
    ((sampleHandler [sampleRow "running"] 1 0 0).StopLoadTest "t1" "bob").db =
      { rows := [sampleRow "running"] } ∧
    ((sampleHandler [sampleRow "running"] 1 0 0).GetLoadTest "t1" "alice").code = 200 ∧
    ((sampleHandler [] 0 0 0).CreateLoadTest (some sampleRequest) "alice" 7 8).code = 201 ∧
    (({ sampleHandler [] 0 0 0 with
        db := ((sampleHandler [] 0 0 0).CreateLoadTest (some sampleRequest) "alice" 7 8).db,
        answers := StoreAnswers.always } :
      LoadTestHandler).GetLoadTest (generateTestID 7) "bob").code = 404 := by
  have hno : ∀ r ∈ (sampleHandler [sampleRow "running"] 1 0 0).db.rows,
      ¬ (r.id = "t1" ∧ r.userID = "bob") := by decide
  have h := handlers_not_owned_404.1 (sampleHandler [sampleRow "running"] 1 0 0) "t1" "bob" hno
  have hc : ((sampleHandler [] 0 0 0).CreateLoadTest (some sampleRequest) "alice" 7 8).code =
      201 := by rfl
  have h2 := handlers_not_owned_404.2 (sampleHandler [] 0 0 0) sampleRequest "alice" "bob" 7 8
    StoreAnswers.always (by decide) hc
  exact ⟨hno, h.1.1, h.2.2.2.2.2, by rfl, hc, h2.1⟩

/-! ### Reconciler tick -/

/-- The two statements of a tick for one id, whatever the store answers to
each: the rows with that id get the columns of the statements that are
executed, the other rows are untouched. -/
theorem setCompletionTime_updateLoadTestStatus (db : Store) (e1 e2 : Bool) (now : Time)
    (testID status : String) :
    setCompletionTime (updateLoadTestStatus db e1 testID status) e2 now testID =
      { rows := db.rows.map (fun r =>
          if r.id = testID then
            { r with
              status := if e1 then status else r.status
              completedAt := if e2 then some now else r.completedAt }
          else r) } := by
  cases db with
  | mk rows =>
    have key : ∀ (f g : LoadTest → LoadTest), (∀ r, f r = g r) → rows.map f = rows.map g :=
      fun f g hfg => List.map_congr_left (fun r _ => hfg r)
    have hrows : rows = rows.map (fun r => r) := (List.map_id' rows).symm
    cases e1 <;> cases e2
    · simp only [updateLoadTestStatus, setCompletionTime, if_false, Bool.false_eq_true,
        Store.mk.injEq]
      conv_lhs => rw [hrows]
      apply key
      intro r
      by_cases hid : r.id = testID
      · rw [if_pos hid]
      · rw [if_neg hid]
    · simp only [updateLoadTestStatus, setCompletionTime, if_true, if_false,
        Bool.false_eq_true, Store.mk.injEq]
    · simp only [updateLoadTestStatus, setCompletionTime, if_true, if_false,
        Bool.false_eq_true, Store.mk.injEq]
    · simp only [updateLoadTestStatus, setCompletionTime, if_true, List.map_map,
        Store.mk.injEq]
      apply key
      intro r
      simp only [Function.comp]
      by_cases hid : r.id = testID
      · rw [if_pos hid, if_pos hid, if_pos hid]
      · rw [if_neg hid, if_neg hid, if_neg hid]

theorem writeTerminal_id (exec : StoreWrite → Bool) (clock : String → Time) (status : String)
    (r : LoadTest) : (writeTerminal exec clock status r).id = r.id := rfl

theorem reconcileRow_id (c : LoadTestController) (exec : StoreWrite → Bool)
    (clock : String → Time) (r : LoadTest) : (reconcileRow c exec clock r).id = r.id := by
  unfold reconcileRow
  split
  · rfl
  · split
    · rfl
    · split <;> rfl

theorem writeTerminal_idem (exec : StoreWrite → Bool) (clock : String → Time) (status : String)
    (r : LoadTest) :
    writeTerminal exec clock status (writeTerminal exec clock status r) =
      writeTerminal exec clock status r := by
  unfold writeTerminal
  cases h1 : exec (.setStatus r.id status) <;> cases h2 : exec (.setCompleted r.id) <;>
    simp [h1, h2]

theorem reconcileRow_idem (c : LoadTestController) (exec : StoreWrite → Bool)
    (clock : String → Time) (r : LoadTest) :
    reconcileRow c exec clock (reconcileRow c exec clock r) = reconcileRow c exec clock r := by
  unfold reconcileRow
  cases h : c.GetLoadTestStatus r.id with
  | error e => simp [h, writeTerminal_id, writeTerminal_idem]
  | ok status =>
    by_cases h1 : status.phase = "Completed"
    · simp [h, h1, writeTerminal_id, writeTerminal_idem]
    · by_cases h2 : status.phase = "Failed"
      · simp [h, h1, h2, writeTerminal_id, writeTerminal_idem]
      · simp [h, h1, h2]

/-- The four outcomes of one iteration of the tick. -/
theorem tickOne_cases (c : LoadTestController) (exec : StoreWrite → Bool)
    (clock : String → Time) (st : TickState) (testID : String) :
    ((∃ e, c.GetLoadTestStatus testID = .error e) ∨
        (∃ s, c.GetLoadTestStatus testID = .ok s ∧ s.phase = "Completed")) ∧
      tickOne c exec clock st testID =
        { db := setCompletionTime
            (updateLoadTestStatus st.db (exec (.setStatus testID "completed")) testID "completed")
            (exec (.setCompleted testID)) (clock testID) testID
          calls := st.calls ++ [.status testID]
          writes := st.writes ++ [.setStatus testID "completed", .setCompleted testID] } ∨
    (∃ s, c.GetLoadTestStatus testID = .ok s ∧ s.phase ≠ "Completed" ∧ s.phase = "Failed") ∧
      tickOne c exec clock st testID =
        { db := setCompletionTime
            (updateLoadTestStatus st.db (exec (.setStatus testID "failed")) testID "failed")
            (exec (.setCompleted testID)) (clock testID) testID
          calls := st.calls ++ [.status testID]
          writes := st.writes ++ [.setStatus testID "failed", .setCompleted testID] } ∨
    (∃ s, c.GetLoadTestStatus testID = .ok s ∧ s.phase ≠ "Completed" ∧ s.phase ≠ "Failed") ∧
      tickOne c exec clock st testID = { st with calls := st.calls ++ [.status testID] } := by
  unfold tickOne
  cases h : c.GetLoadTestStatus testID with
  | error e => exact Or.inl ⟨Or.inl ⟨e, rfl⟩, rfl⟩
  | ok status =>
    by_cases h1 : status.phase = "Completed"
    · left
      refine ⟨Or.inr ⟨status, rfl, h1⟩, ?_⟩
      simp only [if_pos h1]
    · by_cases h2 : status.phase = "Failed"
      · right; left
        refine ⟨⟨status, rfl, h1, h2⟩, ?_⟩
        simp only [if_neg h1, if_pos h2]
      · right; right
        refine ⟨⟨status, rfl, h1, h2⟩, ?_⟩
        by_cases h3 : status.phase = "Running"
        · simp only [if_neg h1, if_neg h2, if_pos h3]
        · simp only [if_neg h1, if_neg h2, if_neg h3]

theorem reconcileRow_completed (c : LoadTestController) (exec : StoreWrite → Bool)
    (clock : String → Time) (r : LoadTest)
    (h : (∃ e, c.GetLoadTestStatus r.id = .error e) ∨
      (∃ s, c.GetLoadTestStatus r.id = .ok s ∧ s.phase = "Completed")) :
    reconcileRow c exec clock r = writeTerminal exec clock "completed" r := by
  unfold reconcileRow
  rcases h with ⟨e, he⟩ | ⟨s, hs, hp⟩
  · rw [he]
  · rw [hs]
    simp only [if_pos hp]

theorem reconcileRow_failed (c : LoadTestController) (exec : StoreWrite → Bool)
    (clock : String → Time) (r : LoadTest)
    (h : ∃ s, c.GetLoadTestStatus r.id = .ok s ∧ s.phase ≠ "Completed" ∧ s.phase = "Failed") :
    reconcileRow c exec clock r = writeTerminal exec clock "failed" r := by
  unfold reconcileRow
  obtain ⟨s, hs, h1, h2⟩ := h
  rw [hs]
  simp only [if_neg h1, if_pos h2]

theorem reconcileRow_other (c : LoadTestController) (exec : StoreWrite → Bool)
    (clock : String → Time) (r : LoadTest)
    (h : ∃ s, c.GetLoadTestStatus r.id = .ok s ∧ s.phase ≠ "Completed" ∧ s.phase ≠ "Failed") :
    reconcileRow c exec clock r = r := by
  unfold reconcileRow
  obtain ⟨s, hs, h1, h2⟩ := h
  rw [hs]
  simp only [if_neg h1, if_neg h2]

/-- One iteration of the tick: the rows with the listed id are reconciled,
the others are untouched. -/
theorem tickOne_db (c : LoadTestController) (exec : StoreWrite → Bool) (clock : String → Time)
    (st : TickState) (testID : String) :
    (tickOne c exec clock st testID).db =
      { rows := st.db.rows.map
          (fun r => if r.id = testID then reconcileRow c exec clock r else r) } := by
  rcases tickOne_cases c exec clock st testID with ⟨hc, ht⟩ | ⟨hc, ht⟩ | ⟨hc, ht⟩
  · rw [ht]
    simp only
    rw [setCompletionTime_updateLoadTestStatus, Store.mk.injEq]
    apply List.map_congr_left
    intro r _
    by_cases hid : r.id = testID
    · rw [if_pos hid, if_pos hid, reconcileRow_completed c exec clock r (by rw [hid]; exact hc)]
      simp only [writeTerminal, hid]
    · rw [if_neg hid, if_neg hid]
  · rw [ht]
    simp only
    rw [setCompletionTime_updateLoadTestStatus, Store.mk.injEq]
    apply List.map_congr_left
    intro r _
    by_cases hid : r.id = testID
    · rw [if_pos hid, if_pos hid, reconcileRow_failed c exec clock r (by rw [hid]; exact hc)]
      simp only [writeTerminal, hid]
    · rw [if_neg hid, if_neg hid]
  · rw [ht]
    cases hdb : st.db with
    | mk rows =>
      simp only [Store.mk.injEq]
      conv_lhs => rw [← List.map_id rows]
      apply List.map_congr_left
      intro r _
      by_cases hid : r.id = testID
      · rw [if_pos hid, reconcileRow_other c exec clock r (by rw [hid]; exact hc)]
        rfl
      · simp [hid]

/-- The loop of the tick: every row whose id is listed is reconciled, every
other row is untouched. -/
theorem tickLoop_db (c : LoadTestController) (exec : StoreWrite → Bool) (clock : String → Time)
    (ids : List String) (st : TickState) :
    (ids.foldl (tickOne c exec clock) st).db =
      { rows := st.db.rows.map
          (fun r => if r.id ∈ ids then reconcileRow c exec clock r else r) } := by
  induction ids generalizing st with
  | nil =>
    cases hdb : st.db with
    | mk rows => simp [hdb]
  | cons testID rest ih =>
    rw [List.foldl_cons, ih, tickOne_db c exec clock st testID]
    simp only [List.map_map, Store.mk.injEq]
    apply List.map_congr_left
    intro r _
    simp only [Function.comp]
    by_cases hid : r.id = testID
    · have hmem : r.id ∈ testID :: rest := by rw [hid]; exact List.mem_cons_self _ _
      rw [if_pos hid, reconcileRow_id, reconcileRow_idem, if_pos hmem]
      split <;> rfl
    · rw [if_neg hid]
      by_cases hr : r.id ∈ rest
      · rw [if_pos hr, if_pos (List.mem_cons_of_mem _ hr)]
      · have hmem : ¬ r.id ∈ testID :: rest := by
          intro hm
          rcases List.mem_cons.1 hm with h1 | h1
          · exact hid h1
          · exact hr h1
        rw [if_neg hr, if_neg hmem]

theorem terminalAnswer_of_completed (c : LoadTestController) (testID : String)
    (h : (∃ e, c.GetLoadTestStatus testID = .error e) ∨
      (∃ s, c.GetLoadTestStatus testID = .ok s ∧ s.phase = "Completed")) :
    terminalAnswer c testID = true ∧ terminalStatus c testID = "completed" := by
  unfold terminalAnswer terminalStatus
  rcases h with ⟨e, he⟩ | ⟨s, hs, hp⟩
  · rw [he]
    exact ⟨rfl, rfl⟩
  · rw [hs]
    simp [hp]

theorem terminalAnswer_of_failed (c : LoadTestController) (testID : String)
    (h : ∃ s, c.GetLoadTestStatus testID = .ok s ∧ s.phase ≠ "Completed" ∧ s.phase = "Failed") :
    terminalAnswer c testID = true ∧ terminalStatus c testID = "failed" := by
  unfold terminalAnswer terminalStatus
  obtain ⟨s, hs, h1, h2⟩ := h
  rw [hs]
  simp [h1, h2]

theorem terminalStatus_values (c : LoadTestController) (testID : String) :
    terminalStatus c testID = "completed" ∨ terminalStatus c testID = "failed" := by
  unfold terminalStatus
  split
  · exact Or.inl rfl
  · split
    · exact Or.inl rfl
    · split
      · exact Or.inr rfl
      · exact Or.inl rfl

/-- One iteration of the tick on an id whose answer is terminal. -/
theorem tickOne_terminal (c : LoadTestController) (exec : StoreWrite → Bool)
    (clock : String → Time) (st : TickState) (testID : String)
    (hterm : terminalAnswer c testID = true) :
    (tickOne c exec clock st testID).writes =
      st.writes ++ [.setStatus testID (terminalStatus c testID), .setCompleted testID] := by
  rcases tickOne_cases c exec clock st testID with ⟨hc, ht⟩ | ⟨hc, ht⟩ | ⟨hc, ht⟩
  · rw [ht, (terminalAnswer_of_completed c testID hc).2]
  · rw [ht, (terminalAnswer_of_failed c testID hc).2]
  · obtain ⟨s, hs, h1, h2⟩ := hc
    unfold terminalAnswer at hterm
    rw [hs] at hterm
    simp [h1, h2] at hterm

/-- One iteration of the tick on an id whose answer is not terminal. -/
theorem tickOne_not_terminal (c : LoadTestController) (exec : StoreWrite → Bool)
    (clock : String → Time) (st : TickState) (testID : String)
    (hterm : terminalAnswer c testID = false) :
    tickOne c exec clock st testID = { st with calls := st.calls ++ [.status testID] } := by
  rcases tickOne_cases c exec clock st testID with ⟨hc, ht⟩ | ⟨hc, ht⟩ | ⟨hc, ht⟩
  · rw [(terminalAnswer_of_completed c testID hc).1] at hterm
    exact absurd hterm (by decide)
  · rw [(terminalAnswer_of_failed c testID hc).1] at hterm
    exact absurd hterm (by decide)
  · exact ht

/-- The statements sent by an iteration come after those sent before. -/
theorem tickOne_writes_extend (c : LoadTestController) (exec : StoreWrite → Bool)
    (clock : String → Time) (st : TickState) (testID : String) :
    st.writes <+: (tickOne c exec clock st testID).writes := by
  cases hterm : terminalAnswer c testID with
  | true =>
    rw [tickOne_terminal c exec clock st testID hterm]
    exact List.prefix_append _ _
  | false =>
    rw [tickOne_not_terminal c exec clock st testID hterm]

theorem tickLoop_writes_extend (c : LoadTestController) (exec : StoreWrite → Bool)
    (clock : String → Time) (ids : List String) (st : TickState) :
    st.writes <+: (ids.foldl (tickOne c exec clock) st).writes := by
  induction ids generalizing st with
  | nil => exact List.prefix_refl _
  | cons testID rest ih =>
    rw [List.foldl_cons]
    exact (tickOne_writes_extend c exec clock st testID).trans (ih _)

/-- The statements a tick sends: each is the status statement or the stamp
of a listed id whose answer is terminal, or was sent before. -/
theorem tickLoop_writes (c : LoadTestController) (exec : StoreWrite → Bool)
    (clock : String → Time) (ids : List String) (st : TickState) (w : StoreWrite)
    (hw : w ∈ (ids.foldl (tickOne c exec clock) st).writes) :
    w ∈ st.writes ∨ (w.testID ∈ ids ∧ terminalAnswer c w.testID = true ∧
      (w = .setStatus w.testID (terminalStatus c w.testID) ∨ w = .setCompleted w.testID)) := by
  induction ids generalizing st with
  | nil => exact Or.inl hw
  | cons testID rest ih =>
    rw [List.foldl_cons] at hw
    rcases ih _ hw with h | ⟨h1, h2⟩
    · cases hterm : terminalAnswer c testID with
      | true =>
        rw [tickOne_terminal c exec clock st testID hterm] at h
        simp only [List.mem_append, List.mem_cons, List.mem_singleton, List.not_mem_nil,
          or_false] at h
        rcases h with h | h | h
        · exact Or.inl h
        · subst h
          exact Or.inr ⟨List.mem_cons_self _ _, hterm, Or.inl rfl⟩
        · subst h
          exact Or.inr ⟨List.mem_cons_self _ _, hterm, Or.inr rfl⟩
      | false =>
        rw [tickOne_not_terminal c exec clock st testID hterm] at h
        exact Or.inl h
    · exact Or.inr ⟨List.mem_cons_of_mem _ h1, h2⟩

/-- A listed id whose answer is terminal gets its two statements, the status
first and the stamp right after it. -/
theorem tickLoop_writes_pair (c : LoadTestController) (exec : StoreWrite → Bool)
    (clock : String → Time) (ids : List String) (st : TickState) (testID : String)
    (hmem : testID ∈ ids) (hterm : terminalAnswer c testID = true) :
    [StoreWrite.setStatus testID (terminalStatus c testID), .setCompleted testID] <:+:
      (ids.foldl (tickOne c exec clock) st).writes := by
  induction ids generalizing st with
  | nil => simp at hmem
  | cons x rest ih =>
    rw [List.foldl_cons]
    by_cases hx : testID = x
    · subst hx
      have hpre := tickLoop_writes_extend c exec clock rest (tickOne c exec clock st testID)
      rw [tickOne_terminal c exec clock st testID hterm] at hpre
      exact (List.infix_append' st.writes _ []).trans hpre.isInfix |>.trans (List.infix_refl _)
    · rcases List.mem_cons.1 hmem with h | h
      · exact absurd h hx
      · exact ih _ h

theorem getRunningTests_ok (db : Store) (answered : Bool) (ids : List String)
    (hlist : getRunningTests db answered = .ok ids) :
    answered = true ∧ ids = (db.rows.filter (fun r => r.status = "running")).map (·.id) := by
  unfold getRunningTests at hlist
  by_cases hup : answered = true
  · simp only [hup, if_true, Except.ok.injEq] at hlist
    exact ⟨hup, hlist.symm⟩
  · simp [hup] at hlist

theorem updateRunningJobStatuses_db (h : LoadTestHandler) (clock : String → Time)
    (ids : List String) (hlist : getRunningTests h.db h.answers.query = .ok ids) :
    (h.updateRunningJobStatuses clock).db =
      { rows := h.db.rows.map
          (fun r => if r.id ∈ ids then reconcileRow h.controller h.answers.exec clock r
            else r) } := by
  unfold LoadTestHandler.updateRunningJobStatuses
  rw [hlist]
  exact tickLoop_db h.controller h.answers.exec clock ids _

theorem updateRunningJobStatuses_writes (h : LoadTestHandler) (clock : String → Time)
    (ids : List String) (hlist : getRunningTests h.db h.answers.query = .ok ids) :
    (h.updateRunningJobStatuses clock).writes =
      (ids.foldl (tickOne h.controller h.answers.exec clock)
        { db := h.db, calls := [], writes := [] }).writes := by
  unfold LoadTestHandler.updateRunningJobStatuses
  rw [hlist]

/-- A tick and one listed id whose answer is terminal, `status` being what
the tick writes for it: the two statements are sent, the status first and
the stamp right after it, and no other statement names the id; every row
with that id is rewritten by the statements the store executes. -/
theorem updateRunningJobStatuses_terminal (h : LoadTestHandler) (clock : String → Time)
    (ids : List String) (hlist : getRunningTests h.db h.answers.query = .ok ids)
    (testID : String) (hmem : testID ∈ ids) (status : String)
    (hterm : terminalAnswer h.controller testID = true)
    (hstatus : terminalStatus h.controller testID = status)
    (hrow : ∀ r : LoadTest, r.id = testID →
      reconcileRow h.controller h.answers.exec clock r =
        writeTerminal h.answers.exec clock status r) :
    [StoreWrite.setStatus testID status, .setCompleted testID] <:+:
      (h.updateRunningJobStatuses clock).writes ∧
    (∀ w ∈ (h.updateRunningJobStatuses clock).writes, w.testID = testID →
      w = .setStatus testID status ∨ w = .setCompleted testID) ∧
    (∀ r ∈ h.db.rows, r.id = testID →
      writeTerminal h.answers.exec clock status r ∈ (h.updateRunningJobStatuses clock).db.rows) ∧
    (∀ r2 ∈ (h.updateRunningJobStatuses clock).db.rows, r2.id = testID →
      (∃ r ∈ h.db.rows, r.id = testID ∧ r2 = writeTerminal h.answers.exec clock status r) ∧
      (h.answers.exec (.setStatus testID status) = true → r2.status = status) ∧
      (h.answers.exec (.setStatus testID status) = false →
        ∃ r ∈ h.db.rows, r.id = testID ∧ r2.status = r.status) ∧
      (h.answers.exec (.setCompleted testID) = true → r2.completedAt = some (clock testID)) ∧
      (h.answers.exec (.setCompleted testID) = false →
        ∃ r ∈ h.db.rows, r.id = testID ∧ r2.completedAt = r.completedAt)) := by
  have hdb := updateRunningJobStatuses_db h clock ids hlist
  have hwr := updateRunningJobStatuses_writes h clock ids hlist
  refine ⟨?_, ?_, ?_, ?_⟩
  · rw [hwr, ← hstatus]
    exact tickLoop_writes_pair h.controller h.answers.exec clock ids _ testID hmem hterm
  · intro w hw hid
    rw [hwr] at hw
    rcases tickLoop_writes h.controller h.answers.exec clock ids _ w hw with hnil | ⟨_, _, hw2⟩
    · simp at hnil
    · rw [hid, hstatus] at hw2
      exact hw2
  · intro r hr hid
    rw [hdb]
    refine List.mem_map.2 ⟨r, hr, ?_⟩
    rw [if_pos (by rw [hid]; exact hmem), hrow r hid]
  · intro r2 hr2 hid2
    rw [hdb] at hr2
    obtain ⟨r, hr, rfl⟩ := List.mem_map.1 hr2
    by_cases hin : r.id ∈ ids
    · rw [if_pos hin] at hid2 ⊢
      rw [reconcileRow_id] at hid2
      rw [hrow r hid2]
      refine ⟨⟨r, hr, hid2, rfl⟩, ?_, ?_, ?_, ?_⟩
      · intro he
        simp only [writeTerminal, hid2, he, if_true]
      · intro he
        exact ⟨r, hr, hid2, by simp only [writeTerminal, hid2, he, Bool.false_eq_true, if_false]⟩
      · intro he
        simp only [writeTerminal, hid2, he, if_true]
      · intro he
        exact ⟨r, hr, hid2, by simp only [writeTerminal, hid2, he, Bool.false_eq_true, if_false]⟩
    · rw [if_neg hin] at hid2
      exact absurd (hid2 ▸ hmem) hin

/-- C10, as amended: in one reconciler tick, for every id listed as running
(some stored row has that id and status `running`): when the Driver's
`Status` fails (workload not found) or reports phase `Completed`, the tick
sends the store `set status completed` and, right after it, `set
completed_at` for that id, and no other statement about it; every stored
row with that id then has status `completed` if the store executed the
first statement and its `completed_at` set if it executed the second, a
statement the store did not execute leaving its column as it was; when
`Status` reports phase `Failed`, the same with status `failed`; in both
cases the other fields of the row are kept; when it reports phase `Running`
or `Pending`, no statement about that id is sent to the store and the rows
with that id are as before. -/
theorem updateRunningJobStatuses_outcomes (h : LoadTestHandler) (clock : String → Time)
    (ids : List String) (hlist : getRunningTests h.db h.answers.query = .ok ids)
    (testID : String) (hmem : testID ∈ ids) :
    (∃ r ∈ h.db.rows, r.id = testID ∧ r.status = "running") ∧
    (((∃ e, h.controller.GetLoadTestStatus testID = .error e) ∨
        (∃ s, h.controller.GetLoadTestStatus testID = .ok s ∧ s.phase = "Completed")) →
      [StoreWrite.setStatus testID "completed", .setCompleted testID] <:+:
        (h.updateRunningJobStatuses clock).writes ∧
      (∀ w ∈ (h.updateRunningJobStatuses clock).writes, w.testID = testID →
        w = .setStatus testID "completed" ∨ w = .setCompleted testID) ∧
      (∀ r ∈ h.db.rows, r.id = testID →
        writeTerminal h.answers.exec clock "completed" r ∈
          (h.updateRunningJobStatuses clock).db.rows) ∧
      (∀ r2 ∈ (h.updateRunningJobStatuses clock).db.rows, r2.id = testID →
        (∃ r ∈ h.db.rows, r.id = testID ∧
          r2 = writeTerminal h.answers.exec clock "completed" r) ∧
        (h.answers.exec (.setStatus testID "completed") = true → r2.status = "completed") ∧
        (h.answers.exec (.setStatus testID "completed") = false →
          ∃ r ∈ h.db.rows, r.id = testID ∧ r2.status = r.status) ∧
        (h.answers.exec (.setCompleted testID) = true →
          r2.completedAt = some (clock testID)) ∧
        (h.answers.exec (.setCompleted testID) = false →
          ∃ r ∈ h.db.rows, r.id = testID ∧ r2.completedAt = r.completedAt))) ∧
    ((∃ s, h.controller.GetLoadTestStatus testID = .ok s ∧ s.phase = "Failed") →
      [StoreWrite.setStatus testID "failed", .setCompleted testID] <:+:
        (h.updateRunningJobStatuses clock).writes ∧
      (∀ w ∈ (h.updateRunningJobStatuses clock).writes, w.testID = testID →
        w = .setStatus testID "failed" ∨ w = .setCompleted testID) ∧
      (∀ r ∈ h.db.rows, r.id = testID →
        writeTerminal h.answers.exec clock "failed" r ∈
          (h.updateRunningJobStatuses clock).db.rows) ∧
      (∀ r2 ∈ (h.updateRunningJobStatuses clock).db.rows, r2.id = testID →
        (∃ r ∈ h.db.rows, r.id = testID ∧ r2 = writeTerminal h.answers.exec clock "failed" r) ∧
        (h.answers.exec (.setStatus testID "failed") = true → r2.status = "failed") ∧
        (h.answers.exec (.setStatus testID "failed") = false →
          ∃ r ∈ h.db.rows, r.id = testID ∧ r2.status = r.status) ∧
        (h.answers.exec (.setCompleted testID) = true →
          r2.completedAt = some (clock testID)) ∧
        (h.answers.exec (.setCompleted testID) = false →
          ∃ r ∈ h.db.rows, r.id = testID ∧ r2.completedAt = r.completedAt))) ∧
    ((∃ s, h.controller.GetLoadTestStatus testID = .ok s ∧
        (s.phase = "Running" ∨ s.phase = "Pending")) →
      (∀ w ∈ (h.updateRunningJobStatuses clock).writes, w.testID ≠ testID) ∧
      (h.updateRunningJobStatuses clock).db.rows.filter (fun r => r.id = testID) =
        h.db.rows.filter (fun r => r.id = testID)) ∧
    (∀ (status : String) (r : LoadTest),
      (writeTerminal h.answers.exec clock status r).id = r.id ∧
      (writeTerminal h.answers.exec clock status r).name = r.name ∧
      (writeTerminal h.answers.exec clock status r).userID = r.userID ∧
      (writeTerminal h.answers.exec clock status r).targetURL = r.targetURL ∧
      (writeTerminal h.answers.exec clock status r).config = r.config ∧
      (writeTerminal h.answers.exec clock status r).createdAt = r.createdAt) := by
  have hdb := updateRunningJobStatuses_db h clock ids hlist
  have hwr := updateRunningJobStatuses_writes h clock ids hlist
  obtain ⟨_, hids⟩ := getRunningTests_ok h.db _ ids hlist
  refine ⟨?_, ?_, ?_, ?_, fun _ _ => ⟨rfl, rfl, rfl, rfl, rfl, rfl⟩⟩
  · rw [hids, List.mem_map] at hmem
    obtain ⟨r, hr, hid⟩ := hmem
    rw [List.mem_filter] at hr
    exact ⟨r, hr.1, hid, by simpa using hr.2⟩
  · intro hc
    obtain ⟨hterm, hstatus⟩ := terminalAnswer_of_completed h.controller testID hc
    exact updateRunningJobStatuses_terminal h clock ids hlist testID hmem "completed" hterm
      hstatus (fun r hid => reconcileRow_completed h.controller h.answers.exec clock r
        (by rw [hid]; exact hc))
  · intro hc
    obtain ⟨s, hs, hp⟩ := hc
    have hc2 : ∃ s, h.controller.GetLoadTestStatus testID = .ok s ∧ s.phase ≠ "Completed" ∧
        s.phase = "Failed" := ⟨s, hs, by rw [hp]; decide, hp⟩
    obtain ⟨hterm, hstatus⟩ := terminalAnswer_of_failed h.controller testID hc2
    exact updateRunningJobStatuses_terminal h clock ids hlist testID hmem "failed" hterm
      hstatus (fun r hid => reconcileRow_failed h.controller h.answers.exec clock r
        (by rw [hid]; exact hc2))
  · intro hc
    obtain ⟨s, hs, hp⟩ := hc
    have hp1 : s.phase ≠ "Completed" := by
      rcases hp with hp | hp <;> (rw [hp]; decide)
    have hp2 : s.phase ≠ "Failed" := by
      rcases hp with hp | hp <;> (rw [hp]; decide)
    constructor
    · intro w hw heq
      rw [hwr] at hw
      rcases tickLoop_writes h.controller h.answers.exec clock ids _ w hw with
        hnil | ⟨_, hterm, _⟩
      · simp at hnil
      · rw [heq] at hterm
        unfold terminalAnswer at hterm
        rw [hs] at hterm
        simp [hp1, hp2] at hterm
    · rw [hdb]
      simp only [List.filter_map]
      have hcongr : ∀ r ∈ h.db.rows,
          ((fun r : LoadTest => decide (r.id = testID)) ∘
            fun r => if r.id ∈ ids then reconcileRow h.controller h.answers.exec clock r
              else r) r =
          decide (r.id = testID) := by
        intro r _
        simp only [Function.comp]
        split
        · rw [reconcileRow_id]
        · rfl
      rw [List.filter_congr hcongr]
      conv_rhs => rw [← List.map_id (List.filter (fun r => decide (r.id = testID)) h.db.rows)]
      apply List.map_congr_left
      intro r hr
      rw [List.mem_filter] at hr
      have hid : r.id = testID := by simpa using hr.2
      rw [if_pos (by rw [hid]; exact hmem),
        reconcileRow_other h.controller h.answers.exec clock r
          ⟨s, by rw [hid]; exact hs, hp1, hp2⟩]
      rfl

/-- Witness of C10 as amended: scenario S4.  The store lists `t1` and `t9`
as running; the workload of `t9` is gone, so the two statements are sent for
`t9` and, the store executing both, its row ends `completed` with
`completed_at` set, while the workload of `t1` has an active worker and no
statement about `t1` is sent.  On a store that does not execute the
`UPDATE` of `status`, the row of `t9` is stamped and keeps its status. -/
theorem updateRunningJobStatuses_outcomes_witness :
    getRunningTests (sampleHandler [sampleRow "running", goneRow] 1 0 0).db true =
      .ok ["t1", "t9"] ∧
    ((sampleHandler [sampleRow "running", goneRow] 1 0 0).updateRunningJobStatuses
      (fun _ => 99)).writes = [.setStatus "t9" "completed", .setCompleted "t9"] ∧
    { goneRow with status := "completed", completedAt := some 99 } ∈
      ((sampleHandler [sampleRow "running", goneRow] 1 0 0).updateRunningJobStatuses
        (fun _ => 99)).db.rows ∧
    (∀ w ∈ ((sampleHandler [sampleRow "running", goneRow] 1 0 0).updateRunningJobStatuses
        (fun _ => 99)).writes, w.testID ≠ "t1") ∧
    { goneRow with status := "running", completedAt := some 99 } ∈
      (({ sampleHandler [sampleRow "running", goneRow] 1 0 0 with
          answers := StoreAnswers.noStatus } : LoadTestHandler).updateRunningJobStatuses
        (fun _ => 99)).db.rows := by
  have hlist : getRunningTests (sampleHandler [sampleRow "running", goneRow] 1 0 0).db true =
      .ok ["t1", "t9"] := by rfl
  have h9 := updateRunningJobStatuses_outcomes
    (sampleHandler [sampleRow "running", goneRow] 1 0 0) (fun _ => 99) ["t1", "t9"] hlist "t9"
    (by decide)
  have h1 := updateRunningJobStatuses_outcomes
    (sampleHandler [sampleRow "running", goneRow] 1 0 0) (fun _ => 99) ["t1", "t9"] hlist "t1"
    (by decide)
  have h9b := updateRunningJobStatuses_outcomes
    ({ sampleHandler [sampleRow "running", goneRow] 1 0 0 with
        answers := StoreAnswers.noStatus } : LoadTestHandler) (fun _ => 99) ["t1", "t9"] hlist
    "t9" (by decide)
  refine ⟨hlist, by rfl, ?_, ?_, ?_⟩
  · exact (h9.2.1 (Or.inl ⟨_, rfl⟩)).2.2.1 goneRow (by simp [sampleHandler]) rfl
  · exact (h1.2.2.2.1 ⟨_, rfl, Or.inl rfl⟩).1
  · exact (h9b.2.1 (Or.inl ⟨_, rfl⟩)).2.2.1 goneRow (by simp [sampleHandler]) rfl

/-- C10, counterexample: scenario S4 on a store that answers the `SELECT`
and returns an error to every `UPDATE` of `status`.  The tick lists `t9`,
whose workload is gone, sends both statements for it and goes on; the row of
`t9` is stamped and still `running`, not `completed`.  On a store that
returns an error to every `UPDATE` of `completed_at` instead, the row of
`t9` ends `completed` with `completed_at` still null. -/
theorem updateRunningJobStatuses_outcomes_counterexample :
    getRunningTests { rows := [sampleRow "running", goneRow] } StoreAnswers.noStatus.query =
      .ok ["t1", "t9"] ∧
    (sampleController (sampleJob 1 0 0)).GetLoadTestStatus "t9" =
      .error "failed to get job loadtest-t9: not found" ∧
    ({ sampleHandler [sampleRow "running", goneRow] 1 0 0 with
        answers := StoreAnswers.noStatus } : LoadTestHandler).updateRunningJobStatuses
        (fun _ => 99) =
      { db := { rows := [sampleRow "running", { goneRow with completedAt := some 99 }] }
        calls := [.status "t1", .status "t9"]
        writes := [.setStatus "t9" "completed", .setCompleted "t9"] } ∧
    goneRow.status = "running" ∧
    ({ sampleHandler [sampleRow "running", goneRow] 1 0 0 with
        answers := StoreAnswers.noStamp } : LoadTestHandler).updateRunningJobStatuses
        (fun _ => 99) =
      { db := { rows := [sampleRow "running", { goneRow with status := "completed" }] }
        calls := [.status "t1", .status "t9"]
        writes := [.setStatus "t9" "completed", .setCompleted "t9"] } ∧
    goneRow.completedAt = none := by
  refine ⟨rfl, rfl, ?_, rfl, ?_, rfl⟩
  · rfl
  · rfl

/-! ### Create path and stop request -/

/-- The create handler on a valid request, case by case: a failed insert
gives 500, no controller call and the store unchanged; after a successful
insert the store holds the row with status `pending`, Start is called once,
on that pending test, and the response is 201 when Start succeeds, 500 when
it fails, having sent the `UPDATE` to `running`, respectively `failed`; the
row has the new status when the store executes the `UPDATE` and is still
`pending` when it does not, the response being the same. -/
theorem CreateLoadTest_outcomes (h : LoadTestHandler) (req : CreateLoadTestRequest)
    (userID : String) (idNow createdNow : Time)
    (hvalid : validateCreateRequest req = none) :
    ((∃ e, saveLoadTestToDB h.db
        (h.answers.exec (.insertRow (pendingTest req userID idNow createdNow)))
        (pendingTest req userID idNow createdNow) = .error e) →
      (h.CreateLoadTest (some req) userID idNow createdNow).code = 500 ∧
      (h.CreateLoadTest (some req) userID idNow createdNow).calls = [] ∧
      (h.CreateLoadTest (some req) userID idNow createdNow).db = h.db) ∧
    (∀ db1, saveLoadTestToDB h.db
        (h.answers.exec (.insertRow (pendingTest req userID idNow createdNow)))
        (pendingTest req userID idNow createdNow) = .ok db1 →
      db1.rows = h.db.rows ++ [pendingTest req userID idNow createdNow] ∧
      (pendingTest req userID idNow createdNow).status = "pending" ∧
      (h.CreateLoadTest (some req) userID idNow createdNow).calls =
        [.start (pendingTest req userID idNow createdNow)] ∧
      (h.controller.StartLoadTest (pendingTest req userID idNow createdNow) = none →
        (h.CreateLoadTest (some req) userID idNow createdNow).code = 201 ∧
        (h.CreateLoadTest (some req) userID idNow createdNow).writes =
          [.insertRow (pendingTest req userID idNow createdNow),
           .setStatus (generateTestID idNow) "running"] ∧
        (h.CreateLoadTest (some req) userID idNow createdNow).db.rows =
          h.db.rows ++ [{ pendingTest req userID idNow createdNow with
            status := if h.answers.exec (.setStatus (generateTestID idNow) "running")
              then "running" else "pending" }]) ∧
      (∀ e, h.controller.StartLoadTest (pendingTest req userID idNow createdNow) = some e →
        (h.CreateLoadTest (some req) userID idNow createdNow).code = 500 ∧
        (h.CreateLoadTest (some req) userID idNow createdNow).writes =
          [.insertRow (pendingTest req userID idNow createdNow),
           .setStatus (generateTestID idNow) "failed"] ∧
        (h.CreateLoadTest (some req) userID idNow createdNow).db.rows =
          h.db.rows ++ [{ pendingTest req userID idNow createdNow with
            status := if h.answers.exec (.setStatus (generateTestID idNow) "failed")
              then "failed" else "pending" }])) := by
  rw [CreateLoadTest_valid h req userID idNow createdNow hvalid]
  constructor
  · rintro ⟨e, he⟩
    rw [he]
    exact ⟨rfl, rfl, rfl⟩
  · intro db1 hsave
    obtain ⟨_, hfresh, hdb1⟩ := saveLoadTestToDB_ok h.db db1 _ _ hsave
    have hdb1b : db1 = { rows := h.db.rows ++ [pendingTest req userID idNow createdNow] } := hdb1
    rw [hsave]
    refine ⟨by rw [hdb1b], rfl, ?_, ?_, ?_⟩
    · cases h.controller.StartLoadTest (pendingTest req userID idNow createdNow) <;> rfl
    · intro hstart
      rw [hstart]
      refine ⟨rfl, rfl, ?_⟩
      simp only
      rw [hdb1b]
      exact congrArg Store.rows (updateLoadTestStatus_after_insert h.db _ _ "running" hfresh)
    · intro e hstart
      rw [hstart]
      refine ⟨rfl, rfl, ?_⟩
      simp only
      rw [hdb1b]
      exact congrArg Store.rows (updateLoadTestStatus_after_insert h.db _ _ "failed" hfresh)

/-- Scenario S1 on an empty store that executes every statement: with an
orchestrator that accepts the workload the response is 201 and the row is
`running`; with one that refuses it the response is 500 and the row stays,
`failed`. -/
theorem CreateLoadTest_outcomes_example :
    validateCreateRequest sampleRequest = none ∧
    ((sampleHandler [] 0 0 0).CreateLoadTest (some sampleRequest) "alice" 7 8).code = 201 ∧
    ((sampleHandler [] 0 0 0).CreateLoadTest (some sampleRequest) "alice" 7 8).db.rows =
      [{ pendingTest sampleRequest "alice" 7 8 with status := "running" }] ∧
    ((unreachableHandler []).CreateLoadTest (some sampleRequest) "alice" 7 8).code = 500 ∧
    ((unreachableHandler []).CreateLoadTest (some sampleRequest) "alice" 7 8).db.rows =
      [{ pendingTest sampleRequest "alice" 7 8 with status := "failed" }] := by
  have hv : validateCreateRequest sampleRequest = none := by decide
  have h1 := (CreateLoadTest_outcomes (sampleHandler [] 0 0 0) sampleRequest "alice" 7 8
    hv).2 _ rfl
  have h2 := (CreateLoadTest_outcomes (unreachableHandler []) sampleRequest "alice" 7 8
    hv).2 _ rfl
  exact ⟨hv, (h1.2.2.2.1 rfl).1, (h1.2.2.2.1 rfl).2.2, (h2.2.2.2.2 _ rfl).1,
    (h2.2.2.2.2 _ rfl).2.2⟩

/-- C13, evaluation at the failing input: scenario S1 on an empty store that
executes the `INSERT` and returns an error to the `UPDATE` of `status` that
follows.  With an orchestrator that accepts the workload, `CreateLoadTest`
inserts the row with status `pending`, calls Start, sends the `UPDATE` to
`running` and answers 201 while the stored row is still `pending`; with an
orchestrator that refuses the workload it sends the `UPDATE` to `failed` and
answers 500 while the stored row is still `pending`.  In both runs the
error of the `UPDATE` is dropped; the error of the `INSERT`, in the same
handler, is answered with 500 and no call of Start. -/
theorem CreateLoadTest_status_update_dropped :
    validateCreateRequest sampleRequest = none ∧
    ({ sampleHandler [] 0 0 0 with answers := StoreAnswers.noUpdate } :
        LoadTestHandler).CreateLoadTest (some sampleRequest) "alice" 7 8 =
      { code := 201, body := .test (pendingTest sampleRequest "alice" 7 8)
        db := { rows := [pendingTest sampleRequest "alice" 7 8] }
        calls := [.start (pendingTest sampleRequest "alice" 7 8)]
        writes := [.insertRow (pendingTest sampleRequest "alice" 7 8),
          .setStatus (generateTestID 7) "running"] } ∧
    ({ unreachableHandler [] with answers := StoreAnswers.noUpdate } :
        LoadTestHandler).CreateLoadTest (some sampleRequest) "alice" 7 8 =
      { code := 500, body := .text "Failed to start load test"
        db := { rows := [pendingTest sampleRequest "alice" 7 8] }
        calls := [.start (pendingTest sampleRequest "alice" 7 8)]
        writes := [.insertRow (pendingTest sampleRequest "alice" 7 8),
          .setStatus (generateTestID 7) "failed"] } ∧
    (pendingTest sampleRequest "alice" 7 8).status = "pending" ∧
    ({ sampleHandler [] 0 0 0 with
        answers := { query := true, exec := fun _ => false } } :
        LoadTestHandler).CreateLoadTest (some sampleRequest) "alice" 7 8 =
      { code := 500, body := .text "Failed to save load test", db := { rows := [] }
        calls := [], writes := [.insertRow (pendingTest sampleRequest "alice" 7 8)] } := by
  refine ⟨by decide, ?_, ?_, rfl, ?_⟩
  · rfl
  · rfl
  · rfl

theorem userOwnsTest_true (db : Store) (answered : Bool) (testID userID : String)
    (hown : userOwnsTest db answered testID userID = true) :
    answered = true ∧ ∃ r ∈ db.rows, r.id = testID ∧ r.userID = userID := by
  unfold userOwnsTest at hown
  rw [Bool.and_eq_true, List.any_eq_true] at hown
  obtain ⟨hup, r, hr, hp⟩ := hown
  exact ⟨hup, r, hr, by simpa using hp⟩

/-- The stop handler on a test the caller owns, case by case: the controller
is asked once to delete workload `loadtest-<test_id>` with propagation
policy `Background`; when that delete returns an error the response is 500,
no statement is sent to the store and the store is as before; when it
succeeds the `UPDATE` to `stopped` is sent and the response is 200: every
row with that id (the caller's row among them) is `stopped` and the other
rows are as before when the store executes the `UPDATE`, and the store is
as before when it does not, the response being 200 all the same. -/
theorem StopLoadTest_outcomes (h : LoadTestHandler) (testID userID : String)
    (hown : userOwnsTest h.db h.answers.query testID userID = true) :
    (h.StopLoadTest testID userID).calls = [.stop testID] ∧
    h.controller.StopLoadTest testID =
      h.controller.kubeClient.deleteJob h.controller.ns ("loadtest-" ++ testID) "Background" ∧
    (h.controller.kubeClient.deleteJob h.controller.ns ("loadtest-" ++ testID) "Background" =
        none →
      (h.StopLoadTest testID userID).code = 200 ∧
      (h.StopLoadTest testID userID).writes = [.setStatus testID "stopped"] ∧
      (h.answers.exec (.setStatus testID "stopped") = true →
        (h.StopLoadTest testID userID).db.rows =
          h.db.rows.map
            (fun r => if r.id = testID then { r with status := "stopped" } else r) ∧
        (∃ r ∈ (h.StopLoadTest testID userID).db.rows,
          r.id = testID ∧ r.userID = userID ∧ r.status = "stopped") ∧
        (∀ r ∈ (h.StopLoadTest testID userID).db.rows, r.id = testID →
          r.status = "stopped")) ∧
      (h.answers.exec (.setStatus testID "stopped") = false →
        (h.StopLoadTest testID userID).db = h.db)) ∧
    (∀ e, h.controller.kubeClient.deleteJob h.controller.ns ("loadtest-" ++ testID)
        "Background" = some e →
      (h.StopLoadTest testID userID).code = 500 ∧
      (h.StopLoadTest testID userID).writes = [] ∧
      (h.StopLoadTest testID userID).db = h.db) := by
  obtain ⟨hup, r0, hr0, hid0, hu0⟩ := userOwnsTest_true h.db _ testID userID hown
  have hstop : h.controller.StopLoadTest testID =
      h.controller.kubeClient.deleteJob h.controller.ns ("loadtest-" ++ testID) "Background" :=
    rfl
  refine ⟨?_, hstop, ?_, ?_⟩
  · unfold LoadTestHandler.StopLoadTest
    simp only [hown, not_true_eq_false, if_false]
    split <;> rfl
  · intro hdel
    rw [← hstop] at hdel
    have hres : h.StopLoadTest testID userID =
        { code := 200, body := .message "Load test stopped successfully"
          db := updateLoadTestStatus h.db (h.answers.exec (.setStatus testID "stopped")) testID
            "stopped"
          calls := [.stop testID]
          writes := [.setStatus testID "stopped"] } := by
      unfold LoadTestHandler.StopLoadTest
      simp only [hown, not_true_eq_false, if_false, hdel]
    refine ⟨by rw [hres], by rw [hres], ?_, ?_⟩
    · intro hexec
      have hrows : (h.StopLoadTest testID userID).db.rows =
          h.db.rows.map
            (fun r => if r.id = testID then { r with status := "stopped" } else r) := by
        rw [hres]
        simp only [updateLoadTestStatus, hexec, if_true]
      refine ⟨hrows, ?_, ?_⟩
      · rw [hrows]
        refine ⟨{ r0 with status := "stopped" }, ?_, hid0, hu0, rfl⟩
        exact List.mem_map.2 ⟨r0, hr0, by rw [if_pos hid0]⟩
      · rw [hrows]
        intro r hr hid
        obtain ⟨x, _, rfl⟩ := List.mem_map.1 hr
        by_cases hx : x.id = testID
        · rw [if_pos hx]
        · rw [if_neg hx] at hid
          exact absurd hid hx
    · intro hexec
      rw [hres]
      simp only [updateLoadTestStatus, hexec, Bool.false_eq_true, if_false]
  · intro e hdel
    rw [← hstop] at hdel
    have hres : h.StopLoadTest testID userID =
        { code := 500, body := .text "Failed to stop load test", db := h.db,
          calls := [.stop testID], writes := [] } := by
      unfold LoadTestHandler.StopLoadTest
      simp only [hown, not_true_eq_false, if_false, hdel]
    rw [hres]
    exact ⟨rfl, rfl, rfl⟩

/-- Scenario S6 on a store that executes every statement.  `alice` stops her
running test `t1`: with the workload deleted the row is `stopped` at once;
with an orchestrator that fails the delete the response is 500 and the row
is still `running`. -/
theorem StopLoadTest_outcomes_example :
    userOwnsTest (sampleHandler [sampleRow "running"] 1 0 0).db true "t1" "alice" = true ∧
    ((sampleHandler [sampleRow "running"] 1 0 0).StopLoadTest "t1" "alice").code = 200 ∧
    ((sampleHandler [sampleRow "running"] 1 0 0).StopLoadTest "t1" "alice").db.rows =
      [sampleRow "stopped"] ∧
    ((unreachableHandler [sampleRow "running"]).StopLoadTest "t1" "alice").code = 500 ∧
    ((unreachableHandler [sampleRow "running"]).StopLoadTest "t1" "alice").db.rows =
      [sampleRow "running"] := by
  have ho : userOwnsTest (sampleHandler [sampleRow "running"] 1 0 0).db true "t1" "alice" =
      true := by decide
  have h1 := (StopLoadTest_outcomes (sampleHandler [sampleRow "running"] 1 0 0) "t1" "alice"
    ho).2.2.1 rfl
  have h2 := (StopLoadTest_outcomes (unreachableHandler [sampleRow "running"]) "t1" "alice"
    (by decide)).2.2.2 _ rfl
  refine ⟨ho, h1.1, ?_, h2.1, ?_⟩
  · rw [(h1.2.2.1 rfl).1]
    rfl
  · rw [h2.2.2]
    rfl

/-- C14, evaluation at the failing input: scenario S6 on a store that
answers the ownership `SELECT` and returns an error to the `UPDATE` that
follows.  `alice` stops her running test `t1`; the orchestrator deletes
workload `loadtest-t1` (propagation policy `Background`); `StopLoadTest`
sends the `UPDATE` to `stopped` and answers 200 with the success message
while the stored row is still `running`: the error of the `UPDATE` is
dropped.  When the delete itself fails the response is 500, nothing is sent
to the store and the row is unchanged, as claimed. -/
theorem StopLoadTest_200_not_stopped :
    userOwnsTest { rows := [sampleRow "running"] } StoreAnswers.noUpdate.query "t1" "alice" =
      true ∧
    (sampleController (sampleJob 1 0 0)).StopLoadTest "t1" =
      (sampleController (sampleJob 1 0 0)).kubeClient.deleteJob "loadtest" "loadtest-t1"
        "Background" ∧
    (sampleController (sampleJob 1 0 0)).StopLoadTest "t1" = none ∧
    ({ sampleHandler [sampleRow "running"] 1 0 0 with answers := StoreAnswers.noUpdate } :
        LoadTestHandler).StopLoadTest "t1" "alice" =
      { code := 200, body := .message "Load test stopped successfully"
        db := { rows := [sampleRow "running"] }
        calls := [.stop "t1"]
        writes := [.setStatus "t1" "stopped"] } ∧
    (sampleRow "running").status = "running" ∧
    ({ unreachableHandler [sampleRow "running"] with answers := StoreAnswers.noUpdate } :
        LoadTestHandler).StopLoadTest "t1" "alice" =
      { code := 500, body := .text "Failed to stop load test"
        db := { rows := [sampleRow "running"] }
        calls := [.stop "t1"]
        writes := [] } := by
  refine ⟨by decide, rfl, rfl, ?_, rfl, ?_⟩
  · rfl
  · rfl

/-- What a stop request can do to the store: nothing, or set `stopped` on
the rows with the requested id. -/
theorem StopLoadTest_db (h : LoadTestHandler) (testID userID : String) :
    (h.StopLoadTest testID userID).db = h.db ∨
    (h.StopLoadTest testID userID).db =
      { rows := h.db.rows.map
          (fun r => if r.id = testID then { r with status := "stopped" } else r) } := by
  unfold LoadTestHandler.StopLoadTest
  by_cases hown : userOwnsTest h.db h.answers.query testID userID = true
  · simp only [hown, not_true_eq_false, if_false]
    cases h.controller.StopLoadTest testID with
    | some e => exact Or.inl rfl
    | none =>
      cases hexec : h.answers.exec (.setStatus testID "stopped") with
      | true =>
        right
        simp only [updateLoadTestStatus, if_true]
      | false =>
        left
        simp only [updateLoadTestStatus, Bool.false_eq_true, if_false]
  · left
    simp only [hown, if_true]
    rfl

/-! ### The workload built by `StartLoadTest` -/

/-- Within the range of `int32`: the workload `StartLoadTest` submits is
named `loadtest-<test.id>` and its parallelism and completions both equal
`worker_count`, for every positive `worker_count` up to `2^31 - 1`. -/
theorem StartLoadTest_workload_in_range (c : LoadTestController) (test : LoadTest)
    (hpos : 0 < test.config.workerCount) (hmax : test.config.workerCount ≤ 2147483647) :
    c.StartLoadTest test = c.kubeClient.createJob c.ns (c.buildJob test) ∧
    (c.buildJob test).name = "loadtest-" ++ test.id ∧
    (c.buildJob test).spec.parallelism = some test.config.workerCount ∧
    (c.buildJob test).spec.completions = some test.config.workerCount := by
  have hw : wrapInt32 test.config.workerCount = test.config.workerCount := by
    unfold wrapInt32
    omega
  refine ⟨rfl, rfl, ?_, ?_⟩
  · simp only [LoadTestController.buildJob, hw]
  · simp only [LoadTestController.buildJob, hw]

/-- Scenario S1: three workers give parallelism and completions 3. -/
theorem StartLoadTest_workload_in_range_example :
    0 < (pendingTest sampleRequest "alice" 7 8).config.workerCount ∧
    (pendingTest sampleRequest "alice" 7 8).config.workerCount ≤ 2147483647 ∧
    ((sampleController (sampleJob 0 0 0)).buildJob
      (pendingTest sampleRequest "alice" 7 8)).spec.parallelism = some 3 ∧
    ((sampleController (sampleJob 0 0 0)).buildJob
      (pendingTest sampleRequest "alice" 7 8)).spec.completions = some 3 :=
  ⟨by decide, by decide,
    (StartLoadTest_workload_in_range (sampleController (sampleJob 0 0 0))
      (pendingTest sampleRequest "alice" 7 8) (by decide) (by decide)).2.2.1,
    (StartLoadTest_workload_in_range (sampleController (sampleJob 0 0 0))
      (pendingTest sampleRequest "alice" 7 8) (by decide) (by decide)).2.2.2⟩

/-- C15, evaluation at the failing input: a request with
`worker_count = 2^31`, a value of a 64-bit Go `int`, passes create
validation, and the workload built for it has parallelism and completions
`-2^31`, not `worker_count`: the conversion `int32(worker_count)` wraps. -/
theorem StartLoadTest_workload_truncates :
    validateCreateRequest hugeWorkerRequest = none ∧
    (pendingTest hugeWorkerRequest "alice" 7 8).config.workerCount = 2147483648 ∧
    ((sampleController (sampleJob 0 0 0)).buildJob
      (pendingTest hugeWorkerRequest "alice" 7 8)).spec.parallelism = some (-2147483648) ∧
    ((sampleController (sampleJob 0 0 0)).buildJob
      (pendingTest hugeWorkerRequest "alice" 7 8)).spec.completions = some (-2147483648) ∧
    ((sampleController (sampleJob 0 0 0)).buildJob
      (pendingTest hugeWorkerRequest "alice" 7 8)).spec.parallelism ≠
        some (pendingTest hugeWorkerRequest "alice" 7 8).config.workerCount := by
  refine ⟨by decide, by decide, by decide, by decide, by decide⟩

/-! ### Frame and idempotence of the tick -/

/-- Under the primary key, the ids the tick lists belong to exactly the rows
with status `running`. -/
theorem mem_running_ids_iff (db : Store) (hpk : primaryKey db) (r : LoadTest)
    (hr : r ∈ db.rows) :
    r.id ∈ (db.rows.filter (fun r => r.status = "running")).map (·.id) ↔
      r.status = "running" := by
  constructor
  · intro hmem
    obtain ⟨r2, hr2, hid⟩ := List.mem_map.1 hmem
    rw [List.mem_filter] at hr2
    have heq : r2 = r := List.inj_on_of_nodup_map hpk hr2.1 hr hid
    rw [← heq]
    simpa using hr2.2
  · intro hs
    exact List.mem_map.2 ⟨r, List.mem_filter.2 ⟨hr, by simpa using hs⟩, rfl⟩

/-- One tick on a store with a primary key: a row is rewritten only when
the store answers the `SELECT` and the row has status `running`. -/
theorem updateRunningJobStatuses_rows (h : LoadTestHandler) (clock : String → Time)
    (hpk : primaryKey h.db) :
    (h.updateRunningJobStatuses clock).db.rows =
      h.db.rows.map (fun r =>
        if h.answers.query = true ∧ r.status = "running" then
          reconcileRow h.controller h.answers.exec clock r
        else r) := by
  by_cases hup : h.answers.query = true
  · have hlist : getRunningTests h.db h.answers.query =
        .ok ((h.db.rows.filter (fun r => r.status = "running")).map (·.id)) := by
      simp [getRunningTests, hup]
    rw [updateRunningJobStatuses_db h clock _ hlist]
    apply List.map_congr_left
    intro r hr
    by_cases hs : r.status = "running"
    · rw [if_pos ((mem_running_ids_iff h.db hpk r hr).2 hs), if_pos ⟨hup, hs⟩]
    · rw [if_neg (fun hm => hs ((mem_running_ids_iff h.db hpk r hr).1 hm)),
        if_neg (fun hc => hs hc.2)]
  · have hout : (h.updateRunningJobStatuses clock).db = h.db := by
      simp [LoadTestHandler.updateRunningJobStatuses, getRunningTests, hup]
    rw [hout]
    conv_lhs => rw [← List.map_id h.db.rows]
    apply List.map_congr_left
    intro r _
    rw [if_neg (fun hc => hup hc.1)]
    rfl

theorem reconcileRow_fields (c : LoadTestController) (exec : StoreWrite → Bool)
    (clock : String → Time) (r : LoadTest) :
    (reconcileRow c exec clock r).id = r.id ∧ (reconcileRow c exec clock r).name = r.name ∧
    (reconcileRow c exec clock r).userID = r.userID ∧
    (reconcileRow c exec clock r).targetURL = r.targetURL ∧
    (reconcileRow c exec clock r).config = r.config ∧
    (reconcileRow c exec clock r).createdAt = r.createdAt := by
  unfold reconcileRow
  split
  · exact ⟨rfl, rfl, rfl, rfl, rfl, rfl⟩
  · split
    · exact ⟨rfl, rfl, rfl, rfl, rfl, rfl⟩
    · split <;> exact ⟨rfl, rfl, rfl, rfl, rfl, rfl⟩

/-- The status of a reconciled row is the one it had, or `completed`, or
`failed`. -/
theorem reconcileRow_status (c : LoadTestController) (exec : StoreWrite → Bool)
    (clock : String → Time) (r : LoadTest) :
    (reconcileRow c exec clock r).status = r.status ∨
      (reconcileRow c exec clock r).status = "completed" ∨
      (reconcileRow c exec clock r).status = "failed" := by
  have hw : ∀ status : String, (writeTerminal exec clock status r).status = r.status ∨
      (writeTerminal exec clock status r).status = status := by
    intro status
    unfold writeTerminal
    cases exec (.setStatus r.id status)
    · exact Or.inl rfl
    · exact Or.inr rfl
  unfold reconcileRow
  split
  · rcases hw "completed" with h | h
    · exact Or.inl h
    · exact Or.inr (Or.inl h)
  · split
    · rcases hw "completed" with h | h
      · exact Or.inl h
      · exact Or.inr (Or.inl h)
    · split
      · rcases hw "failed" with h | h
        · exact Or.inl h
        · exact Or.inr (Or.inr h)
      · exact Or.inl rfl

theorem updateRunningJobStatuses_primaryKey (h : LoadTestHandler) (clock : String → Time)
    (hpk : primaryKey h.db) : primaryKey (h.updateRunningJobStatuses clock).db := by
  unfold primaryKey at hpk ⊢
  rw [updateRunningJobStatuses_rows h clock hpk, List.map_map]
  have hfun : ((fun r : LoadTest => r.id) ∘ fun r =>
      if h.answers.query = true ∧ r.status = "running" then
        reconcileRow h.controller h.answers.exec clock r
      else r) = fun r => r.id := by
    funext r
    simp only [Function.comp]
    split
    · exact reconcileRow_id _ _ _ _
    · rfl
  rw [hfun]
  exact hpk

/-- A tick leaves every row that is not `running` where it is and as it
is. -/
theorem updateRunningJobStatuses_frame (h : LoadTestHandler) (clock : String → Time)
    (hpk : primaryKey h.db) (i : Nat) (r : LoadTest) (hi : h.db.rows[i]? = some r)
    (hs : r.status ≠ "running") :
    (h.updateRunningJobStatuses clock).db.rows[i]? = some r := by
  rw [updateRunningJobStatuses_rows h clock hpk, List.getElem?_map, hi]
  simp only [Option.map_some']
  rw [if_neg (fun hc => hs hc.2)]

/-- A running row whose answer is terminal and whose status statement the
store executes is not `running` afterwards. -/
theorem reconcileRow_not_running (c : LoadTestController) (exec : StoreWrite → Bool)
    (clock : String → Time) (r : LoadTest) (hterm : terminalAnswer c r.id = true)
    (hexec : exec (.setStatus r.id (terminalStatus c r.id)) = true) :
    (reconcileRow c exec clock r).status ≠ "running" := by
  rcases tickOne_cases c exec clock { db := { rows := [] }, calls := [], writes := [] } r.id with
    ⟨hc, _⟩ | ⟨hc, _⟩ | ⟨hc, _⟩
  · rw [(terminalAnswer_of_completed c r.id hc).2] at hexec
    rw [reconcileRow_completed c exec clock r hc]
    simp only [writeTerminal, hexec, if_true]
    decide
  · rw [(terminalAnswer_of_failed c r.id hc).2] at hexec
    rw [reconcileRow_failed c exec clock r hc]
    simp only [writeTerminal, hexec, if_true]
    decide
  · obtain ⟨s, hs, h1, h2⟩ := hc
    unfold terminalAnswer at hterm
    rw [hs] at hterm
    simp [h1, h2] at hterm

/-- A row whose answer is not terminal is left as it is, whatever the store
answers and whatever the clock. -/
theorem reconcileRow_not_terminal (c : LoadTestController) (exec : StoreWrite → Bool)
    (clock : String → Time) (r : LoadTest) (hterm : terminalAnswer c r.id = false) :
    reconcileRow c exec clock r = r := by
  rcases tickOne_cases c exec clock { db := { rows := [] }, calls := [], writes := [] } r.id with
    ⟨hc, _⟩ | ⟨hc, _⟩ | ⟨hc, _⟩
  · rw [(terminalAnswer_of_completed c r.id hc).1] at hterm
    exact absurd hterm (by decide)
  · rw [(terminalAnswer_of_failed c r.id hc).1] at hterm
    exact absurd hterm (by decide)
  · exact reconcileRow_other c exec clock r hc

/-- C16: on a store whose ids are unique (primary key), one reconciler tick
leaves every row whose status is not `running` exactly as it was, and in the
rows it rewrites it changes nothing but `status` and `completed_at`; a
status it wrote is `completed` or `failed`, and a second tick against the
same orchestrator answers, whatever its clock and whatever the store then
answers, leaves every row that is not `running` after the first tick as it
is, so no status the first tick wrote is changed; when the store executed
every statement of the first tick, the second tick leaves the whole store
as it is. -/
theorem updateRunningJobStatuses_frame_and_idempotent (h : LoadTestHandler)
    (clock clock2 : String → Time) (a2 : StoreAnswers) (hpk : primaryKey h.db) :
    (h.updateRunningJobStatuses clock).db.rows =
      h.db.rows.map (fun r =>
        if h.answers.query = true ∧ r.status = "running" then
          reconcileRow h.controller h.answers.exec clock r
        else r) ∧
    (∀ r, (reconcileRow h.controller h.answers.exec clock r).id = r.id ∧
      (reconcileRow h.controller h.answers.exec clock r).name = r.name ∧
      (reconcileRow h.controller h.answers.exec clock r).userID = r.userID ∧
      (reconcileRow h.controller h.answers.exec clock r).targetURL = r.targetURL ∧
      (reconcileRow h.controller h.answers.exec clock r).config = r.config ∧
      (reconcileRow h.controller h.answers.exec clock r).createdAt = r.createdAt) ∧
    (∀ (i : Nat) (r : LoadTest), h.db.rows[i]? = some r → r.status ≠ "running" →
      (h.updateRunningJobStatuses clock).db.rows[i]? = some r) ∧
    (∀ (i : Nat) (r r1 : LoadTest), h.db.rows[i]? = some r →
      (h.updateRunningJobStatuses clock).db.rows[i]? = some r1 → r1.status ≠ r.status →
      r.status = "running" ∧ (r1.status = "completed" ∨ r1.status = "failed") ∧
      (({ h with db := (h.updateRunningJobStatuses clock).db, answers := a2 } :
        LoadTestHandler).updateRunningJobStatuses clock2).db.rows[i]? = some r1) ∧
    (∀ (i : Nat) (r1 : LoadTest), (h.updateRunningJobStatuses clock).db.rows[i]? = some r1 →
      r1.status ≠ "running" →
      (({ h with db := (h.updateRunningJobStatuses clock).db, answers := a2 } :
        LoadTestHandler).updateRunningJobStatuses clock2).db.rows[i]? = some r1) ∧
    ((∀ w ∈ (h.updateRunningJobStatuses clock).writes, h.answers.exec w = true) →
      (a2.query = true → h.answers.query = true) →
      (({ h with db := (h.updateRunningJobStatuses clock).db, answers := a2 } :
        LoadTestHandler).updateRunningJobStatuses clock2).db =
          (h.updateRunningJobStatuses clock).db) := by
  have hrows1 := updateRunningJobStatuses_rows h clock hpk
  have hpk2 := updateRunningJobStatuses_primaryKey h clock hpk
  have hframe2 : ∀ (i : Nat) (r1 : LoadTest),
      (h.updateRunningJobStatuses clock).db.rows[i]? = some r1 → r1.status ≠ "running" →
      (({ h with db := (h.updateRunningJobStatuses clock).db, answers := a2 } :
        LoadTestHandler).updateRunningJobStatuses clock2).db.rows[i]? = some r1 :=
    fun i r1 hi hs => updateRunningJobStatuses_frame
      ({ h with db := (h.updateRunningJobStatuses clock).db, answers := a2 } : LoadTestHandler)
      clock2 hpk2 i r1 hi hs
  refine ⟨hrows1, reconcileRow_fields h.controller h.answers.exec clock,
    fun i r hi hs => updateRunningJobStatuses_frame h clock hpk i r hi hs, ?_, hframe2, ?_⟩
  · intro i r r1 hi hi1 hne
    rw [hrows1, List.getElem?_map, hi] at hi1
    simp only [Option.map_some', Option.some.injEq] at hi1
    by_cases hc : h.answers.query = true ∧ r.status = "running"
    · rw [if_pos hc] at hi1
      have hst : r1.status = "completed" ∨ r1.status = "failed" := by
        rcases reconcileRow_status h.controller h.answers.exec clock r with hs | hs
        · rw [hi1] at hs
          exact absurd hs hne
        · rw [hi1] at hs
          exact hs
      refine ⟨hc.2, hst, ?_⟩
      apply hframe2 i r1
      · rw [hrows1, List.getElem?_map, hi]
        simp only [Option.map_some', Option.some.injEq]
        rw [if_pos hc, hi1]
      · rcases hst with hs | hs <;> (rw [hs]; decide)
    · rw [if_neg hc] at hi1
      rw [hi1] at hne
      exact absurd rfl hne
  · intro hall hq
    have hrows2 := updateRunningJobStatuses_rows
      ({ h with db := (h.updateRunningJobStatuses clock).db, answers := a2 } : LoadTestHandler)
      clock2 hpk2
    have hrows : (({ h with db := (h.updateRunningJobStatuses clock).db, answers := a2 } :
        LoadTestHandler).updateRunningJobStatuses clock2).db.rows =
          (h.updateRunningJobStatuses clock).db.rows := by
      rw [hrows2]
      conv_rhs => rw [← List.map_id (h.updateRunningJobStatuses clock).db.rows]
      apply List.map_congr_left
      intro r1 hr1
      simp only [id]
      by_cases hc : a2.query = true ∧ r1.status = "running"
      · rw [if_pos hc]
        have hquery := hq hc.1
        rw [hrows1] at hr1
        obtain ⟨r, hr, hr1eq⟩ := List.mem_map.1 hr1
        by_cases hc1 : h.answers.query = true ∧ r.status = "running"
        · rw [if_pos hc1] at hr1eq
          have hlist : getRunningTests h.db h.answers.query =
              .ok ((h.db.rows.filter (fun r => r.status = "running")).map (·.id)) := by
            simp [getRunningTests, hquery]
          have hmem := (mem_running_ids_iff h.db hpk r hr).2 hc1.2
          cases hterm : terminalAnswer h.controller r.id with
          | true =>
            have hpair := tickLoop_writes_pair h.controller h.answers.exec clock _
              { db := h.db, calls := [], writes := [] } r.id hmem hterm
            rw [← updateRunningJobStatuses_writes h clock _ hlist] at hpair
            have hexec := hall _ (hpair.subset (List.mem_cons_self _ _))
            have hnot := reconcileRow_not_running h.controller h.answers.exec clock r hterm hexec
            rw [hr1eq] at hnot
            exact absurd hc.2 hnot
          | false =>
            have hsame := reconcileRow_not_terminal h.controller h.answers.exec clock r hterm
            rw [hsame] at hr1eq
            rw [← hr1eq]
            exact reconcileRow_not_terminal h.controller a2.exec clock2 r hterm
        · rw [if_neg hc1] at hr1eq
          rw [← hr1eq] at hc
          exact absurd ⟨hquery, hc.2⟩ hc1
      · rw [if_neg hc]
    cases hd2 : (({ h with db := (h.updateRunningJobStatuses clock).db, answers := a2 } :
        LoadTestHandler).updateRunningJobStatuses clock2).db
    cases hd1 : (h.updateRunningJobStatuses clock).db
    rw [hd2, hd1] at hrows
    simp only at hrows
    rw [hrows]

/-- Witness of C16: a store with the running tests `t1` (workload active)
and `t9` (workload gone) and the stopped test `t5`.  The tick rewrites `t9`
only; `t5`, third row, is as before; a second tick with another clock
changes nothing. -/
theorem updateRunningJobStatuses_frame_and_idempotent_witness :
    primaryKey (sampleHandler [sampleRow "running", goneRow, stoppedRow] 1 0 0).db ∧
    ((sampleHandler [sampleRow "running", goneRow, stoppedRow] 1 0 0).updateRunningJobStatuses
      (fun _ => 99)).db.rows =
        [sampleRow "running", { goneRow with status := "completed", completedAt := some 99 },
         stoppedRow] ∧
    (({ sampleHandler [sampleRow "running", goneRow, stoppedRow] 1 0 0 with
        db := ((sampleHandler [sampleRow "running", goneRow, stoppedRow] 1 0
          0).updateRunningJobStatuses (fun _ => 99)).db, answers := StoreAnswers.always } :
      LoadTestHandler).updateRunningJobStatuses (fun _ => 123)).db =
        ((sampleHandler [sampleRow "running", goneRow, stoppedRow] 1 0
          0).updateRunningJobStatuses (fun _ => 99)).db := by
  have hpk : primaryKey (sampleHandler [sampleRow "running", goneRow, stoppedRow] 1 0 0).db := by
    unfold primaryKey
    decide
  have h := updateRunningJobStatuses_frame_and_idempotent
    (sampleHandler [sampleRow "running", goneRow, stoppedRow] 1 0 0) (fun _ => 99)
    (fun _ => 123) StoreAnswers.always hpk
  refine ⟨hpk, ?_, h.2.2.2.2.2 (fun _ _ => rfl) (fun _ => rfl)⟩
  rw [h.1]
  rfl

/-! ### Any failure of `Status` counts as a missing workload -/

theorem isTerminal_not_running (status : String) (ht : isTerminal status) :
    status ≠ "running" := by
  rcases ht with h | h | h <;> (rw [h]; decide)

theorem engineStep_primaryKey (db : Store) (op : EngineOp) (hpk : primaryKey db) :
    primaryKey (engineStep db op) := by
  cases op with
  | create c a req userID idNow createdNow =>
    rcases CreateLoadTest_db { db := db, controller := c, answers := a } req userID idNow
      createdNow with h | ⟨t, hfresh, _, _, h⟩
    · simp only [engineStep]
      rw [h]
      exact hpk
    · simp only [engineStep]
      rw [h]
      unfold primaryKey at hpk ⊢
      simp only [List.map_append, List.map_cons, List.map_nil]
      rw [List.nodup_append]
      refine ⟨hpk, List.nodup_singleton _, ?_⟩
      intro x ha hb
      rw [List.mem_singleton] at hb
      obtain ⟨r, hr, hid⟩ := List.mem_map.1 ha
      exact hfresh r hr (hid.trans hb)
  | stop c a testID userID =>
    rcases StopLoadTest_db { db := db, controller := c, answers := a } testID userID with h | h
    · simp only [engineStep]
      rw [h]
      exact hpk
    · simp only [engineStep]
      rw [h]
      unfold primaryKey at hpk ⊢
      simp only [List.map_map]
      have hfun : ((fun r : LoadTest => r.id) ∘ fun r =>
          if r.id = testID then { r with status := "stopped" } else r) = fun r => r.id := by
        funext r
        simp only [Function.comp]
        split <;> rfl
      rw [hfun]
      exact hpk
  | tick c a clock =>
    exact updateRunningJobStatuses_primaryKey { db := db, controller := c, answers := a } clock
      hpk

/-- One engine operation, run without interleaving, on a row with a terminal
status: the row is kept as it is, unless the operation is a stop request for
its id, which may turn its status into `stopped`. -/
theorem engineStep_terminal_row (db : Store) (op : EngineOp) (hpk : primaryKey db)
    (r : LoadTest) (hr : r ∈ db.rows) (ht : isTerminal r.status) :
    r ∈ (engineStep db op).rows ∨
      (isStopOf r.id op ∧ { r with status := "stopped" } ∈ (engineStep db op).rows) := by
  cases op with
  | create c a req userID idNow createdNow =>
    left
    rcases CreateLoadTest_db { db := db, controller := c, answers := a } req userID idNow
      createdNow with h | ⟨t, _, _, _, h⟩
    · simp only [engineStep]
      rw [h]
      exact hr
    · simp only [engineStep]
      rw [h]
      exact List.mem_append_left _ hr
  | stop c a testID userID =>
    rcases StopLoadTest_db { db := db, controller := c, answers := a } testID userID with h | h
    · left
      simp only [engineStep]
      rw [h]
      exact hr
    · by_cases hid : r.id = testID
      · right
        refine ⟨hid.symm, ?_⟩
        simp only [engineStep]
        rw [h]
        exact List.mem_map.2 ⟨r, hr, by rw [if_pos hid]⟩
      · left
        simp only [engineStep]
        rw [h]
        exact List.mem_map.2 ⟨r, hr, by rw [if_neg hid]⟩
  | tick c a clock =>
    left
    simp only [engineStep]
    rw [updateRunningJobStatuses_rows { db := db, controller := c, answers := a } clock hpk]
    refine List.mem_map.2 ⟨r, hr, ?_⟩
    rw [if_neg (fun hc => isTerminal_not_running r.status ht hc.2)]

/-- Operations run one after another, on a row with a terminal status. -/
theorem engineRun_sequential (db : Store) (ops : List EngineOp) (hpk : primaryKey db)
    (r : LoadTest) (hr : r ∈ db.rows) (ht : isTerminal r.status) :
    (r ∈ (engineRun db ops).rows ∨
      { r with status := "stopped" } ∈ (engineRun db ops).rows) ∧
    (r.status = "stopped" → r ∈ (engineRun db ops).rows) ∧
    ((∀ op ∈ ops, ¬ isStopOf r.id op) → r ∈ (engineRun db ops).rows) := by
  induction ops generalizing db r with
  | nil => exact ⟨Or.inl hr, fun _ => hr, fun _ => hr⟩
  | cons op rest ih =>
    have hpk1 := engineStep_primaryKey db op hpk
    have hrun : engineRun db (op :: rest) = engineRun (engineStep db op) rest := rfl
    rw [hrun]
    rcases engineStep_terminal_row db op hpk r hr ht with h1 | ⟨hstop, h1⟩
    · obtain ⟨ha, hb, hc⟩ := ih (engineStep db op) hpk1 r h1 ht
      exact ⟨ha, hb, fun hno => hc (fun o ho => hno o (List.mem_cons_of_mem _ ho))⟩
    · have hts : isTerminal ({ r with status := "stopped" } : LoadTest).status :=
        Or.inr (Or.inr rfl)
      obtain ⟨_, hb, _⟩ := ih (engineStep db op) hpk1 { r with status := "stopped" } h1 hts
      refine ⟨Or.inr (hb rfl), ?_, ?_⟩
      · intro hs
        have heq : ({ r with status := "stopped" } : LoadTest) = r := by
          cases r
          simp only at hs
          subst hs
          rfl
        rw [← heq]
        exact hb rfl
      · intro hno
        exact absurd hstop (hno op (List.mem_cons_self _ _))

/-! #### Statements of several operations interleaved -/

theorem keepsRow_refl (r : LoadTest) : keepsRow r r :=
  ⟨rfl, rfl, rfl, rfl, rfl, rfl, fun h => h⟩

theorem keepsRow_trans (r1 r2 r3 : LoadTest) (h12 : keepsRow r1 r2) (h23 : keepsRow r2 r3) :
    keepsRow r1 r3 := by
  obtain ⟨a1, a2, a3, a4, a5, a6, a7⟩ := h12
  obtain ⟨b1, b2, b3, b4, b5, b6, b7⟩ := h23
  exact ⟨b1.trans a1, b2.trans a2, b3.trans a3, b4.trans a4, b5.trans a5, b6.trans a6,
    fun h => b7 (a7 h)⟩

/-- One changing statement that does not write `pending` keeps every row in
place, up to `status` and `completed_at`, whether the store executes it or
not. -/
theorem applyWrite_keeps (exec : StoreWrite → Bool) (clock : String → Time) (db : Store)
    (w : StoreWrite) (hw : w.noPending) (i : Nat) (r : LoadTest) (hi : db.rows[i]? = some r) :
    ∃ r2, (applyWrite exec clock db w).rows[i]? = some r2 ∧ keepsRow r r2 := by
  cases w with
  | insertRow test =>
    simp only [applyWrite]
    cases hsave : saveLoadTestToDB db (exec (.insertRow test)) test with
    | error e => exact ⟨r, hi, keepsRow_refl r⟩
    | ok db1 =>
      obtain ⟨_, _, hdb1⟩ := saveLoadTestToDB_ok db db1 _ test hsave
      refine ⟨r, ?_, keepsRow_refl r⟩
      simp only
      rw [hdb1]
      have hlt : i < db.rows.length := by
        obtain ⟨hlt, _⟩ := List.getElem?_eq_some.1 hi
        exact hlt
      rw [List.getElem?_append_left hlt]
      exact hi
  | setStatus testID status =>
    simp only [applyWrite, updateLoadTestStatus]
    cases exec (.setStatus testID status) with
    | false => exact ⟨r, hi, keepsRow_refl r⟩
    | true =>
      simp only [if_true, List.getElem?_map, hi, Option.map_some']
      by_cases hid : r.id = testID
      · rw [if_pos hid]
        exact ⟨_, rfl, rfl, rfl, rfl, rfl, rfl, rfl, fun _ => hw⟩
      · rw [if_neg hid]
        exact ⟨r, rfl, keepsRow_refl r⟩
  | setCompleted testID =>
    simp only [applyWrite, setCompletionTime]
    cases exec (.setCompleted testID) with
    | false => exact ⟨r, hi, keepsRow_refl r⟩
    | true =>
      simp only [if_true, List.getElem?_map, hi, Option.map_some']
      by_cases hid : r.id = testID
      · rw [if_pos hid]
        exact ⟨_, rfl, rfl, rfl, rfl, rfl, rfl, rfl, fun h => h⟩
      · rw [if_neg hid]
        exact ⟨r, rfl, keepsRow_refl r⟩

theorem foldl_applyWrite_keeps (exec : StoreWrite → Bool) (clock : String → Time)
    (ws : List StoreWrite) (db : Store) (hws : ∀ w ∈ ws, w.noPending) (i : Nat)
    (r : LoadTest) (hi : db.rows[i]? = some r) :
    ∃ r2, (ws.foldl (applyWrite exec clock) db).rows[i]? = some r2 ∧ keepsRow r r2 := by
  induction ws generalizing db r with
  | nil => exact ⟨r, hi, keepsRow_refl r⟩
  | cons w rest ih =>
    obtain ⟨r1, hi1, hk1⟩ := applyWrite_keeps exec clock db w (hws w (List.mem_cons_self _ _))
      i r hi
    obtain ⟨r2, hi2, hk2⟩ := ih (applyWrite exec clock db w)
      (fun x hx => hws x (List.mem_cons_of_mem _ hx)) r1 hi1
    exact ⟨r2, hi2, keepsRow_trans r r1 r2 hk1 hk2⟩

/-- No statement of a create request, of a stop request or of a tick writes
the status `pending` into a stored row. -/
theorem EngineOp.writes_noPending (db : Store) (op : EngineOp) :
    ∀ w ∈ op.writes db, w.noPending := by
  intro w hw
  cases op with
  | create c a req userID idNow createdNow =>
    simp only [EngineOp.writes] at hw
    cases req with
    | none => simp [LoadTestHandler.CreateLoadTest] at hw
    | some req =>
      cases hv : validateCreateRequest req with
      | some err => simp [LoadTestHandler.CreateLoadTest, hv] at hw
      | none =>
        rw [CreateLoadTest_valid _ req userID idNow createdNow hv] at hw
        split at hw
        · simp only [List.mem_singleton] at hw
          subst hw
          trivial
        · split at hw
          · simp only [List.mem_cons, List.mem_singleton, List.not_mem_nil, or_false] at hw
            rcases hw with hw | hw
            · subst hw
              trivial
            · subst hw
              show ¬ ("failed" : String) = "pending"
              decide
          · simp only [List.mem_cons, List.mem_singleton, List.not_mem_nil, or_false] at hw
            rcases hw with hw | hw
            · subst hw
              trivial
            · subst hw
              show ¬ ("running" : String) = "pending"
              decide
  | stop c a testID userID =>
    simp only [EngineOp.writes, LoadTestHandler.StopLoadTest] at hw
    split at hw
    · simp at hw
    · split at hw
      · simp at hw
      · simp only [List.mem_singleton] at hw
        subst hw
        show ¬ ("stopped" : String) = "pending"
        decide
  | tick c a clock =>
    simp only [EngineOp.writes, LoadTestHandler.updateRunningJobStatuses] at hw
    split at hw
    · simp at hw
    · rcases tickLoop_writes c a.exec clock _ _ w hw with hnil | ⟨_, _, hw2⟩
      · simp at hnil
      · rcases hw2 with hw2 | hw2
        · rw [hw2]
          show ¬ terminalStatus c w.testID = "pending"
          rcases terminalStatus_values c w.testID with hs | hs <;> (rw [hs]; decide)
        · rw [hw2]
          trivial

/-- The loop of the tick does to the store what its statements do, sent one
by one. -/
theorem tickLoop_replay (c : LoadTestController) (exec : StoreWrite → Bool)
    (clock : String → Time) (ids : List String) (st : TickState) :
    ∃ ws, (ids.foldl (tickOne c exec clock) st).writes = st.writes ++ ws ∧
      (ids.foldl (tickOne c exec clock) st).db = ws.foldl (applyWrite exec clock) st.db := by
  induction ids generalizing st with
  | nil => exact ⟨[], by simp, rfl⟩
  | cons x rest ih =>
    rw [List.foldl_cons]
    obtain ⟨ws2, hw2, hd2⟩ := ih (tickOne c exec clock st x)
    rcases tickOne_cases c exec clock st x with ⟨_, ht⟩ | ⟨_, ht⟩ | ⟨_, ht⟩
    · refine ⟨[.setStatus x "completed", .setCompleted x] ++ ws2, ?_, ?_⟩
      · rw [hw2, ht]
        simp
      · rw [hd2, ht, List.foldl_append]
        rfl
    · refine ⟨[.setStatus x "failed", .setCompleted x] ++ ws2, ?_, ?_⟩
      · rw [hw2, ht]
        simp
      · rw [hd2, ht, List.foldl_append]
        rfl
    · refine ⟨ws2, ?_, ?_⟩
      · rw [hw2, ht]
      · rw [hd2, ht]

/-- An operation whose statements are sent with no statement of another
operation in between does to the store what its handler does: the store
after the handler is the store after its statements, each executed as the
store answers. -/
theorem engineStep_eq_writes (db : Store) (op : EngineOp) :
    engineStep db op = (op.writes db).foldl (applyWrite op.exec op.clock) db := by
  cases op with
  | create c a req userID idNow createdNow =>
    simp only [engineStep, EngineOp.writes, EngineOp.exec]
    cases req with
    | none => simp [LoadTestHandler.CreateLoadTest]
    | some req =>
      cases hv : validateCreateRequest req with
      | some err => simp [LoadTestHandler.CreateLoadTest, hv]
      | none =>
        rw [CreateLoadTest_valid _ req userID idNow createdNow hv]
        cases hsave : saveLoadTestToDB db
            (a.exec (.insertRow (pendingTest req userID idNow createdNow)))
            (pendingTest req userID idNow createdNow) with
        | error e => simp [applyWrite, hsave]
        | ok db1 =>
          cases hstart : c.StartLoadTest (pendingTest req userID idNow createdNow) with
          | some e => simp [applyWrite, hsave]
          | none => simp [applyWrite, hsave]
  | stop c a testID userID =>
    simp only [engineStep, EngineOp.writes, EngineOp.exec, LoadTestHandler.StopLoadTest]
    split
    · rfl
    · split
      · rfl
      · rfl
  | tick c a clock =>
    simp only [engineStep, EngineOp.writes, EngineOp.exec, EngineOp.clock,
      LoadTestHandler.updateRunningJobStatuses]
    split
    · rfl
    · obtain ⟨ws, hw, hd⟩ := tickLoop_replay c a.exec clock _
        { db := db, calls := [], writes := [] }
      rw [hd, hw]
      simp

/-- Begun and then run to its last statement with nothing in between, an
operation does what `engineStep` says. -/
theorem engineStep_eq_uninterleaved (db : Store) (op : EngineOp) :
    (op.startRun db).todo.foldl (applyWrite op.exec op.clock) (op.startDB db) =
      engineStep db op := by
  rw [engineStep_eq_writes]
  unfold EngineOp.startRun EngineOp.startDB
  simp only
  rw [← List.foldl_append, List.take_append_drop]

/-- One step of an interleaved run keeps every row in place, up to `status`
and `completed_at`, and never writes `pending` into it. -/
theorem EngineState.step_keeps (s : EngineState) (st : RunStep)
    (hinv : ∀ run ∈ s.runs, ∀ w ∈ run.todo, w.noPending) :
    (∀ run ∈ (s.step st).runs, ∀ w ∈ run.todo, w.noPending) ∧
    (∀ (i : Nat) (r : LoadTest), s.db.rows[i]? = some r →
      ∃ r2, (s.step st).db.rows[i]? = some r2 ∧ keepsRow r r2) := by
  cases st with
  | start op =>
    simp only [EngineState.step]
    constructor
    · intro run hrun w hw
      rcases List.mem_append.1 hrun with h | h
      · exact hinv run h w hw
      · rw [List.mem_singleton] at h
        subst h
        exact EngineOp.writes_noPending s.db op w (List.mem_of_mem_drop hw)
    · intro i r hi
      exact foldl_applyWrite_keeps op.exec op.clock _ s.db
        (fun w hw => EngineOp.writes_noPending s.db op w (List.mem_of_mem_take hw)) i r hi
  | next k =>
    simp only [EngineState.step]
    cases hk : s.runs[k]? with
    | none => exact ⟨hinv, fun i r hi => ⟨r, hi, keepsRow_refl r⟩⟩
    | some run =>
      have hrun : run ∈ s.runs := List.getElem?_mem hk
      cases htodo : run.todo with
      | nil =>
        simp only [htodo]
        exact ⟨hinv, fun i r hi => ⟨r, hi, keepsRow_refl r⟩⟩
      | cons w rest =>
        simp only [htodo]
        constructor
        · intro run2 hrun2 w2 hw2
          rcases List.mem_or_eq_of_mem_set hrun2 with h | h
          · exact hinv run2 h w2 hw2
          · subst h
            exact hinv run hrun w2 (by rw [htodo]; exact List.mem_cons_of_mem _ hw2)
        · intro i r hi
          exact applyWrite_keeps run.exec run.clock s.db w
            (hinv run hrun w (by rw [htodo]; exact List.mem_cons_self _ _)) i r hi

theorem EngineState.run_keeps (steps : List RunStep) (s : EngineState)
    (hinv : ∀ run ∈ s.runs, ∀ w ∈ run.todo, w.noPending) (i : Nat) (r : LoadTest)
    (hi : s.db.rows[i]? = some r) :
    ∃ r2, (steps.foldl EngineState.step s).db.rows[i]? = some r2 ∧ keepsRow r r2 := by
  induction steps generalizing s r with
  | nil => exact ⟨r, hi, keepsRow_refl r⟩
  | cons st rest ih =>
    obtain ⟨hinv1, hkeep⟩ := EngineState.step_keeps s st hinv
    obtain ⟨r1, hi1, hk1⟩ := hkeep i r hi
    obtain ⟨r2, hi2, hk2⟩ := ih (s.step st) hinv1 r1 hi1
    exact ⟨r2, hi2, keepsRow_trans r r1 r2 hk1 hk2⟩

/-- A tick that listed a running test before a stop request overwrites the
`stopped` the request writes: single-row store, tick whose `Status` call
fails, stop request by the owner whose delete succeeds, every statement
executed. -/
theorem interleave_tick_overwrites_stopped (x : LoadTest) (cT cS : LoadTestController)
    (clock : String → Time) (hs : x.status = "running")
    (he : ∃ e, cT.GetLoadTestStatus x.id = .error e) (hdel : cS.StopLoadTest x.id = none) :
    (interleave { rows := [x] }
      [.start (.tick cT StoreAnswers.always clock),
       .start (.stop cS StoreAnswers.always x.id x.userID), .next 1]).db.rows =
        [{ x with status := "stopped" }] ∧
    (interleave { rows := [x] }
      [.start (.tick cT StoreAnswers.always clock),
       .start (.stop cS StoreAnswers.always x.id x.userID), .next 1, .next 0]).db.rows =
        [{ x with status := "completed" }] := by
  obtain ⟨e, he⟩ := he
  have htick : (EngineOp.tick cT StoreAnswers.always clock).writes { rows := [x] } =
      [.setStatus x.id "completed", .setCompleted x.id] := by
    simp [EngineOp.writes, LoadTestHandler.updateRunningJobStatuses, getRunningTests, hs,
      StoreAnswers.always, tickOne, he]
  have hstop : (EngineOp.stop cS StoreAnswers.always x.id x.userID).writes { rows := [x] } =
      [.setStatus x.id "stopped"] := by
    simp [EngineOp.writes, LoadTestHandler.StopLoadTest, userOwnsTest, StoreAnswers.always,
      hdel]
  constructor
  · simp only [interleave, List.foldl, EngineState.step, EngineOp.startDB, EngineOp.startRun,
      EngineOp.first, htick, hstop]
    simp [EngineOp.exec, applyWrite, updateLoadTestStatus, StoreAnswers.always]
  · simp only [interleave, List.foldl, EngineState.step, EngineOp.startDB, EngineOp.startRun,
      EngineOp.first, htick, hstop]
    simp [EngineOp.exec, applyWrite, updateLoadTestStatus, StoreAnswers.always]

/-- C11, as amended.  No write of the engine looks at the stored status.
When create requests, stop requests and reconciler ticks run one after
another on a store with unique ids, a row whose status is completed, failed
or stopped is still there afterwards, either unchanged or with only its
status turned into `stopped`; `stopped` is never left; the create path and
the tick never change such a row, so the row is unchanged when no stop
request for its id is in the sequence.  A stop request by the owner whose
orchestrator delete succeeds sets the status of the rows with that id to
`stopped` whatever it was when the store executes the `UPDATE`, and leaves
the store as it is when the store does not; a stop request that is not the
owner's or whose delete fails leaves the store as it is.  Each operation
sends its statements one by one (run without interleaving, they do what
`engineStep` says), and an `UPDATE` of `status` overwrites what another
operation wrote in between: on a store holding one running test, a tick
that listed it and whose `Status` call fails overwrites with `completed`
the `stopped` that the owner's stop request wrote after the tick's
`SELECT`.  However the statements of several operations interleave, every
row stays in place, its id, name, user_id, target_url, config and
created_at unchanged, and a status that is not `pending` never becomes
`pending` again. -/
theorem engineRun_terminal (db : Store) (ops : List EngineOp) (hpk : primaryKey db)
    (r : LoadTest) (hr : r ∈ db.rows) (ht : isTerminal r.status) :
    (r ∈ (engineRun db ops).rows ∨
      { r with status := "stopped" } ∈ (engineRun db ops).rows) ∧
    (r.status = "stopped" → r ∈ (engineRun db ops).rows) ∧
    ((∀ op ∈ ops, ¬ isStopOf r.id op) → r ∈ (engineRun db ops).rows) ∧
    (∀ (c : LoadTestController) (a : StoreAnswers) (testID userID : String),
      userOwnsTest db a.query testID userID = true → c.StopLoadTest testID = none →
      (a.exec (.setStatus testID "stopped") = true →
        (engineStep db (.stop c a testID userID)).rows =
          db.rows.map (fun x => if x.id = testID then { x with status := "stopped" } else x)) ∧
      (a.exec (.setStatus testID "stopped") = false →
        engineStep db (.stop c a testID userID) = db)) ∧
    (∀ (c : LoadTestController) (a : StoreAnswers) (testID userID : String),
      userOwnsTest db a.query testID userID = false ∨ c.StopLoadTest testID ≠ none →
      engineStep db (.stop c a testID userID) = db) ∧
    (∀ op : EngineOp,
      (op.startRun db).todo.foldl (applyWrite op.exec op.clock) (op.startDB db) =
        engineStep db op) ∧
    (∀ (x : LoadTest) (cT cS : LoadTestController) (clock : String → Time),
      x.status = "running" → (∃ e, cT.GetLoadTestStatus x.id = .error e) →
      cS.StopLoadTest x.id = none →
      (interleave { rows := [x] }
        [.start (.tick cT StoreAnswers.always clock),
         .start (.stop cS StoreAnswers.always x.id x.userID), .next 1]).db.rows =
          [{ x with status := "stopped" }] ∧
      (interleave { rows := [x] }
        [.start (.tick cT StoreAnswers.always clock),
         .start (.stop cS StoreAnswers.always x.id x.userID), .next 1, .next 0]).db.rows =
          [{ x with status := "completed" }]) ∧
    (∀ (steps : List RunStep) (i : Nat) (x : LoadTest), db.rows[i]? = some x →
      ∃ x2, (interleave db steps).db.rows[i]? = some x2 ∧ keepsRow x x2) := by
  obtain ⟨h1, h2, h3⟩ := engineRun_sequential db ops hpk r hr ht
  refine ⟨h1, h2, h3, ?_, ?_, engineStep_eq_uninterleaved db,
    fun x cT cS clock hs he hdel => interleave_tick_overwrites_stopped x cT cS clock hs he hdel,
    ?_⟩
  · intro c a testID userID hown hdel
    have hout := StopLoadTest_outcomes { db := db, controller := c, answers := a } testID userID
      hown
    have hdel2 : c.kubeClient.deleteJob c.ns ("loadtest-" ++ testID) "Background" = none := hdel
    obtain ⟨_, _, hyes, hno⟩ := hout.2.2.1 hdel2
    exact ⟨fun he => (hyes he).1, fun he => hno he⟩
  · intro c a testID userID hcase
    simp only [engineStep, LoadTestHandler.StopLoadTest]
    rcases hcase with hown | hdel
    · simp [hown]
    · split
      · rfl
      · split
        · rfl
        · rename_i hnone
          exact absurd hnone hdel
  · intro steps i x hi
    exact EngineState.run_keeps steps { db := db, runs := [] } (by simp) i x hi

/-- C11, counterexamples.  First: the store holds test `t1` of `alice` with
status `completed`, its finished workload still on the orchestrator;
`alice`'s stop request deletes the workload and overwrites the status with
`stopped`.  Second, with interleaved statements: `t1` is `running`; a tick
lists it; `alice`'s stop request then deletes the workload and writes
`stopped`; the tick, whose `Status` call now finds no workload, sends its
`UPDATE` and overwrites `stopped` with `completed`. -/
theorem engineRun_terminal_counterexample :
    primaryKey { rows := [sampleRow "completed"] } ∧
    isTerminal (sampleRow "completed").status ∧
    (({ db := { rows := [sampleRow "completed"] },
        controller := sampleController (sampleJob 0 3 0), answers := StoreAnswers.always } :
      LoadTestHandler).StopLoadTest "t1" "alice").code = 200 ∧
    (engineStep { rows := [sampleRow "completed"] }
      (.stop (sampleController (sampleJob 0 3 0)) StoreAnswers.always "t1" "alice")).rows =
        [sampleRow "stopped"] ∧
    (sampleRow "stopped").status ≠ (sampleRow "completed").status ∧
    (interleave { rows := [sampleRow "running"] }
      [.start (.tick (clusterController []) StoreAnswers.always (fun _ => 99)),
       .start (.stop (sampleController (sampleJob 1 0 0)) StoreAnswers.always "t1" "alice"),
       .next 1]).db.rows = [sampleRow "stopped"] ∧
    isTerminal (sampleRow "stopped").status ∧
    (interleave { rows := [sampleRow "running"] }
      [.start (.tick (clusterController []) StoreAnswers.always (fun _ => 99)),
       .start (.stop (sampleController (sampleJob 1 0 0)) StoreAnswers.always "t1" "alice"),
       .next 1, .next 0]).db.rows = [sampleRow "completed"] ∧
    (interleave { rows := [sampleRow "running"] }
      [.start (.tick (clusterController []) StoreAnswers.always (fun _ => 99)),
       .start (.stop (sampleController (sampleJob 1 0 0)) StoreAnswers.always "t1" "alice"),
       .next 1, .next 0, .next 0]).db.rows =
        [{ sampleRow "completed" with completedAt := some 99 }] := by
  refine ⟨by unfold primaryKey; decide, by decide, by rfl, by rfl, by decide, ?_, by decide, ?_,
    ?_⟩
  · rfl
  · rfl
  · rfl

/-- Witness of C11 as amended: with `t1` completed and `t9` running, a tick,
a create request and a stop request for `t9`, run one after another, leave
the row of `t1` as it is; `alice`'s stop request for `t1` sets it to
`stopped`; and in an interleaved run of a tick and that stop request the row
of `t1` stays first, the fields other than `status` and `completed_at`
unchanged. -/
theorem engineRun_terminal_witness :
    primaryKey { rows := [sampleRow "completed", goneRow] } ∧
    isTerminal (sampleRow "completed").status ∧
    sampleRow "completed" ∈
      (engineRun { rows := [sampleRow "completed", goneRow] } sampleOps).rows ∧
    (engineStep { rows := [sampleRow "completed", goneRow] }
      (.stop (sampleController (sampleJob 0 3 0)) StoreAnswers.always "t1" "alice")).rows =
        [sampleRow "stopped", goneRow] ∧
    (∃ x2, (interleave { rows := [sampleRow "completed", goneRow] }
        [.start (.tick (clusterController []) StoreAnswers.always (fun _ => 99)),
         .start (.stop (sampleController (sampleJob 0 3 0)) StoreAnswers.always "t1" "alice"),
         .next 0, .next 1, .next 0]).db.rows[0]? = some x2 ∧
      keepsRow (sampleRow "completed") x2) := by
  have hpk : primaryKey { rows := [sampleRow "completed", goneRow] } := by
    unfold primaryKey
    decide
  have ht : isTerminal (sampleRow "completed").status := by decide
  have h := engineRun_terminal { rows := [sampleRow "completed", goneRow] } sampleOps
    hpk (sampleRow "completed") (by simp) ht
  refine ⟨hpk, ht, ?_, ?_, ?_⟩
  · refine h.2.2.1 ?_
    intro op hop
    simp only [sampleOps, List.mem_cons, List.mem_singleton, List.not_mem_nil, or_false] at hop
    rcases hop with rfl | rfl | rfl
    · simp [isStopOf]
    · simp [isStopOf]
    · simp only [isStopOf, sampleRow]
      decide
  · rw [(h.2.2.2.1 (sampleController (sampleJob 0 3 0)) StoreAnswers.always "t1" "alice"
      (by decide) rfl).1 rfl]
    rfl
  · exact h.2.2.2.2.2.2.2 _ 0 (sampleRow "completed") rfl

/-! ### Completion time after a stop request or a failed Start -/

/-- C12, evaluation at the failing inputs, on a store that executes every
statement of the request.  After `alice`'s successful stop request on her
running test `t1`, and after a create request whose Start fails, the row has
a terminal status (`stopped`, `failed`) and a null `completed_at`; the next
reconciler tick, whatever the orchestrator answers, whatever the store
answers and whatever the clock, leaves the store as it is, `completed_at`
still null. -/
theorem completedAt_null_after_next_tick (c2 : LoadTestController) (a2 : StoreAnswers)
    (clock : String → Time) :
    (engineRun { rows := [sampleRow "running"] }
        [.stop (sampleController (sampleJob 1 0 0)) StoreAnswers.always "t1" "alice",
         .tick c2 a2 clock] =
      { rows := [sampleRow "stopped"] } ∧
      (sampleRow "stopped").completedAt = none) ∧
    (engineRun { rows := [] }
        [.create unreachableController StoreAnswers.always (some sampleRequest) "alice" 7 8,
         .tick c2 a2 clock] =
      { rows := [{ pendingTest sampleRequest "alice" 7 8 with status := "failed" }] } ∧
      ({ pendingTest sampleRequest "alice" 7 8 with status := "failed" } :
        LoadTest).completedAt = none) := by
  cases a2 with
  | mk query exec =>
    refine ⟨⟨?_, rfl⟩, ⟨?_, rfl⟩⟩
    · cases query <;> rfl
    · cases query <;> rfl

/-! ### Cleanup and the label of created workloads -/

theorem cleanupJob_names (now : Time) (olderThan : Int) (jobs : List Job)
    (deleted : List String) (name : String)
    (hname : name ∈ jobs.foldl (cleanupJob now olderThan) deleted) :
    name ∈ deleted ∨ ∃ job ∈ jobs, job.name = name := by
  induction jobs generalizing deleted with
  | nil => exact Or.inl hname
  | cons job rest ih =>
    rw [List.foldl_cons] at hname
    rcases ih _ hname with h | ⟨j, hj, hn⟩
    · unfold cleanupJob at h
      split at h
      · split at h
        · rcases List.mem_append.1 h with h1 | h1
          · exact Or.inl h1
          · rw [List.mem_singleton] at h1
            exact Or.inr ⟨job, List.mem_cons_self _ _, h1.symm⟩
        · exact Or.inl h
      · exact Or.inl h
    · exact Or.inr ⟨j, List.mem_cons_of_mem _ hj, hn⟩

/-- C17: the workload `StartLoadTest` submits has no label at all, so the
selector `app=loadtest-worker` does not select it, while
`CleanupCompletedJobs` lists with exactly that selector; hence on an
orchestrator that returns the workloads the selector selects, with names
unique in the namespace, the workload created for a test is not among the
listed ones and its name is never passed to a delete, whatever its
completion time, the clock and `olderThan`. -/
theorem CleanupCompletedJobs_skips_created (c : LoadTestController) (test : LoadTest)
    (cluster : List Job) (now : Time) (olderThan : Int) (job : Job)
    (hnames : (cluster.map (·.name)).Nodup)
    (hlist : c.kubeClient.listJobs c.ns "app=loadtest-worker" =
      .ok (cluster.filter fun j => labelSelected "app=loadtest-worker" j.labels))
    (hjob : job ∈ cluster) (hname : job.name = (c.buildJob test).name)
    (hlabels : job.labels = (c.buildJob test).labels) :
    c.StartLoadTest test = c.kubeClient.createJob c.ns (c.buildJob test) ∧
    (c.buildJob test).labels = [] ∧
    labelSelected "app=loadtest-worker" (c.buildJob test).labels = false ∧
    job ∉ cluster.filter (fun j => labelSelected "app=loadtest-worker" j.labels) ∧
    (c.CleanupCompletedJobs now olderThan).err = none ∧
    "loadtest-" ++ test.id ∉ (c.CleanupCompletedJobs now olderThan).deleted := by
  have hsel : labelSelected "app=loadtest-worker" job.labels = false := by
    rw [hlabels]
    rfl
  have hnot : job ∉ cluster.filter (fun j => labelSelected "app=loadtest-worker" j.labels) := by
    intro hmem
    rw [List.mem_filter] at hmem
    rw [hsel] at hmem
    exact absurd hmem.2 (by decide)
  refine ⟨rfl, rfl, rfl, hnot, ?_, ?_⟩
  · unfold LoadTestController.CleanupCompletedJobs
    rw [hlist]
  · unfold LoadTestController.CleanupCompletedJobs
    rw [hlist]
    intro hdel
    rcases cleanupJob_names now olderThan _ [] _ hdel with h | ⟨j, hj, hn⟩
    · simp at h
    · have hjc : j ∈ cluster := (List.mem_filter.1 hj).1
      have heq : j = job := by
        apply List.inj_on_of_nodup_map hnames hjc hjob
        rw [hn, hname]
        rfl
      rw [heq] at hj
      exact hnot hj

/-- Witness of C17: the orchestrator holds the completed workload of a
created test and a completed workload carrying the label; a cleanup long
after both completed deletes the labelled one only. -/
theorem CleanupCompletedJobs_skips_created_witness :
    ((clusterController [createdJob, labelledJob]).CleanupCompletedJobs 7200000000000
      3600000000000).deleted = ["other"] ∧
    "loadtest-" ++ (pendingTest sampleRequest "alice" 7 8).id ∉
      ((clusterController [createdJob, labelledJob]).CleanupCompletedJobs 7200000000000
        3600000000000).deleted :=
  ⟨by decide,
    (CleanupCompletedJobs_skips_created (clusterController [createdJob, labelledJob])
      (pendingTest sampleRequest "alice" 7 8) [createdJob, labelledJob] 7200000000000
      3600000000000 createdJob (by decide) rfl (by simp) rfl rfl).2.2.2.2.2⟩

/-! ### Log streamer -/

theorem runSteps_succ (consumerReads : Bool) (cancelAt : Option Nat) (steps k : Nat)
    (run : StreamRun) (event : Option StreamEvent) (next : Proc)
    (hstep : run.proc.step (cancelAt.any (· ≤ k))
      (consumerReads || decide (run.sent.length < 50)) = some (event, next)) :
    runSteps consumerReads cancelAt (steps + 1) k run =
      runSteps consumerReads cancelAt steps (k + 1)
        { proc := next, events := run.events ++ event.toList } := by
  simp only [runSteps, hstep]

/-- A goroutine that has returned stays where it is. -/
theorem runSteps_done (consumerReads : Bool) (cancelAt : Option Nat) (steps k : Nat)
    (events : List StreamEvent) :
    runSteps consumerReads cancelAt steps k { proc := .done, events := events } =
      { proc := .done, events := events } := by
  induction steps generalizing k with
  | zero => rfl
  | succ n ih =>
    simp only [runSteps, Proc.step]
    split
    · rfl
    · split
      · exact ih _
      · rfl

/-- Without cancellation and with a consumer that receives, forwarding log
lines sends them all, in order. -/
theorem runSteps_forwardLines (onDone atEnd : Proc) (lines : List Line) (steps k : Nat)
    (events : List StreamEvent) :
    runSteps true none (lines.length + steps) k
        { proc := forwardLines onDone lines atEnd, events := events } =
      runSteps true none steps (k + lines.length)
        { proc := atEnd, events := events ++ lineEvents lines } := by
  induction lines generalizing k events with
  | nil => simp [forwardLines, lineEvents]
  | cons line rest ih =>
    have hlen : (line :: rest).length + steps = (rest.length + steps) + 1 := by
      simp only [List.length_cons]
      omega
    rw [hlen, runSteps_succ true none _ k _ (some (.line (String.mk line)))
      (forwardLines onDone rest atEnd) (by simp [forwardLines, Proc.step])]
    rw [ih]
    have hk : k + 1 + rest.length = k + (line :: rest).length := by
      simp only [List.length_cons]
      omega
    rw [hk]
    simp [lineEvents, List.append_assoc]

theorem runSteps_poll (steps k : Nat) (events : List StreamEvent) (onDone otherwise : Proc) :
    runSteps true none (steps + 1) k { proc := .poll onDone otherwise, events := events } =
      runSteps true none steps (k + 1) { proc := otherwise, events := events } := by
  rw [runSteps_succ true none steps k _ none otherwise (by simp [Proc.step])]
  simp

theorem runSteps_getPod (steps k : Nat) (events : List StreamEvent) (next : Proc) :
    runSteps true none (steps + 1) k { proc := .getPod next, events := events } =
      runSteps true none steps (k + 1) { proc := next, events := events ++ [.podRead] } := by
  rw [runSteps_succ true none steps k _ (some .podRead) next (by simp [Proc.step])]
  simp

theorem runSteps_openLogs (steps k : Nat) (events : List StreamEvent) (follow : Bool)
    (tailLines : Nat) (next : Proc) :
    runSteps true none (steps + 1) k
        { proc := .openLogs follow tailLines next, events := events } =
      runSteps true none steps (k + 1)
        { proc := next, events := events ++ [.logsOpened follow tailLines] } := by
  rw [runSteps_succ true none steps k _ (some (.logsOpened follow tailLines)) next
    (by simp [Proc.step])]
  simp

theorem runSteps_send (steps k : Nat) (events : List StreamEvent) (line : String)
    (next : Proc) :
    runSteps true none (steps + 1) k { proc := .send line next, events := events } =
      runSteps true none steps (k + 1) { proc := next, events := events ++ [.line line] } := by
  rw [runSteps_succ true none steps k _ (some (.line line)) next (by simp [Proc.step])]
  simp

/-- The goroutine when the first read finds the pod in a terminal phase. -/
theorem StreamPodLogs_terminal_proc (env : StreamEnv) (podID : String) (fuel : Nat) (pod : Pod)
    (hpod : env.pod 0 = .ok pod) (hphase : pod.phase = "Succeeded" ∨ pod.phase = "Failed") :
    StreamPodLogs env podID (fuel + 1) =
      .poll .done
        (.getPod
          (.send ("Pod " ++ podID ++ " is " ++ pod.phase ++ ", streaming final logs...")
            (streamFinalLogs env
              (.send ("Pod " ++ podID ++ " completed, closing stream") .done)))) := by
  unfold StreamPodLogs
  rw [streamLoop, hpod]
  simp only [if_pos hphase]

/-- C18, as amended: when the first read finds the pod in phase `Succeeded`
or `Failed`, without cancellation and with a consumer that receives, the
goroutine reads the pod once, sends the notice that the final logs are
being streamed, opens the log tail (last 50 lines, no follow) once, and
then: if the tail opens, it sends its lines in order; if the tail does not
open, it sends the single line `Failed to get final logs: <error>` in their
place; it then sends the notice that the pod completed and the stream is
closing, and returns (the channel is closed, the pod is not read again).
Any number of steps from `lines + 5` on gives this run. -/
theorem StreamPodLogs_terminal_sequence (env : StreamEnv) (podID : String)
    (fuel extra : Nat) (pod : Pod) (hpod : env.pod 0 = .ok pod)
    (hphase : pod.phase = "Succeeded" ∨ pod.phase = "Failed") :
    (∀ stream, env.finalLogs = .ok stream →
      runSteps true none (stream.lines.length + 5 + extra) 0
          { proc := StreamPodLogs env podID (fuel + 1), events := [] } =
        { proc := .done
          events :=
            [.podRead,
             .line ("Pod " ++ podID ++ " is " ++ pod.phase ++ ", streaming final logs..."),
             .logsOpened false 50] ++ lineEvents stream.lines ++
            [.line ("Pod " ++ podID ++ " completed, closing stream")] }) ∧
    (∀ err, env.finalLogs = .error err →
      runSteps true none (6 + extra) 0
          { proc := StreamPodLogs env podID (fuel + 1), events := [] } =
        { proc := .done
          events :=
            [.podRead,
             .line ("Pod " ++ podID ++ " is " ++ pod.phase ++ ", streaming final logs..."),
             .logsOpened false 50,
             .line ("Failed to get final logs: " ++ err),
             .line ("Pod " ++ podID ++ " completed, closing stream")] }) := by
  rw [StreamPodLogs_terminal_proc env podID fuel pod hpod hphase]
  constructor
  · intro stream hlogs
    have hfuel : stream.lines.length + 5 + extra =
        (stream.lines.length + (extra + 1)) + 1 + 1 + 1 + 1 := by omega
    rw [hfuel, runSteps_poll, runSteps_getPod, runSteps_send]
    unfold streamFinalLogs
    rw [hlogs, runSteps_openLogs]
    simp only [runSteps_forwardLines]
    rw [runSteps_send, runSteps_done]
    simp [List.append_assoc]
  · intro err hlogs
    have hfuel : 6 + extra = extra + 1 + 1 + 1 + 1 + 1 + 1 := by omega
    rw [hfuel, runSteps_poll, runSteps_getPod, runSteps_send]
    unfold streamFinalLogs
    rw [hlogs, runSteps_openLogs, runSteps_send, runSteps_send, runSteps_done]
    simp

/-- Witness of C18 as amended: pod `p` is `Succeeded` and its tail has three
lines; the lines sent are the notice, the three lines, the closing notice. -/
theorem StreamPodLogs_terminal_sequence_witness :
    (terminalEnv (.ok threeLines)).pod 0 = .ok { name := "p", phase := "Succeeded" } ∧
    (runSteps true none 8 0
      { proc := StreamPodLogs (terminalEnv (.ok threeLines)) "p" 1, events := [] }).sent =
        ["Pod p is Succeeded, streaming final logs...", "one", "two", "three",
         "Pod p completed, closing stream"] ∧
    (runSteps true none 8 0
      { proc := StreamPodLogs (terminalEnv (.ok threeLines)) "p" 1, events := [] }).proc =
        .done := by
  have h := (StreamPodLogs_terminal_sequence (terminalEnv (.ok threeLines)) "p" 0 0
    { name := "p", phase := "Succeeded" } rfl (Or.inl rfl)).1 threeLines rfl
  have h8 : threeLines.lines.length + 5 + 0 = 8 := rfl
  rw [h8] at h
  rw [h]
  exact ⟨rfl, by decide, rfl⟩

/-- C18, counterexample: pod `p` is `Succeeded` and its log tail cannot be
opened (no log line of the pod is read); between the two notices the
sequence holds a third line, `Failed to get final logs: timeout`. -/
theorem StreamPodLogs_terminal_sequence_counterexample :
    (terminalEnv (.error "timeout")).pod 0 = .ok { name := "p", phase := "Succeeded" } ∧
    (runSteps true none 6 0
      { proc := StreamPodLogs (terminalEnv (.error "timeout")) "p" 1, events := [] }) =
        { proc := .done
          events := [.podRead, .line "Pod p is Succeeded, streaming final logs...",
            .logsOpened false 50, .line "Failed to get final logs: timeout",
            .line "Pod p completed, closing stream"] } ∧
    (runSteps true none 6 0
      { proc := StreamPodLogs (terminalEnv (.error "timeout")) "p" 1, events := [] }).sent ≠
        ["Pod p is Succeeded, streaming final logs...", "Pod p completed, closing stream"] := by
  refine ⟨rfl, by decide, by decide⟩

/-! ### Cancellation and the plain sends -/

/-- A goroutine standing at a plain send on a channel that holds 50 lines
nobody receives does not move, however many steps it is given and whether
or not the context is cancelled. -/
theorem runSteps_blocked_send (cancelAt : Option Nat) (steps k : Nat) (line : String)
    (next : Proc) (events : List StreamEvent)
    (hfull : ¬ (({ proc := .send line next, events := events } : StreamRun).sent.length < 50)) :
    runSteps false cancelAt steps k { proc := .send line next, events := events } =
      { proc := .send line next, events := events } := by
  induction steps generalizing k with
  | zero => rfl
  | succ n ih =>
    simp only [runSteps, Proc.step, hfull, decide_False, Bool.or_false, Bool.false_eq_true,
      if_false]
    split
    · rfl
    · split
      · exact ih _
      · rfl

/-- C19, evaluation at the failing inputs.  First: pod `p` is `Running`, its
follow stream delivers fifty lines and breaks, the consumer receives
nothing and the context is cancelled at step 1000.  The fifty guarded sends
fill the buffer; the goroutine then stands at the plain send of the
`Stream disconnected` line, and stays there for any number of further steps
although the context is cancelled: it never returns.  Second: pod `p` is
`Succeeded`, the consumer receives, and the context is cancelled while the
tail is forwarded (step 5); forwarding stops, but the closing notice is
still sent at step 6, after the cancellation. -/
theorem StreamPodLogs_plain_sends_ignore_cancel :
    ((runSteps false (some 1000) 60 0
        { proc := StreamPodLogs disconnectEnv "p" 2, events := [] }).proc =
        .send "Stream disconnected: unexpected EOF, reconnecting in 3s..."
          (.sleepOrDone 3 .done (streamLoop disconnectEnv "p" 1 1)) ∧
      (runSteps false (some 1000) 60 0
        { proc := StreamPodLogs disconnectEnv "p" 2, events := [] }).sent =
          List.replicate 50 "tick" ∧
      ∀ steps k,
        runSteps false (some 1000) steps k
            (runSteps false (some 1000) 60 0
              { proc := StreamPodLogs disconnectEnv "p" 2, events := [] }) =
          runSteps false (some 1000) 60 0
            { proc := StreamPodLogs disconnectEnv "p" 2, events := [] }) ∧
    (runSteps true (some 5) 7 0
        { proc := StreamPodLogs (terminalEnv (.ok threeLines)) "p" 1, events := [] } =
      { proc := .done
        events := [.podRead, .line "Pod p is Succeeded, streaming final logs...",
          .logsOpened false 50, .line "one", .line "Pod p completed, closing stream"] }) := by
  have hrun : runSteps false (some 1000) 60 0
      { proc := StreamPodLogs disconnectEnv "p" 2, events := [] } =
      { proc := .send "Stream disconnected: unexpected EOF, reconnecting in 3s..."
          (.sleepOrDone 3 .done (streamLoop disconnectEnv "p" 1 1)),
        events := [.podRead, .logsOpened true 0] ++
          List.replicate 50 (.line "tick") } := by
    decide
  refine ⟨⟨?_, ?_, ?_⟩, by decide⟩
  · rw [hrun]
  · rw [hrun]
    decide
  · intro steps k
    rw [hrun]
    exact runSteps_blocked_send (some 1000) steps k _ _ _ (by decide)

/-! ### The body of a successful create -/

/-- For every create answered 201: the body is the in-memory test, with
status `pending`; the statements sent are the insert of that test and the
`UPDATE` of its id to `running`, the in-memory test never being updated; the
store has gained one row, under an id no earlier row had, which equals the
body in every field but `status`; its status is `running` when the store
executed the `UPDATE` and `pending`, as in the body, when it did not. -/
theorem CreateLoadTest_body (h : LoadTestHandler) (req : Option CreateLoadTestRequest)
    (userID : String) (idNow createdNow : Time)
    (hok : (h.CreateLoadTest req userID idNow createdNow).code = 201) :
    ∃ test row, (h.CreateLoadTest req userID idNow createdNow).body = .test test ∧
      test.status = "pending" ∧
      (h.CreateLoadTest req userID idNow createdNow).db.rows = h.db.rows ++ [row] ∧
      (∀ r ∈ h.db.rows, r.id ≠ test.id) ∧
      (h.CreateLoadTest req userID idNow createdNow).writes =
        [.insertRow test, .setStatus test.id "running"] ∧
      row.id = test.id ∧ row.name = test.name ∧ row.userID = test.userID ∧
      row.targetURL = test.targetURL ∧ row.config = test.config ∧
      row.createdAt = test.createdAt ∧ row.completedAt = test.completedAt ∧
      (h.answers.exec (.setStatus test.id "running") = true →
        row = { test with status := "running" } ∧ row.status ≠ test.status) ∧
      (h.answers.exec (.setStatus test.id "running") = false → row = test) := by
  obtain ⟨r, db1, hreq, hv, hsave, hstart⟩ := CreateLoadTest_201 h req userID idNow createdNow hok
  subst hreq
  obtain ⟨_, hfresh, _⟩ := saveLoadTestToDB_ok h.db db1 _ _ hsave
  obtain ⟨_, hwrites, hrows⟩ := ((CreateLoadTest_outcomes h r userID idNow createdNow hv).2 db1
    hsave).2.2.2.1 hstart
  refine ⟨pendingTest r userID idNow createdNow,
    { pendingTest r userID idNow createdNow with
      status := if h.answers.exec (.setStatus (generateTestID idNow) "running") then "running"
        else "pending" }, ?_, rfl, hrows, hfresh, hwrites, rfl, rfl, rfl, rfl, rfl, rfl, rfl, ?_, ?_⟩
  · rw [CreateLoadTest_valid h r userID idNow createdNow hv, hsave, hstart]
  · intro hexec
    have hexec2 : h.answers.exec (.setStatus (generateTestID idNow) "running") = true := hexec
    constructor
    · rw [if_pos hexec2]
    · show ¬ (if h.answers.exec (.setStatus (generateTestID idNow) "running") = true
        then "running" else "pending") = "pending"
      rw [if_pos hexec2]
      decide
  · intro hexec
    have hexec2 : h.answers.exec (.setStatus (generateTestID idNow) "running") = false := hexec
    rw [if_neg (by rw [hexec2]; decide)]
    rfl

/-- Scenario S1 on an empty store that executes every statement: the body of
the 201 carries `pending`, the stored row `running`. -/
theorem CreateLoadTest_body_example :
    ((sampleHandler [] 0 0 0).CreateLoadTest (some sampleRequest) "alice" 7 8).code = 201 ∧
    ∃ test row,
      ((sampleHandler [] 0 0 0).CreateLoadTest (some sampleRequest) "alice" 7 8).body =
        .test test ∧
      test.status = "pending" ∧
      ((sampleHandler [] 0 0 0).CreateLoadTest (some sampleRequest) "alice" 7 8).db.rows =
        [] ++ [row] ∧
      row = { test with status := "running" } := by
  have hok : ((sampleHandler [] 0 0 0).CreateLoadTest (some sampleRequest) "alice" 7 8).code =
      201 := by rfl
  obtain ⟨test, row, h1, h2, h3, _, _, _, _, _, _, _, _, _, h4, _⟩ :=
    CreateLoadTest_body (sampleHandler [] 0 0 0) (some sampleRequest) "alice" 7 8 hok
  exact ⟨hok, test, row, h1, h2, h3, (h4 rfl).1⟩

/-- C21, evaluation at the failing input: the store holds `alice`'s test
`t1`, answers the `INSERT` and returns an error to the `UPDATE` of `status`;
`bob` sends the create request of scenario S1 and the orchestrator accepts
the workload.  `CreateLoadTest` answers 201 with the in-memory test, status
`pending`, as body, having sent the `UPDATE` to `running`; the error of that
`UPDATE` is dropped and the stored row is the inserted one, equal to the
body in every field, `status` included.  On a store that executes the
`UPDATE`, the same request leaves the row `running`, the body still
`pending`. -/
theorem CreateLoadTest_201_row_pending :
    ({ sampleHandler [sampleRow "running"] 1 0 0 with answers := StoreAnswers.noUpdate } :
        LoadTestHandler).CreateLoadTest (some sampleRequest) "bob" 11 12 =
      { code := 201, body := .test (pendingTest sampleRequest "bob" 11 12)
        db := { rows := [sampleRow "running", pendingTest sampleRequest "bob" 11 12] }
        calls := [.start (pendingTest sampleRequest "bob" 11 12)]
        writes := [.insertRow (pendingTest sampleRequest "bob" 11 12),
          .setStatus (generateTestID 11) "running"] } ∧
    (pendingTest sampleRequest "bob" 11 12).status = "pending" ∧
    (sampleHandler [sampleRow "running"] 1 0 0).CreateLoadTest (some sampleRequest) "bob" 11
        12 =
      { code := 201, body := .test (pendingTest sampleRequest "bob" 11 12)
        db := { rows := [sampleRow "running",
          { pendingTest sampleRequest "bob" 11 12 with status := "running" }] }
        calls := [.start (pendingTest sampleRequest "bob" 11 12)]
        writes := [.insertRow (pendingTest sampleRequest "bob" 11 12),
          .setStatus (generateTestID 11) "running"] } := by
  refine ⟨?_, rfl, ?_⟩
  · rfl
  · rfl

end Loadtest
